import Mathlib

/-!
# A shallow embedding of the `lattice` entity-component core

This development models the core of `src/world.c` (the archetype-based
entity-component runtime) as executable Lean functions over an explicit
`World` state, and proves properties of those functions.

Modelling conventions, chosen once and used throughout:

* Machine integers are `Nat` with explicit truncation where the C code relies
  on fixed width: entity handles are the C `uint64_t` values
  `(generation << 32) | index`, represented as
  `generation * 2^32 + index`; `uint32_t` wrap-around (generation bump) is
  written with `% 2^32`.
* Pointers are replaced by indices: an entity slot stores the index of its
  archetype in `World.archetypes` and the index of its chunk in that
  archetype's chunk list (the C code never removes archetypes or chunks
  before world teardown, so these indices are stable).  The C `NULL`
  archetype/chunk pointers of a dead slot are represented by index `0`
  together with `alive = false`; the code never reads the location of a dead
  slot.
* The pluggable allocator is modelled as always succeeding
  (`LT_STATUS_ALLOCATION_FAILED` paths are unreachable in the model); the
  explicit `u32` capacity checks of the C code are kept.
* Component `ctor`/`dtor`/`move` hooks are modelled as absent (`NULL`
  function pointers), which is the configuration the structural code paths
  fall back to: transfers are byte copies, initialisation is a byte copy of
  the initial value or zero-fill, destruction is a no-op.  None of the
  properties proved here mention the hooks.
* A component value is a list of bytes (`List Nat`); a chunk column is the
  list of its per-row byte lists.  Tag components (size 0) have no column in
  the C code (a `NULL` column pointer); they are given the empty column `[]`
  and every access to them is guarded by `size = 0` exactly as in the source.
* Out-parameters are modelled by `Option` results: `none` means the C
  function returned without writing the out-parameter.
* The trace hook only observes; it never changes world state, so it is
  omitted from the model.
-/

/-- `2^32`, the number of `uint32_t` values. -/
def U32LIMIT : Nat := 4294967296

/-- `UINT32_MAX`, used by the source as the free-list terminator. -/
def U32MAX : Nat := 4294967295

/-- `lt_status_t` from `include/lattice/types.h`. -/
inductive Status where
  | ok
  | invalidArgument
  | notFound
  | alreadyExists
  | capacityReached
  | allocationFailed
  | staleEntity
  | conflict
  | notImplemented
deriving DecidableEq, Repr, Inhabited

/-- `lt_entity_pack`: `((uint64_t)generation << 32) | index` for 32-bit
`index` and `generation`. -/
def lt_entity_pack (index generation : Nat) : Nat :=
  (generation % U32LIMIT) * U32LIMIT + index % U32LIMIT

/-- `lt_entity_index`: the low 32 bits of a handle. -/
def lt_entity_index (e : Nat) : Nat := e % U32LIMIT

/-- `lt_entity_generation`: the high 32 bits of a handle
(`(uint32_t)(entity >> 32)`). -/
def lt_entity_generation (e : Nat) : Nat := e / U32LIMIT % U32LIMIT

/-- `lt_entity_slot_t`.  `archetype`/`chunk` are indices (see the header
comment); for a dead slot they are meaningless and the C `NULL` is
represented by `0`. -/
structure Slot where
  generation : Nat
  next_free : Nat
  alive : Bool
  archetype : Nat
  chunk : Nat
  row : Nat
deriving DecidableEq, Repr

instance : Inhabited Slot :=
  ⟨{ generation := 0, next_free := 0, alive := false, archetype := 0, chunk := 0, row := 0 }⟩

/-- `lt_component_record_t` without the hook function pointers (modelled as
`NULL`, see the header comment). -/
structure ComponentRecord where
  name : String
  size : Nat
  align : Nat
  flags : Nat
deriving DecidableEq, Repr

instance : Inhabited ComponentRecord := ⟨{ name := "", size := 0, align := 0, flags := 0 }⟩

/-- `lt_chunk_t`.  `entities` always has length `capacity`; rows
`[count, capacity)` hold stale values exactly as the uninitialised region
does in C (zero-filled at chunk creation).  `cols` has one entry per
archetype component; a tag component's `NULL` column is the empty list. -/
structure Chunk where
  count : Nat
  capacity : Nat
  entities : List Nat
  cols : List (List (List Nat))
deriving DecidableEq, Repr

instance : Inhabited Chunk := ⟨{ count := 0, capacity := 0, entities := [], cols := [] }⟩

/-- `lt_archetype_t`.  The chunk linked list (with its tail pointer) is the
list `chunks`; `chunk_count` is its length. -/
structure Archetype where
  component_ids : List Nat
  rows_per_chunk : Nat
  chunks : List Chunk
deriving DecidableEq, Repr

instance : Inhabited Archetype := ⟨{ component_ids := [], rows_per_chunk := 0, chunks := [] }⟩

/-- `lt_deferred_op_kind_t`. -/
inductive DeferredKind where
  | addComponent
  | removeComponent
  | destroyEntity
deriving DecidableEq, Repr

/-- `lt_deferred_op_t`; `payload = some v` is the owned heap copy of the
initial-value bytes (`payload_size`/`payload_align` are implied by `v`). -/
structure DeferredOp where
  kind : DeferredKind
  entity : Nat
  component_id : Nat
  payload : Option (List Nat)
deriving DecidableEq, Repr

/-- `lt_world_s`.  `components` carries the dummy record at index `0`
(the C code allocates `capacity + 1` records and never uses index `0`), so
the number of registered components is `components.length - 1`.
`root_archetype` is the index of the root archetype (always `0`: it is the
first archetype created, at world startup). -/
structure World where
  target_chunk_bytes : Nat
  slots : List Slot
  entity_capacity : Nat
  live_entity_count : Nat
  free_entity_count : Nat
  free_entity_head : Nat
  components : List ComponentRecord
  archetypes : List Archetype
  root_archetype : Nat
  total_chunk_count : Nat
  deferred : List DeferredOp
  defer_depth : Nat
  structural_move_count : Nat
deriving DecidableEq, Repr

/-- `world->component_count`. -/
def World.componentCount (w : World) : Nat := w.components.length - 1

/-- `world->components[cid]`: reads within the zero-initialised record
array; an index beyond the written records yields the zeroed record. -/
def World.componentGet (w : World) (cid : Nat) : ComponentRecord :=
  w.components.getD cid default

/-- Replace the element at index `i` (identity when out of range); the
model's stand-in for an in-place store through a C pointer. -/
def listModify {α : Type} (l : List α) (i : Nat) (f : α → α) : List α :=
  match l, i with
  | [], _ => []
  | a :: rest, 0 => f a :: rest
  | a :: rest, n + 1 => a :: listModify rest n f

/-- In-place update of one archetype. -/
def World.modifyArchetype (w : World) (ai : Nat) (f : Archetype → Archetype) : World :=
  { w with archetypes := listModify w.archetypes ai f }

/-- In-place update of one chunk of one archetype. -/
def World.modifyChunk (w : World) (ai ci : Nat) (f : Chunk → Chunk) : World :=
  w.modifyArchetype ai (fun a => { a with chunks := listModify a.chunks ci f })

/-- In-place update of one entity slot. -/
def World.modifySlot (w : World) (i : Nat) (f : Slot → Slot) : World :=
  { w with slots := listModify w.slots i f }

/-- The slot at index `i` (dereference of `&world->entities[i]`). -/
def World.slotD (w : World) (i : Nat) : Slot := w.slots.getD i default

/-- The archetype at index `ai`. -/
def World.archD (w : World) (ai : Nat) : Archetype := w.archetypes.getD ai default

/-- The chunk at index `ci` of archetype `ai`. -/
def World.chunkD (w : World) (ai ci : Nat) : Chunk := (w.archD ai).chunks.getD ci default

/-- Read the byte value of component column `compIdx` at `row`
(dereference of `lt_chunk_component_ptr`). -/
def Chunk.readCell (c : Chunk) (compIdx row : Nat) : List Nat :=
  (c.cols.getD compIdx []).getD row []

/-- Store `bytes` into component column `compIdx` at `row`. -/
def Chunk.writeCell (c : Chunk) (compIdx row : Nat) (bytes : List Nat) : Chunk :=
  { c with cols := listModify c.cols compIdx (fun col => listModify col row (fun _ => bytes)) }

/-! ## Sorted key construction (`lt_world_component_key_with_add` / `_with_remove`) -/

/-- The body of the merge loop of `lt_world_component_key_with_add`: one
iteration per destination cell, with `s` the source cursor (`src_i`) and `d`
the inserted flag (`dst_i`).  Returns the produced cells together with the
final flag. -/
def keyAddLoop (key : List Nat) (add_id : Nat) : Nat → Nat → Nat → List Nat × Nat
  | 0, _, d => ([], d)
  | n + 1, s, d =>
    if s ≥ key.length ∨ (d = 0 ∧ add_id < key.getD s 0) then
      let r := keyAddLoop key add_id n s 1
      (add_id :: r.1, r.2)
    else
      let r := keyAddLoop key add_id n (s + 1) d
      (key.getD s 0 :: r.1, r.2)

/-- `lt_world_component_key_with_add`: merge `add_id` into the sorted key.
The allocation-failure and `SIZE_MAX` overflow paths of the source cannot
occur in the model, so the result is the bare key.  The trailing
`if (dst_i == 0)` patch of the source is kept verbatim. -/
def lt_world_component_key_with_add (key : List Nat) (add_id : Nat) : List Nat :=
  let count := key.length + 1
  let r := keyAddLoop key add_id count 0 0
  if r.2 = 0 then r.1.set (count - 1) add_id else r.1

/-- `lt_world_component_key_with_remove`: copy every id except `remove_id`
into the fresh key (`NOT_FOUND` when the archetype key is empty).  The C
code writes through a buffer of `len - 1` cells; when `remove_id` occurs
exactly once in the key the copy loop fills it exactly, which is the
situation at every call site. -/
def lt_world_component_key_with_remove (key : List Nat) (remove_id : Nat) :
    Status × List Nat :=
  if key.length = 0 then (Status.notFound, [])
  else (Status.ok, key.filter (fun i => i ≠ remove_id))

/-! ## Archetype store -/

/-- The linear scan of `lt_archetype_find_component_index`: position of the
first occurrence of `cid`. -/
def findComponentIdx (ids : List Nat) (cid : Nat) : Option Nat :=
  match ids with
  | [] => none
  | x :: rest => if x = cid then some 0 else (findComponentIdx rest cid).map (· + 1)

/-- `lt_archetype_find_component_index`: position of `component_id` in the
archetype key, `none` when absent (or when the id is the invalid id `0`). -/
def lt_archetype_find_component_index (a : Archetype) (component_id : Nat) : Option Nat :=
  if component_id = 0 then none
  else findComponentIdx a.component_ids component_id

/-- The linear scan of `lt_find_archetype` over the archetype array,
comparing keys (`lt_component_id_set_equal` is plain list equality). -/
def findArchetypeIdx (archs : List Archetype) (ids : List Nat) : Option Nat :=
  match archs with
  | [] => none
  | a :: rest =>
    if a.component_ids = ids then some 0 else (findArchetypeIdx rest ids).map (· + 1)

/-- `lt_find_archetype`: index of the archetype with the given key. -/
def lt_find_archetype (w : World) (ids : List Nat) : Option Nat :=
  findArchetypeIdx w.archetypes ids

/-- `lt_compute_rows_per_chunk`: `target_chunk_bytes` divided by the per-row
cost (`sizeof(lt_entity_t) = 8` plus the component sizes), clamped to
`[1, 4096]`.  The `SIZE_MAX` overflow guard of the source cannot trigger
over `Nat`. -/
def lt_compute_rows_per_chunk (w : World) (ids : List Nat) : Nat :=
  let per_row_bytes := 8 + (ids.map (fun cid => (w.componentGet cid).size)).sum
  let rows := w.target_chunk_bytes / per_row_bytes
  let rows := if rows = 0 then 1 else rows
  if rows > 4096 then 4096 else rows

/-- `lt_archetype_create`: append a fresh archetype (empty chunk list) and
return its index.  Allocation always succeeds in the model; the `u32`
archetype-count guard is kept. -/
def lt_archetype_create (w : World) (ids : List Nat) : Status × World × Nat :=
  if w.archetypes.length = U32MAX then (Status.capacityReached, w, 0)
  else
    let rpc := lt_compute_rows_per_chunk w ids
    let rpc := if rpc = 0 then 1 else rpc
    let arch : Archetype := { component_ids := ids, rows_per_chunk := rpc, chunks := [] }
    (Status.ok, { w with archetypes := w.archetypes ++ [arch] }, w.archetypes.length)

/-- `lt_find_or_create_archetype`. -/
def lt_find_or_create_archetype (w : World) (ids : List Nat) : Status × World × Nat :=
  match lt_find_archetype w ids with
  | some ai => (Status.ok, w, ai)
  | none => lt_archetype_create w ids

/-! ## Chunk storage -/

/-- `lt_chunk_create`: a zero-filled chunk of `rows_per_chunk` rows (at
least 1): the entity column plus one zero-filled column per non-tag
component; tag columns are the `NULL` column `[]`. -/
def lt_chunk_create (w : World) (arch : Archetype) : Chunk :=
  let cap := if arch.rows_per_chunk = 0 then 1 else arch.rows_per_chunk
  { count := 0
    capacity := cap
    entities := List.replicate cap 0
    cols := arch.component_ids.map (fun cid =>
      let sz := (w.componentGet cid).size
      if sz = 0 then [] else List.replicate cap (List.replicate sz 0)) }

/-- First chunk of the list with a free row (`count < capacity`), as an
index into the chunk list. -/
def findFreeChunk : List Chunk → Option Nat
  | [] => none
  | c :: rest =>
    if c.count < c.capacity then some 0
    else (findFreeChunk rest).map (· + 1)

/-- `lt_archetype_alloc_row`: take the next row of the first non-full chunk,
or append a fresh chunk (then `count = 1`, row `0`) bumping the archetype's
and the world's chunk counters.  Returns `(status, world, chunk index,
row)`. -/
def lt_archetype_alloc_row (w : World) (ai : Nat) : Status × World × Nat × Nat :=
  let arch := w.archD ai
  match findFreeChunk arch.chunks with
  | some ci =>
    let row := (arch.chunks.getD ci default).count
    (Status.ok, w.modifyChunk ai ci (fun c => { c with count := c.count + 1 }), ci, row)
  | none =>
    let newChunk := { lt_chunk_create w arch with count := 1 }
    let w' := w.modifyArchetype ai (fun a => { a with chunks := a.chunks ++ [newChunk] })
    (Status.ok, { w' with total_chunk_count := w'.total_chunk_count + 1 },
      arch.chunks.length, 0)

/-- The column-copy loop shared by the structural moves: for every component
index of `ids` whose component is not a tag, copy the cell at `srcRow` of
the chunk at `(srcAi, srcCi)` into the cell at `dstRow` of the chunk at
`(dstAi, dstCi)` (the `memcpy` fallback of `lt_component_transfer`). -/
def copyRowCols (w : World) (ids : List Nat)
    (srcAi srcCi srcRow dstAi dstCi dstRow : Nat) : World :=
  (List.range ids.length).foldl
    (fun w i =>
      if (w.componentGet (ids.getD i 0)).size = 0 then w
      else
        let bytes := (w.chunkD srcAi srcCi).readCell i srcRow
        w.modifyChunk dstAi dstCi (fun c => c.writeCell i dstRow bytes))
    w

/-- `lt_archetype_swap_remove_row`: when removing a non-last row, move the
last row (entity id and every non-tag column) into the hole, bump the
structural-move counter, and redirect the moved entity's slot; in every
case decrement `count`.  The guard clauses of the source are kept. -/
def lt_archetype_swap_remove_row (w : World) (ai ci row : Nat) : World :=
  let chunk := w.chunkD ai ci
  if chunk.count = 0 ∨ row ≥ chunk.count then w
  else
    let last_row := chunk.count - 1
    let w1 :=
      if row = last_row then w
      else
        let moved_entity := chunk.entities.getD last_row 0
        let wA := { w with structural_move_count := w.structural_move_count + 1 }
        let wB := wA.modifyChunk ai ci
          (fun c => { c with entities := c.entities.set row moved_entity })
        let wC := copyRowCols wB (w.archD ai).component_ids ai ci last_row ai ci row
        let moved_index := lt_entity_index moved_entity
        if moved_index < wC.slots.length then
          wC.modifySlot moved_index
            (fun s => { s with archetype := ai, chunk := ci, row := row })
        else wC
    w1.modifyChunk ai ci (fun c => { c with count := c.count - 1 })

/-! ## Entity table -/

/-- `lt_world_get_live_slot`: decode the handle and find its live slot
(`some index` accompanies `OK`). -/
def lt_world_get_live_slot (w : World) (e : Nat) : Status × Option Nat :=
  if e = 0 then (Status.invalidArgument, none)
  else
    let index := lt_entity_index e
    let generation := lt_entity_generation e
    if index ≥ w.slots.length then (Status.staleEntity, none)
    else
      let slot := w.slotD index
      if slot.alive = false ∨ slot.generation ≠ generation then (Status.staleEntity, none)
      else (Status.ok, some index)

/-- The capacity-doubling loop shared by the growth helpers: double `cap`
until it reaches `min`, failing (`none`, i.e. `CAPACITY_REACHED`) as soon as
a doubling would start from above `UINT32_MAX / 2`.  The fuel only bounds
the recursion; 64 doublings from any positive start exceed the `u32` guard,
so the fuel is never the deciding factor at the call sites (which pass
`cap ≥ 1`). -/
def growCapacityLoop : Nat → Nat → Nat → Option Nat
  | 0, _, _ => none
  | fuel + 1, cap, min =>
    if cap ≥ min then some cap
    else if cap > 2147483647 then none
    else growCapacityLoop fuel (cap * 2) min

/-- `lt_grow_entities`: grow the slot-array capacity geometrically (start
64, doubling); reallocation preserves the slots and always succeeds in the
model. -/
def lt_grow_entities (w : World) (min_capacity : Nat) : Status × World :=
  if w.entity_capacity ≥ min_capacity then (Status.ok, w)
  else
    match growCapacityLoop 64 (if w.entity_capacity = 0 then 64 else w.entity_capacity)
        min_capacity with
    | none => (Status.capacityReached, w)
    | some cap => (Status.ok, { w with entity_capacity := cap })

/-- The shared tail of `lt_entity_create` after a slot index has been
obtained: fix a zero generation to `1`, pack the handle, take a row of the
root archetype, write the entity column, fill in the slot and bump the live
counter. -/
def entityCreateFinish (w : World) (index : Nat) : Status × World × Option Nat :=
  let w := w.modifySlot index (fun s => if s.generation = 0 then { s with generation := 1 } else s)
  let generation := (w.slotD index).generation
  let entity := lt_entity_pack index generation
  match lt_archetype_alloc_row w w.root_archetype with
  | (s, w', ci, row) =>
    if s ≠ Status.ok then (s, w', none)
    else
      let w'' := w'.modifyChunk w'.root_archetype ci
        (fun c => { c with entities := c.entities.set row entity })
      let w3 := w''.modifySlot index (fun sl =>
        { sl with alive := true, next_free := U32MAX,
                  archetype := w''.root_archetype, chunk := ci, row := row })
      (Status.ok, { w3 with live_entity_count := w3.live_entity_count + 1 }, some entity)

/-- `lt_entity_create`: pop the free-list head when non-empty, else append a
fresh zeroed slot (growing the capacity when full); then insert the entity
into the root archetype.  The rollback path of the source is unreachable in
the model (row allocation always succeeds). -/
def lt_entity_create (w : World) : Status × World × Option Nat :=
  if w.free_entity_head ≠ U32MAX then
    let index := w.free_entity_head
    let slot := w.slotD index
    let w1 := { w with free_entity_head := slot.next_free,
                       free_entity_count := w.free_entity_count - 1 }
    entityCreateFinish w1 index
  else
    let grown :=
      if w.slots.length = w.entity_capacity then lt_grow_entities w (w.slots.length + 1)
      else (Status.ok, w)
    if grown.1 ≠ Status.ok then (grown.1, w, none)
    else
      let w1 := grown.2
      let index := w1.slots.length
      let w2 := { w1 with slots := w1.slots ++ [default] }
      entityCreateFinish w2 index

/-! ## Deferred command buffer -/

/-- `lt_enqueue_destroy_entity` (buffer growth always succeeds in the
model). -/
def lt_enqueue_destroy_entity (w : World) (e : Nat) : Status × World :=
  if e = 0 then (Status.invalidArgument, w)
  else
    (Status.ok, { w with deferred := w.deferred ++
      [{ kind := DeferredKind.destroyEntity, entity := e, component_id := 0,
         payload := none }] })

/-- `lt_enqueue_remove_component`. -/
def lt_enqueue_remove_component (w : World) (e cid : Nat) : Status × World :=
  if e = 0 ∨ cid = 0 then (Status.invalidArgument, w)
  else
    (Status.ok, { w with deferred := w.deferred ++
      [{ kind := DeferredKind.removeComponent, entity := e, component_id := cid,
         payload := none }] })

/-- `lt_enqueue_add_component`: the initial-value bytes are copied into an
owned payload at enqueue time when the component has a non-zero declared
size and an initial value was supplied; note that the record is read at
`components[component_id]` without a registration check, landing in the
zero-initialised slack of the record array for an unregistered id. -/
def lt_enqueue_add_component (w : World) (e cid : Nat) (initial : Option (List Nat)) :
    Status × World :=
  if e = 0 ∨ cid = 0 then (Status.invalidArgument, w)
  else
    let component := w.componentGet cid
    let payload :=
      match initial with
      | some v => if component.size > 0 then some v else none
      | none => none
    (Status.ok, { w with deferred := w.deferred ++
      [{ kind := DeferredKind.addComponent, entity := e, component_id := cid,
         payload := payload }] })

/-- `lt_world_begin_defer`. -/
def lt_world_begin_defer (w : World) : Status × World :=
  if w.defer_depth = U32MAX then (Status.capacityReached, w)
  else (Status.ok, { w with defer_depth := w.defer_depth + 1 })

/-- `lt_world_end_defer`. -/
def lt_world_end_defer (w : World) : Status × World :=
  if w.defer_depth = 0 then (Status.conflict, w)
  else (Status.ok, { w with defer_depth := w.defer_depth - 1 })

/-! ## Structural engine -/

/-- `lt_entity_destroy`: inside a defer region the operation is enqueued;
otherwise the row is swap-removed (the dtor sweep is a no-op without hooks),
the slot is retired with a generation bump that skips `0` on `u32` wrap, and
the slot is pushed onto the free list. -/
def lt_entity_destroy (w : World) (e : Nat) : Status × World :=
  if e = 0 then (Status.invalidArgument, w)
  else if w.defer_depth > 0 then lt_enqueue_destroy_entity w e
  else
    match lt_world_get_live_slot w e with
    | (s, none) => (s, w)
    | (_, some index) =>
      let slot := w.slotD index
      let w1 := lt_archetype_swap_remove_row w slot.archetype slot.chunk slot.row
      let w2 := w1.modifySlot index (fun sl =>
        let g := (sl.generation + 1) % U32LIMIT
        { sl with alive := false,
                  generation := if g = 0 then 1 else g,
                  archetype := 0, chunk := 0, row := 0,
                  next_free := w1.free_entity_head })
      let w3 := { w2 with free_entity_head := lt_entity_index e,
                          free_entity_count := w2.free_entity_count + 1 }
      let w4 := { w3 with live_entity_count :=
                    if w3.live_entity_count > 0 then w3.live_entity_count - 1
                    else w3.live_entity_count }
      (Status.ok, w4)

/-- `lt_entity_is_alive`: the boolean out-parameter is written only on the
`OK` paths (out-of-range index, or the slot test); the null handle returns
`INVALID_ARGUMENT` without writing it. -/
def lt_entity_is_alive (w : World) (e : Nat) : Status × Option Bool :=
  if e = 0 then (Status.invalidArgument, none)
  else
    let index := lt_entity_index e
    let generation := lt_entity_generation e
    if index ≥ w.slots.length then (Status.ok, some false)
    else
      let slot := w.slotD index
      (Status.ok, some (slot.alive = true ∧ slot.generation = generation))

/-- One iteration of the destination-column loop of `lt_add_component`
(destination component index `i`): the added component's cell is
initialised from the payload (or zero-filled, the ctor being absent);
every other destination component is transferred from the source row,
resolving its index in the source archetype. -/
def addFillStep (dstIds : List Nat) (cid : Nat) (initial : Option (List Nat))
    (srcAi srcCi srcRow dAi dCi dR : Nat) (w : World) (i : Nat) : World :=
  if dstIds.getD i 0 = cid then
    if (w.componentGet (dstIds.getD i 0)).size = 0 then w
    else
      w.modifyChunk dAi dCi (fun c => c.writeCell i dR
        (match initial with
         | some v => v
         | none => List.replicate (w.componentGet (dstIds.getD i 0)).size 0))
  else
    if (w.componentGet (dstIds.getD i 0)).size = 0 then w
    else
      w.modifyChunk dAi dCi (fun c => c.writeCell i dR
        ((w.chunkD srcAi srcCi).readCell
          ((lt_archetype_find_component_index (w.archD srcAi)
            (dstIds.getD i 0)).getD 0)
          srcRow))

def addComponentFillRow (w : World) (dstIds : List Nat) (cid : Nat)
    (initial : Option (List Nat)) (srcAi srcCi srcRow dstAi dstCi dstRow : Nat) : World :=
  (List.range dstIds.length).foldl
    (addFillStep dstIds cid initial srcAi srcCi srcRow dstAi dstCi dstRow) w

/-- `lt_add_component`: validate, defer when inside a defer region,
otherwise move the entity to the `key_with_add` destination archetype:
allocate a destination row, write the entity column, fill the columns,
redirect the slot, bump the structural-move counter and swap-remove the
source row. -/
def lt_add_component (w : World) (e cid : Nat) (initial : Option (List Nat)) :
    Status × World :=
  if e = 0 ∨ cid = 0 then (Status.invalidArgument, w)
  else if cid > w.componentCount then (Status.notFound, w)
  else if w.defer_depth > 0 then lt_enqueue_add_component w e cid initial
  else
    match lt_world_get_live_slot w e with
    | (s, none) => (s, w)
    | (_, some index) =>
      let slot := w.slotD index
      let srcAi := slot.archetype
      let srcCi := slot.chunk
      let srcRow := slot.row
      if (lt_archetype_find_component_index (w.archD srcAi) cid).isSome then
        (Status.alreadyExists, w)
      else
        let dstIds := lt_world_component_key_with_add (w.archD srcAi).component_ids cid
        match lt_find_or_create_archetype w dstIds with
        | (s, w1, dstAi) =>
          if s ≠ Status.ok then (s, w1)
          else
            match lt_archetype_alloc_row w1 dstAi with
            | (s, w2, dstCi, dstRow) =>
              if s ≠ Status.ok then (s, w2)
              else
                let w3 := w2.modifyChunk dstAi dstCi
                  (fun c => { c with entities := c.entities.set dstRow e })
                let w4 := addComponentFillRow w3 dstIds cid initial
                  srcAi srcCi srcRow dstAi dstCi dstRow
                let w5 := w4.modifySlot index (fun sl =>
                  { sl with archetype := dstAi, chunk := dstCi, row := dstRow })
                let w6 := { w5 with structural_move_count := w5.structural_move_count + 1 }
                (Status.ok, lt_archetype_swap_remove_row w6 srcAi srcCi srcRow)

/-- The retained-column loop of `lt_remove_component`: every destination
component is transferred from its position in the source archetype.  (The
removed component's dtor call on the source row is a no-op without
hooks.) -/
def removeComponentFillRow (w : World) (dstIds : List Nat)
    (srcAi srcCi srcRow dstAi dstCi dstRow : Nat) : World :=
  (List.range dstIds.length).foldl
    (fun w i =>
      if (w.componentGet (dstIds.getD i 0)).size = 0 then w
      else
        w.modifyChunk dstAi dstCi (fun c => c.writeCell i dstRow
          ((w.chunkD srcAi srcCi).readCell
            ((lt_archetype_find_component_index (w.archD srcAi)
              (dstIds.getD i 0)).getD 0)
            srcRow)))
    w

/-- `lt_remove_component`: symmetric to `lt_add_component`, with
`NOT_FOUND` when the component is absent from the source archetype and
`key_with_remove` for the destination key. -/
def lt_remove_component (w : World) (e cid : Nat) : Status × World :=
  if e = 0 ∨ cid = 0 then (Status.invalidArgument, w)
  else if cid > w.componentCount then (Status.notFound, w)
  else if w.defer_depth > 0 then lt_enqueue_remove_component w e cid
  else
    match lt_world_get_live_slot w e with
    | (s, none) => (s, w)
    | (_, some index) =>
      let slot := w.slotD index
      let srcAi := slot.archetype
      let srcCi := slot.chunk
      let srcRow := slot.row
      if (lt_archetype_find_component_index (w.archD srcAi) cid).isNone then
        (Status.notFound, w)
      else
        match lt_world_component_key_with_remove (w.archD srcAi).component_ids cid with
        | (s, dstIds) =>
          if s ≠ Status.ok then (s, w)
          else
            match lt_find_or_create_archetype w dstIds with
            | (s, w1, dstAi) =>
              if s ≠ Status.ok then (s, w1)
              else
                match lt_archetype_alloc_row w1 dstAi with
                | (s, w2, dstCi, dstRow) =>
                  if s ≠ Status.ok then (s, w2)
                  else
                    let w3 := w2.modifyChunk dstAi dstCi
                      (fun c => { c with entities := c.entities.set dstRow e })
                    let w4 := removeComponentFillRow w3 dstIds
                      srcAi srcCi srcRow dstAi dstCi dstRow
                    let w5 := w4.modifySlot index (fun sl =>
                      { sl with archetype := dstAi, chunk := dstCi, row := dstRow })
                    let w6 := { w5 with structural_move_count :=
                                  w5.structural_move_count + 1 }
                    (Status.ok, lt_archetype_swap_remove_row w6 srcAi srcCi srcRow)

/-! ## Flush -/

/-- Re-execution of one queued command as its non-deferred operation
(the `switch` of the flush loop). -/
def applyDeferredOp (w : World) (op : DeferredOp) : Status × World :=
  match op.kind with
  | DeferredKind.addComponent => lt_add_component w op.entity op.component_id op.payload
  | DeferredKind.removeComponent => lt_remove_component w op.entity op.component_id
  | DeferredKind.destroyEntity => lt_entity_destroy w op.entity

/-- The flush loop: apply the commands in enqueue order, stopping at the
first non-`OK` result (whose status is kept). -/
def runDeferredOps (w : World) : List DeferredOp → Status × World
  | [] => (Status.ok, w)
  | op :: rest =>
    match applyDeferredOp w op with
    | (Status.ok, w') => runDeferredOps w' rest
    | (s, w') => (s, w')

/-- `lt_world_flush`: `CONFLICT` (and no change) while `defer_depth > 0`;
otherwise run the queue in order and clear it whatever happened.  The C
loop re-reads `world->deferred_ops` on every iteration; at depth `0` none
of the re-executed operations touches the queue, so iterating the snapshot
is the same loop. -/
def lt_world_flush (w : World) : Status × World :=
  if w.defer_depth ≠ 0 then (Status.conflict, w)
  else
    match runDeferredOps w w.deferred with
    | (s, w') => (s, { w' with deferred := [] })

/-! ## Component access and registration -/

/-- `lt_has_component`: an unregistered id answers `OK` with the flag
cleared before the entity is even resolved. -/
def lt_has_component (w : World) (e cid : Nat) : Status × Option Bool :=
  if e = 0 ∨ cid = 0 then (Status.invalidArgument, none)
  else if cid > w.componentCount then (Status.ok, some false)
  else
    match lt_world_get_live_slot w e with
    | (s, none) => (s, none)
    | (_, some index) =>
      (Status.ok,
        some (lt_archetype_find_component_index (w.archD (w.slotD index).archetype) cid).isSome)

/-- `lt_get_component`: `*out_ptr` is cleared up front, then written with
`lt_chunk_component_ptr` on success.  A pointer is modelled by the bytes it
points at, the `NULL` pointer of a tag component by `none`; the outer
`Option` is `none` when the out-parameter was never written. -/
def lt_get_component (w : World) (e cid : Nat) : Status × Option (Option (List Nat)) :=
  if e = 0 ∨ cid = 0 then (Status.invalidArgument, none)
  else if cid > w.componentCount then (Status.notFound, some none)
  else
    match lt_world_get_live_slot w e with
    | (s, none) => (s, some none)
    | (_, some index) =>
      let slot := w.slotD index
      match lt_archetype_find_component_index (w.archD slot.archetype) cid with
      | none => (Status.notFound, some none)
      | some ci =>
        if (w.componentGet cid).size = 0 then (Status.ok, some none)
        else (Status.ok, some (some ((w.chunkD slot.archetype slot.chunk).readCell ci slot.row)))

/-- `lt_component_desc_t` (hook pointers omitted, see the header comment). -/
structure ComponentDesc where
  name : String
  size : Nat
  align : Nat
  flags : Nat
deriving DecidableEq, Repr

/-- `lt_component_desc_validate`: tags need `size = 0` and `align ∈ {0,1}`;
data components need `size > 0` and a power-of-two alignment. -/
def lt_component_desc_validate (desc : ComponentDesc) : Status :=
  if desc.name = "" then Status.invalidArgument
  else if desc.flags.testBit 0 then
    if desc.size ≠ 0 then Status.invalidArgument
    else if desc.align ≠ 0 ∧ desc.align ≠ 1 then Status.invalidArgument
    else Status.ok
  else if desc.size = 0 then Status.invalidArgument
  else if ¬ (desc.align ≠ 0 ∧ Nat.land desc.align (desc.align - 1) = 0) then
    Status.invalidArgument
  else Status.ok

/-- `lt_register_component`: validate, reject duplicate names, assign the
next dense id (`component_count + 1`) and append the record (index `0` of
the record array stays the dummy). -/
def lt_register_component (w : World) (desc : ComponentDesc) : Status × World × Option Nat :=
  let s := lt_component_desc_validate desc
  if s ≠ Status.ok then (s, w, none)
  else if (List.range w.componentCount).any
      (fun i => (w.componentGet (i + 1)).name = desc.name) then
    (Status.alreadyExists, w, none)
  else if w.componentCount = U32MAX - 1 then (Status.capacityReached, w, none)
  else
    let id := w.componentCount + 1
    let record : ComponentRecord :=
      { name := desc.name, size := desc.size,
        align := if desc.align = 0 then 1 else desc.align, flags := desc.flags }
    (Status.ok, { w with components := w.components ++ [record] }, some id)

/-- `lt_world_get_stats` (the fields the claims mention). -/
structure WorldStats where
  live_entities : Nat
  entity_capacity : Nat
  allocated_entity_slots : Nat
  free_entity_slots : Nat
  registered_components : Nat
  archetype_count : Nat
  chunk_count : Nat
  pending_commands : Nat
  defer_depth : Nat
  structural_moves : Nat
deriving DecidableEq, Repr

/-- `lt_world_get_stats`. -/
def lt_world_get_stats (w : World) : WorldStats :=
  { live_entities := w.live_entity_count
    entity_capacity := w.entity_capacity
    allocated_entity_slots := w.slots.length
    free_entity_slots := w.free_entity_count
    registered_components := w.componentCount
    archetype_count := w.archetypes.length
    chunk_count := w.total_chunk_count
    pending_commands := w.deferred.length
    defer_depth := w.defer_depth
    structural_moves := w.structural_move_count }

/-- `lt_world_create` with a default (or `NULL`) configuration: default
16 KiB chunk budget, empty tables, free-list terminator head, and the root
archetype (empty key) created at index `0`.  `rows_per_chunk` of the root is
`16384 / 8 = 2048`. -/
def initialWorld : World :=
  { target_chunk_bytes := 16384
    slots := []
    entity_capacity := 0
    live_entity_count := 0
    free_entity_count := 0
    free_entity_head := U32MAX
    components := [default]
    archetypes := [{ component_ids := [], rows_per_chunk := 2048, chunks := [] }]
    root_archetype := 0
    total_chunk_count := 0
    deferred := []
    defer_depth := 0
    structural_move_count := 0 }

/-- `lt_world_create` with `target_chunk_bytes = 8`: the smallest
configuration, whose root archetype packs one row per chunk
(`8 / 8 = 1`).  Used to keep concrete witness states small. -/
def tinyWorld : World :=
  { initialWorld with
      target_chunk_bytes := 8
      archetypes := [{ component_ids := [], rows_per_chunk := 1, chunks := [] }] }

/-- A one-entity world (the state reached by `entity_create` on
`tinyWorld`): the sole live entity sits in the last (only) row of the root
chunk. -/
def c3World : World :=
  { target_chunk_bytes := 8
    slots := [{ generation := 1, next_free := 0, alive := true,
                archetype := 0, chunk := 0, row := 0 }]
    entity_capacity := 1
    live_entity_count := 1
    free_entity_count := 0
    free_entity_head := 4294967295
    components := []
    archetypes := [{ component_ids := [], rows_per_chunk := 1,
                     chunks := [{ count := 1, capacity := 1,
                                  entities := [4294967296], cols := [] }] }]
    root_archetype := 0
    total_chunk_count := 1
    deferred := []
    defer_depth := 0
    structural_move_count := 0 }

/-- A two-entity world: entity `pack 0 1` occupies row 0 of a two-row root
chunk, so destroying it removes a non-last row. -/
def c3World2 : World :=
  { target_chunk_bytes := 8
    slots := [{ generation := 1, next_free := 0, alive := true,
                archetype := 0, chunk := 0, row := 0 },
              { generation := 1, next_free := 0, alive := true,
                archetype := 0, chunk := 0, row := 1 }]
    entity_capacity := 2
    live_entity_count := 2
    free_entity_count := 0
    free_entity_head := 4294967295
    components := []
    archetypes := [{ component_ids := [], rows_per_chunk := 2,
                     chunks := [{ count := 2, capacity := 2,
                                  entities := [4294967296, 4294967297],
                                  cols := [] }] }]
    root_archetype := 0
    total_chunk_count := 1
    deferred := []
    defer_depth := 0
    structural_move_count := 0 }

/-- The concrete world of the deferred-payload scenario: `tinyWorld` with
one registered 3-byte component `p` (id 1) and one live entity
`pack 0 1`. -/
def c5World : World :=
  (lt_entity_create (lt_register_component tinyWorld
    { name := "p", size := 3, align := 1, flags := 0 }).2.1).2.1

/-! ## Queries -/

/-- `lt_access_t` (`READ = 0`, `WRITE = 1`), kept as the raw integer so the
validation of out-of-range access values can be expressed. -/
structure QueryTerm where
  component_id : Nat
  access : Nat
deriving DecidableEq, Repr

/-- `lt_query_desc_t`.  The `NULL`-pointer-with-positive-count
`INVALID_ARGUMENT` cases of the source concern the C pointer encoding and
are outside the model; a descriptor here is its two term lists. -/
structure QueryDesc where
  with_terms : List QueryTerm
  without : List Nat
deriving DecidableEq, Repr

/-- The with-term checks of `lt_query_validate_desc`, in source order for
each position: unregistered or zero id first (`NOT_FOUND`), then the access
value (`INVALID_ARGUMENT`), then a duplicate at a later position
(`CONFLICT`). -/
def validateWithTerms (w : World) : List QueryTerm → Status
  | [] => Status.ok
  | t :: rest =>
    if t.component_id = 0 ∨ t.component_id > w.componentCount then Status.notFound
    else if t.access ≠ 0 ∧ t.access ≠ 1 then Status.invalidArgument
    else if rest.any (fun u => u.component_id = t.component_id) then Status.conflict
    else validateWithTerms w rest

/-- The without checks of `lt_query_validate_desc`, in source order for
each position: the id itself (`NOT_FOUND`), a duplicate later in the
without-set (`CONFLICT`), then overlap with the with-set (`CONFLICT`). -/
def validateWithout (w : World) (withTerms : List QueryTerm) : List Nat → Status
  | [] => Status.ok
  | cid :: rest =>
    if cid = 0 ∨ cid > w.componentCount then Status.notFound
    else if rest.any (fun u => u = cid) then Status.conflict
    else if withTerms.any (fun t => t.component_id = cid) then Status.conflict
    else validateWithout w withTerms rest

/-- `lt_query_validate_desc`. -/
def lt_query_validate_desc (w : World) (desc : QueryDesc) : Status :=
  match validateWithTerms w desc.with_terms with
  | Status.ok => validateWithout w desc.with_terms desc.without
  | s => s

/-- `lt_query_s`: the copied filter and the match array `matches`
(archetype indices; named `match_list` here because `matches` is reserved
in Lean).  The scratch column array is re-derived at each `next` call, so
it carries no persistent state the claims depend on. -/
structure Query where
  with_terms : List QueryTerm
  without : List Nat
  match_list : List Nat
deriving DecidableEq, Repr

/-- `lt_query_matches_archetype`: every with-id present, no without-id
present. -/
def lt_query_matches_archetype (q : Query) (a : Archetype) : Bool :=
  q.with_terms.all (fun t => (lt_archetype_find_component_index a t.component_id).isSome) &&
  q.without.all (fun cid => (lt_archetype_find_component_index a cid).isNone)

/-- `lt_query_refresh`: rescan all archetypes in insertion order. -/
def lt_query_refresh (w : World) (q : Query) : Query :=
  { q with match_list := ((List.range w.archetypes.length).filter
      (fun ai => lt_query_matches_archetype q (w.archD ai))) }

/-- `lt_query_create`: validate the descriptor, copy it, and perform the
initial scan; a failing validation produces no query. -/
def lt_query_create (w : World) (desc : QueryDesc) : Status × Option Query :=
  let s := lt_query_validate_desc w desc
  if s ≠ Status.ok then (s, none)
  else
    let q : Query := { with_terms := desc.with_terms, without := desc.without, match_list := [] }
    (Status.ok, some (lt_query_refresh w q))

/-- `lt_query_iter_t`: `chunk_cursor` is the index of the next chunk to
visit in the current archetype's list (`none` is the `NULL` cursor, which
both starts an archetype and marks its end). -/
structure QueryIter where
  archetype_index : Nat
  chunk_cursor : Option Nat
  finished : Bool
deriving DecidableEq, Repr

/-- `lt_query_iter_begin` (the refresh is threaded by the caller in the
model): a reset iterator. -/
def lt_query_iter_begin : QueryIter :=
  { archetype_index := 0, chunk_cursor := none, finished := false }

/-- `lt_chunk_view_t`: a column pointer is modelled by the column it points
at (`none` for the `NULL` pointer of a tag column). -/
structure ChunkView where
  count : Nat
  entities : List Nat
  columns : List (Option (List (List Nat)))
deriving DecidableEq, Repr

/-- The skip-empty walk of the source
(`while (chunk != NULL && chunk->count == 0) chunk = chunk->next`),
starting at index `start`: the first index from `start` on whose chunk has
`count ≠ 0`, `none` when the list runs out. -/
def skipEmptyChunks (chunks : List Chunk) (start : Nat) : Option Nat :=
  if start < chunks.length then
    if (chunks.getD start default).count ≠ 0 then some start
    else skipEmptyChunks chunks (start + 1)
  else none
termination_by chunks.length - start

/-- Bind the query's scratch column array for one chunk: for each with-term
resolve its component index in the archetype, failing (the `CONFLICT` exit
of the source) when absent; `lt_chunk_component_ptr(..., 0, idx)` for a tag
is the `NULL` pointer. -/
def bindColumns (w : World) (terms : List QueryTerm) (a : Archetype) (c : Chunk) :
    Option (List (Option (List (List Nat)))) :=
  terms.mapM (fun t =>
    match lt_archetype_find_component_index a t.component_id with
    | none => none
    | some idx =>
      if (w.componentGet (a.component_ids.getD idx 0)).size = 0 then some none
      else some (some (c.cols.getD idx [])))

/-- The archetype loop of `lt_query_iter_next`: resume at the cursor (or
the list head), skip empty chunks, advance to the next archetype when the
list is exhausted, and emit a view for the first non-empty chunk; after a
hit the cursor moves to the next chunk, stepping `archetype_index` when the
archetype's list is done. -/
def queryIterLoop (w : World) (q : Query) (it : QueryIter) :
    Status × QueryIter × Option ChunkView :=
  if _h : it.archetype_index < q.match_list.length then
    match skipEmptyChunks (w.archD (q.match_list.getD it.archetype_index 0)).chunks
        (it.chunk_cursor.getD 0) with
    | none =>
      queryIterLoop w q
        { it with archetype_index := it.archetype_index + 1, chunk_cursor := none }
    | some ci =>
      match bindColumns w q.with_terms (w.archD (q.match_list.getD it.archetype_index 0))
          ((w.archD (q.match_list.getD it.archetype_index 0)).chunks.getD ci default) with
      | none => (Status.conflict, { it with finished := true }, none)
      | some cols =>
        (Status.ok,
          { archetype_index :=
              if ci + 1 < (w.archD (q.match_list.getD it.archetype_index 0)).chunks.length
              then it.archetype_index else it.archetype_index + 1
            chunk_cursor :=
              if ci + 1 < (w.archD (q.match_list.getD it.archetype_index 0)).chunks.length
              then some (ci + 1) else none
            finished := false },
          some
            { count :=
                ((w.archD (q.match_list.getD it.archetype_index 0)).chunks.getD ci default).count
              entities :=
                ((w.archD (q.match_list.getD it.archetype_index 0)).chunks.getD ci
                  default).entities
              columns := cols })
  else
    (Status.ok, { it with finished := true }, none)
termination_by q.match_list.length - it.archetype_index

/-- `lt_query_iter_next`: the out-view and flag are zeroed, a finished
iterator returns immediately, otherwise the archetype loop runs.
`has_value = false` is encoded as `none`. -/
def lt_query_iter_next (w : World) (q : Query) (it : QueryIter) :
    Status × QueryIter × Option ChunkView :=
  if it.finished = true then (Status.ok, it, none)
  else queryIterLoop w q it

/-! ## List helper lemmas -/

theorem length_listModify {α : Type} (l : List α) (i : Nat) (f : α → α) :
    (listModify l i f).length = l.length := by
  induction l generalizing i with
  | nil => rfl
  | cons a rest ih =>
    cases i with
    | zero => rfl
    | succ n => simp [listModify, ih]

theorem getD_listModify_eq {α : Type} (l : List α) (i : Nat) (f : α → α) (d : α)
    (h : i < l.length) : (listModify l i f).getD i d = f (l.getD i d) := by
  induction l generalizing i with
  | nil => simp at h
  | cons a rest ih =>
    cases i with
    | zero => rfl
    | succ n =>
      simp only [listModify, List.getD_cons_succ]
      exact ih n (by simpa using h)

theorem getD_listModify_ne {α : Type} (l : List α) (i j : Nat) (f : α → α) (d : α)
    (h : j ≠ i) : (listModify l i f).getD j d = l.getD j d := by
  induction l generalizing i j with
  | nil => rfl
  | cons a rest ih =>
    cases i with
    | zero =>
      cases j with
      | zero => exact absurd rfl h
      | succ m => rfl
    | succ n =>
      cases j with
      | zero => rfl
      | succ m =>
        simp only [listModify, List.getD_cons_succ]
        exact ih n m (fun hc => h (by simp [hc]))

theorem listModify_of_ge {α : Type} (l : List α) (i : Nat) (f : α → α)
    (h : l.length ≤ i) : listModify l i f = l := by
  induction l generalizing i with
  | nil => rfl
  | cons a rest ih =>
    cases i with
    | zero => simp at h
    | succ n => simp only [listModify]; rw [ih n (by simpa using h)]

theorem getD_set_eq {α : Type} (l : List α) (i : Nat) (a d : α) (h : i < l.length) :
    (l.set i a).getD i d = a := by
  induction l generalizing i with
  | nil => simp at h
  | cons b rest ih =>
    cases i with
    | zero => rfl
    | succ n => exact ih n (by simpa using h)

theorem getD_set_ne {α : Type} (l : List α) (i j : Nat) (a d : α) (h : j ≠ i) :
    (l.set i a).getD j d = l.getD j d := by
  induction l generalizing i j with
  | nil => rfl
  | cons b rest ih =>
    cases i with
    | zero =>
      cases j with
      | zero => exact absurd rfl h
      | succ m => rfl
    | succ n =>
      cases j with
      | zero => rfl
      | succ m => exact ih n m (fun hc => h (by simp [hc]))

theorem getD_append_left {α : Type} (l l' : List α) (i : Nat) (d : α) (h : i < l.length) :
    (l ++ l').getD i d = l.getD i d := by
  induction l generalizing i with
  | nil => simp at h
  | cons a rest ih =>
    cases i with
    | zero => rfl
    | succ n => exact ih n (by simpa using h)

theorem getD_append_right {α : Type} (l l' : List α) (i : Nat) (d : α) (h : l.length ≤ i) :
    (l ++ l').getD i d = l'.getD (i - l.length) d := by
  induction l generalizing i with
  | nil => simp
  | cons a rest ih =>
    cases i with
    | zero => simp at h
    | succ n =>
      simpa using ih n (by simpa using h)

/-! ## The key-with-add merge is ordered insertion -/

/-- Ordered insertion before the first strictly greater element; the clean
description of the merge loop of `lt_world_component_key_with_add`. -/
def insertAsc (a : Nat) : List Nat → List Nat
  | [] => [a]
  | b :: l => if a < b then a :: b :: l else b :: insertAsc a l

theorem keyAddLoop_succ (key : List Nat) (a n s d : Nat) :
    keyAddLoop key a (n + 1) s d =
      if s ≥ key.length ∨ (d = 0 ∧ a < key.getD s 0) then
        (a :: (keyAddLoop key a n s 1).1, (keyAddLoop key a n s 1).2)
      else
        (key.getD s 0 :: (keyAddLoop key a n (s + 1) d).1, (keyAddLoop key a n (s + 1) d).2) :=
  rfl

theorem keyAddLoop_done (key : List Nat) (a : Nat) :
    ∀ n s, s + n = key.length → keyAddLoop key a n s 1 = (key.drop s, 1) := by
  intro n
  induction n with
  | zero =>
    intro s hs
    simp only [keyAddLoop]
    rw [List.drop_eq_nil_of_le (by omega)]
  | succ m ih =>
    intro s hs
    have hlt : s < key.length := by
      omega
    have hcond : ¬ (s ≥ key.length ∨ ((1 : Nat) = 0 ∧ a < key.getD s 0)) := by
      rintro (h | ⟨h, -⟩)
      · omega
      · exact one_ne_zero h
    rw [keyAddLoop_succ, if_neg hcond, ih (s + 1) (by omega)]
    rw [List.drop_eq_getElem_cons hlt, List.getD_eq_getElem key 0 hlt]

theorem keyAddLoop_pending (key : List Nat) (a : Nat) :
    ∀ n s, s + n = key.length →
      keyAddLoop key a (n + 1) s 0 = (insertAsc a (key.drop s), 1) := by
  intro n
  induction n with
  | zero =>
    intro s hs
    have hcond : s ≥ key.length ∨ ((0 : Nat) = 0 ∧ a < key.getD s 0) := Or.inl (by omega)
    rw [keyAddLoop_succ, if_pos hcond, List.drop_eq_nil_of_le (by omega)]
    simp only [keyAddLoop]
    rfl
  | succ m ih =>
    intro s hs
    have hlt : s < key.length := by
      omega
    have hget : key.getD s 0 = key[s] := List.getD_eq_getElem key 0 hlt
    by_cases hc : a < key[s]
    · have hcond : s ≥ key.length ∨ ((0 : Nat) = 0 ∧ a < key.getD s 0) :=
        Or.inr ⟨rfl, by rw [hget]; exact hc⟩
      rw [keyAddLoop_succ, if_pos hcond, keyAddLoop_done key a (m + 1) s hs]
      rw [List.drop_eq_getElem_cons hlt]
      simp [insertAsc, if_pos hc]
    · have hcond : ¬ (s ≥ key.length ∨ ((0 : Nat) = 0 ∧ a < key.getD s 0)) := by
        rintro (h | ⟨-, h⟩)
        · omega
        · rw [hget] at h
          omega
      rw [keyAddLoop_succ, if_neg hcond, ih (s + 1) (by omega)]
      rw [List.drop_eq_getElem_cons hlt, hget]
      simp [insertAsc, if_neg hc]

theorem key_with_add_eq_insertAsc (key : List Nat) (a : Nat) :
    lt_world_component_key_with_add key a = insertAsc a key := by
  have h := keyAddLoop_pending key a key.length 0 (by omega)
  rw [List.drop_zero] at h
  simp [lt_world_component_key_with_add, h]

theorem length_insertAsc (a : Nat) (l : List Nat) :
    (insertAsc a l).length = l.length + 1 := by
  induction l with
  | nil => rfl
  | cons b rest ih =>
    by_cases h : a < b
    · simp [insertAsc, if_pos h]
    · simp [insertAsc, if_neg h, ih]

theorem mem_insertAsc (a x : Nat) (l : List Nat) :
    x ∈ insertAsc a l ↔ x = a ∨ x ∈ l := by
  induction l with
  | nil => simp [insertAsc]
  | cons b rest ih =>
    by_cases h : a < b
    · simp [insertAsc, if_pos h]
    · simp [insertAsc, if_neg h, ih]
      tauto

theorem pairwise_insertAsc (a : Nat) (l : List Nat)
    (hs : l.Pairwise (· < ·)) (hm : a ∉ l) :
    (insertAsc a l).Pairwise (· < ·) := by
  induction l with
  | nil => simp [insertAsc]
  | cons b rest ih =>
    rw [List.pairwise_cons] at hs
    by_cases h : a < b
    · simp only [insertAsc, if_pos h]
      refine List.Pairwise.cons ?_ (List.Pairwise.cons hs.1 hs.2)
      intro x hx
      rcases List.mem_cons.mp hx with hx | hx
      · omega
      · have := hs.1 x hx; omega
    · have hab : b < a := by
        rcases Nat.lt_trichotomy a b with h1 | h1 | h1
        · exact absurd h1 h
        · exact absurd (h1 ▸ List.mem_cons_self b rest) hm
        · exact h1
      simp only [insertAsc, if_neg h]
      refine List.Pairwise.cons ?_ (ih hs.2 (fun hc => hm (List.mem_cons_of_mem b hc)))
      intro x hx
      rcases (mem_insertAsc a x rest).mp hx with hx | hx
      · omega
      · exact hs.1 x hx

theorem length_filter_ne_of_mem (l : List Nat) (a : Nat)
    (hn : l.Nodup) (hm : a ∈ l) :
    (l.filter (fun i => i ≠ a)).length = l.length - 1 := by
  induction l with
  | nil => simp at hm
  | cons b rest ih =>
    rw [List.nodup_cons] at hn
    by_cases h : b = a
    · subst h
      have hself : rest.filter (fun i => i ≠ b) = rest := by
        rw [List.filter_eq_self]
        intro x hx
        simp only [ne_eq, decide_eq_true_eq]
        intro hc
        exact hn.1 (hc ▸ hx)
      rw [List.filter_cons, if_neg (by simp), hself]
      simp
    · have hm' : a ∈ rest := by
        rcases List.mem_cons.mp hm with hc | hc
        · exact absurd hc.symm h
        · exact hc
      have hpos : 0 < rest.length := List.length_pos.mpr (by
        intro hc
        rw [hc] at hm'
        simp at hm')
      rw [List.filter_cons, if_pos (by simp [h])]
      simp only [List.length_cons]
      rw [ih hn.2 hm']
      omega

/-- Strictly sorted lists have no duplicates. -/
theorem pairwise_lt_nodup (l : List Nat) (h : l.Pairwise (· < ·)) : l.Nodup :=
  h.imp (fun hab => Nat.ne_of_lt hab)

/-- C6: on a strictly increasing key, `key_with_add` with a fresh id is the
sorted merge (length `len + 1`, element set enlarged by the id), and
`key_with_remove` with a present id succeeds with the strictly increasing
key of length `len - 1` whose element set drops the id. -/
theorem c6_key_with_add_remove (key : List Nat) (a b : Nat)
    (hs : key.Pairwise (· < ·)) :
    (a ∉ key →
      (lt_world_component_key_with_add key a).Pairwise (· < ·) ∧
      (lt_world_component_key_with_add key a).length = key.length + 1 ∧
      (∀ x, x ∈ lt_world_component_key_with_add key a ↔ x = a ∨ x ∈ key)) ∧
    (b ∈ key →
      (lt_world_component_key_with_remove key b).1 = Status.ok ∧
      (lt_world_component_key_with_remove key b).2.Pairwise (· < ·) ∧
      (lt_world_component_key_with_remove key b).2.length = key.length - 1 ∧
      (∀ x, x ∈ (lt_world_component_key_with_remove key b).2 ↔ x ∈ key ∧ x ≠ b)) := by
  constructor
  · intro ha
    rw [key_with_add_eq_insertAsc]
    exact ⟨pairwise_insertAsc a key hs ha, length_insertAsc a key,
      fun x => mem_insertAsc a x key⟩
  · intro hb
    have hne : key.length ≠ 0 := by
      intro hc
      rw [List.length_eq_zero.mp hc] at hb
      simp at hb
    unfold lt_world_component_key_with_remove
    rw [if_neg hne]
    refine ⟨rfl, ?_, ?_, ?_⟩
    · exact List.Pairwise.sublist (List.filter_sublist key) hs
    · exact length_filter_ne_of_mem key b (pairwise_lt_nodup key hs) hb
    · intro x
      simp [List.mem_filter]

/-- Witness for C6 at the concrete key `[1, 3]` (adding `2`, removing `3`). -/
theorem c6_key_with_add_remove_witness :
    (lt_world_component_key_with_add [1, 3] 2).length = 3 ∧
    (lt_world_component_key_with_remove [1, 3] 3).1 = Status.ok ∧
    (lt_world_component_key_with_remove [1, 3] 3).2.length = 1 := by
  have h := c6_key_with_add_remove [1, 3] 2 3 (by decide)
  have h1 := (h.1 (by decide)).2.1
  have h2 := h.2 (by decide)
  exact ⟨h1, h2.1, h2.2.2.1⟩

/-- C4 (amended): `is_alive` reports via the out-parameter exactly
`slot.alive && slot.generation == decoded generation` for an in-range
index, reports `false` for an out-of-range index, and fails with
`INVALID_ARGUMENT` (out-parameter unwritten) for the null handle. -/
theorem c4_entity_is_alive (w : World) (e : Nat) :
    (e = 0 → lt_entity_is_alive w e = (Status.invalidArgument, none)) ∧
    (e ≠ 0 → w.slots.length ≤ lt_entity_index e →
      lt_entity_is_alive w e = (Status.ok, some false)) ∧
    (e ≠ 0 → lt_entity_index e < w.slots.length →
      lt_entity_is_alive w e =
        (Status.ok, some (decide ((w.slotD (lt_entity_index e)).alive = true ∧
          (w.slotD (lt_entity_index e)).generation = lt_entity_generation e)))) := by
  refine ⟨fun h0 => ?_, fun h0 hge => ?_, fun h0 hlt => ?_⟩
  · simp [lt_entity_is_alive, h0]
  · simp [lt_entity_is_alive, h0, hge]
  · simp only [lt_entity_is_alive, if_neg h0]
    rw [if_neg (by omega)]

/-- Witness for C4 at a world with one slot: handle `1` (index `1`) is out
of range, the packed handle of the live slot reports `true`. -/
theorem c4_entity_is_alive_witness :
    lt_entity_is_alive (lt_entity_create initialWorld).2.1 1 = (Status.ok, some false) ∧
    lt_entity_is_alive (lt_entity_create initialWorld).2.1 0 =
      (Status.invalidArgument, none) := by
  refine ⟨?_, ?_⟩
  · exact (c4_entity_is_alive (lt_entity_create initialWorld).2.1 1).2.1
      (by decide) (by decide)
  · exact (c4_entity_is_alive (lt_entity_create initialWorld).2.1 0).1 rfl

/-- Counterexample to C4 as stated: on the null handle `is_alive` does not
report `false`; it fails with `INVALID_ARGUMENT` and never writes the
out-parameter (so the bool out-parameter is not cleared on this failure). -/
theorem c4_null_handle_counterexample :
    lt_entity_is_alive initialWorld 0 ≠ (Status.ok, some false) ∧
    lt_entity_is_alive initialWorld 0 = (Status.invalidArgument, none) := by
  decide

/-- C9: probing a live entity with an unregistered component id (`cid`
greater than the number of registered components): `has_component` answers
`OK` with the flag cleared, `get_component` fails `NOT_FOUND` with the
out-pointer written `NULL`. -/
theorem c9_unregistered_component_probe (w : World) (e cid : Nat)
    (he : (lt_world_get_live_slot w e).1 = Status.ok)
    (hc : w.componentCount < cid) :
    lt_has_component w e cid = (Status.ok, some false) ∧
    lt_get_component w e cid = (Status.notFound, some none) := by
  have he0 : e ≠ 0 := by
    intro h0
    rw [lt_world_get_live_slot, if_pos h0] at he
    exact absurd he (by decide)
  have hcid0 : cid ≠ 0 := by omega
  constructor
  · rw [lt_has_component, if_neg (by tauto), if_pos hc]
  · rw [lt_get_component, if_neg (by tauto), if_pos hc]

/-- Witness for C9: the first entity of a fresh world, component id `5`
(no components registered). -/
theorem c9_unregistered_component_probe_witness :
    lt_has_component (lt_entity_create initialWorld).2.1 4294967296 5 =
      (Status.ok, some false) ∧
    lt_get_component (lt_entity_create initialWorld).2.1 4294967296 5 =
      (Status.notFound, some none) :=
  c9_unregistered_component_probe (lt_entity_create initialWorld).2.1 4294967296 5
    (by decide) (by decide)

/-! ## Query descriptor validation (C8) -/

/-- A registered (non-zero, in-range) component id. -/
def idRegistered (w : World) (cid : Nat) : Prop := 1 ≤ cid ∧ cid ≤ w.componentCount

instance (w : World) (cid : Nat) : Decidable (idRegistered w cid) := by
  unfold idRegistered
  infer_instance

/-- Under valid ids and access values, the with-term scan reduces to the
duplicate check. -/
theorem validateWithTerms_eq_dup_check (w : World) (ts : List QueryTerm)
    (hid : ∀ t ∈ ts, idRegistered w t.component_id)
    (hacc : ∀ t ∈ ts, t.access = 0 ∨ t.access = 1) :
    validateWithTerms w ts =
      if (ts.map (fun t => t.component_id)).Nodup then Status.ok else Status.conflict := by
  induction ts with
  | nil => simp [validateWithTerms]
  | cons t rest ih =>
    have hidt := hid t (List.mem_cons_self t rest)
    have hacct := hacc t (List.mem_cons_self t rest)
    rw [validateWithTerms]
    rw [if_neg (by rw [idRegistered] at hidt; omega)]
    rw [if_neg (by rcases hacct with h | h <;> simp [h])]
    by_cases hdup : rest.any (fun u => u.component_id = t.component_id)
    · rw [if_pos hdup]
      rcases List.any_eq_true.mp hdup with ⟨u, hu, hut⟩
      have : ¬ ((t :: rest).map (fun t => t.component_id)).Nodup := by
        simp only [List.map_cons, List.nodup_cons]
        intro hc
        exact hc.1 (List.mem_map.mpr ⟨u, hu, by simpa using hut⟩)
      rw [if_neg this]
    · rw [if_neg hdup]
      rw [ih (fun u hu => hid u (List.mem_cons_of_mem t hu))
          (fun u hu => hacc u (List.mem_cons_of_mem t hu))]
      have hnotin : t.component_id ∉ rest.map (fun u => u.component_id) := by
        intro hc
        rcases List.mem_map.mp hc with ⟨u, hu, hut⟩
        exact hdup (List.any_eq_true.mpr ⟨u, hu, by simpa using hut⟩)
      by_cases hn : (rest.map (fun u => u.component_id)).Nodup
      · rw [if_pos hn, if_pos (by simp [List.nodup_cons, hnotin, hn])]
      · rw [if_neg hn, if_neg (by simp only [List.map_cons, List.nodup_cons]; tauto)]

/-- With duplicate-free, access-valid with-terms, an unregistered id in the
with-set yields `NOT_FOUND`. -/
theorem validateWithTerms_notFound (w : World) (ts : List QueryTerm)
    (hacc : ∀ t ∈ ts, t.access = 0 ∨ t.access = 1)
    (hnd : (ts.map (fun t => t.component_id)).Nodup)
    (hbad : ∃ t ∈ ts, ¬ idRegistered w t.component_id) :
    validateWithTerms w ts = Status.notFound := by
  induction ts with
  | nil => simp at hbad
  | cons t rest ih =>
    rw [validateWithTerms]
    by_cases hbadt : idRegistered w t.component_id
    · rw [if_neg (by rw [idRegistered] at hbadt; omega)]
      have hacct := hacc t (List.mem_cons_self t rest)
      rw [if_neg (by rcases hacct with h | h <;> simp [h])]
      simp only [List.map_cons, List.nodup_cons] at hnd
      have hdup : ¬ rest.any (fun u => u.component_id = t.component_id) := by
        intro hc
        rcases List.any_eq_true.mp hc with ⟨u, hu, hut⟩
        exact hnd.1 (List.mem_map.mpr ⟨u, hu, by simpa using hut⟩)
      rw [if_neg hdup]
      rcases hbad with ⟨u, hu, hubad⟩
      rcases List.mem_cons.mp hu with hc | hc
      · exact absurd hbadt (hc ▸ hubad)
      · exact ih (fun v hv => hacc v (List.mem_cons_of_mem t hv)) hnd.2 ⟨u, hc, hubad⟩
    · rw [if_pos (by rw [idRegistered] at hbadt; omega)]

/-- Under valid without ids, the without scan reduces to the duplicate and
disjointness checks. -/
theorem validateWithout_eq_checks (w : World) (ts : List QueryTerm) (wo : List Nat)
    (hid : ∀ c ∈ wo, idRegistered w c) :
    validateWithout w ts wo =
      if wo.Nodup ∧ (∀ c ∈ wo, ¬ ts.any (fun t => t.component_id = c)) then Status.ok
      else Status.conflict := by
  induction wo with
  | nil => simp [validateWithout]
  | cons c rest ih =>
    have hidc := hid c (List.mem_cons_self c rest)
    rw [validateWithout]
    rw [if_neg (by rw [idRegistered] at hidc; omega)]
    by_cases hdup : rest.any (fun u => u = c)
    · rw [if_pos hdup]
      rcases List.any_eq_true.mp hdup with ⟨u, hu, huc⟩
      rw [if_neg]
      intro hc
      rw [List.nodup_cons] at hc
      exact hc.1.1 (by simpa [show u = c from by simpa using huc] using hu)
    · rw [if_neg hdup]
      by_cases hov : ts.any (fun t => t.component_id = c)
      · rw [if_pos hov, if_neg]
        intro hc
        exact (hc.2 c (List.mem_cons_self c rest)) hov
      · rw [if_neg hov]
        rw [ih (fun u hu => hid u (List.mem_cons_of_mem c hu))]
        have hcnotin : c ∉ rest := by
          intro hc
          exact hdup (List.any_eq_true.mpr ⟨c, hc, by simp⟩)
        by_cases hrest : rest.Nodup ∧ (∀ u ∈ rest, ¬ ts.any (fun t => t.component_id = u))
        · rw [if_pos hrest, if_pos]
          refine ⟨List.nodup_cons.mpr ⟨hcnotin, hrest.1⟩, ?_⟩
          intro u hu
          rcases List.mem_cons.mp hu with hc | hc
          · exact hc ▸ hov
          · exact hrest.2 u hc
        · rw [if_neg hrest, if_neg]
          intro hc
          refine hrest ⟨(List.nodup_cons.mp hc.1).2, ?_⟩
          exact fun u hu => hc.2 u (List.mem_cons_of_mem c hu)

/-- With a duplicate-free, disjoint without-set, an unregistered without id
yields `NOT_FOUND`. -/
theorem validateWithout_notFound (w : World) (ts : List QueryTerm) (wo : List Nat)
    (hnd : wo.Nodup)
    (hdisj : ∀ c ∈ wo, ¬ ts.any (fun t => t.component_id = c))
    (hbad : ∃ c ∈ wo, ¬ idRegistered w c) :
    validateWithout w ts wo = Status.notFound := by
  induction wo with
  | nil => simp at hbad
  | cons c rest ih =>
    rw [validateWithout]
    by_cases hbadc : idRegistered w c
    · rw [if_neg (by rw [idRegistered] at hbadc; omega)]
      rw [List.nodup_cons] at hnd
      have hdupc : ¬ rest.any (fun u => u = c) := by
        intro hc
        rcases List.any_eq_true.mp hc with ⟨u, hu, huc⟩
        exact hnd.1 (by simpa [show u = c from by simpa using huc] using hu)
      rw [if_neg hdupc, if_neg (hdisj c (List.mem_cons_self c rest))]
      rcases hbad with ⟨u, hu, hubad⟩
      rcases List.mem_cons.mp hu with hc | hc
      · exact absurd hbadc (hc ▸ hubad)
      · exact ih hnd.2 (fun v hv => hdisj v (List.mem_cons_of_mem c hv)) ⟨u, hc, hubad⟩
    · rw [if_pos (by rw [idRegistered] at hbadc; omega)]

/-- A failing validation propagates to `lt_query_create` with no query. -/
theorem query_create_of_validate_ne_ok (w : World) (desc : QueryDesc)
    (h : lt_query_validate_desc w desc ≠ Status.ok) :
    lt_query_create w desc = (lt_query_validate_desc w desc, none) := by
  rw [lt_query_create]
  simp [h]

/-- C8: with valid access values, a descriptor whose sets are all
registered but overlap or contain a duplicate is rejected with `CONFLICT`
and no query; a duplicate-free, disjoint descriptor referencing an
unregistered (or zero) id is rejected with `NOT_FOUND` and no query
instead. -/
theorem c8_query_create_validation (w : World) (desc : QueryDesc)
    (hacc : ∀ t ∈ desc.with_terms, t.access = 0 ∨ t.access = 1) :
    ((∀ t ∈ desc.with_terms, idRegistered w t.component_id) →
     (∀ c ∈ desc.without, idRegistered w c) →
     ((∃ c ∈ desc.without, ∃ t ∈ desc.with_terms, t.component_id = c) ∨
      ¬ (desc.with_terms.map (fun t => t.component_id)).Nodup ∨
      ¬ desc.without.Nodup) →
     lt_query_create w desc = (Status.conflict, none)) ∧
    ((desc.with_terms.map (fun t => t.component_id)).Nodup →
     desc.without.Nodup →
     (∀ c ∈ desc.without, ∀ t ∈ desc.with_terms, t.component_id ≠ c) →
     ((∃ t ∈ desc.with_terms, ¬ idRegistered w t.component_id) ∨
      (∃ c ∈ desc.without, ¬ idRegistered w c)) →
     lt_query_create w desc = (Status.notFound, none)) := by
  constructor
  · intro hwreg hworeg hbad
    have hval : lt_query_validate_desc w desc = Status.conflict := by
      rw [lt_query_validate_desc]
      by_cases hnd : (desc.with_terms.map (fun t => t.component_id)).Nodup
      · rw [validateWithTerms_eq_dup_check w desc.with_terms hwreg hacc, if_pos hnd]
        rw [validateWithout_eq_checks w desc.with_terms desc.without hworeg]
        rw [if_neg]
        intro hc
        rcases hbad with hov | hdw | hdo
        · rcases hov with ⟨c, hcwo, t, htw, htc⟩
          exact hc.2 c hcwo (List.any_eq_true.mpr ⟨t, htw, by simpa using htc⟩)
        · exact hdw hnd
        · exact hdo hc.1
      · rw [validateWithTerms_eq_dup_check w desc.with_terms hwreg hacc, if_neg hnd]
    rw [query_create_of_validate_ne_ok w desc (by rw [hval]; decide), hval]
  · intro hndw hndo hdisj hbad
    have hdisj' : ∀ c ∈ desc.without, ¬ desc.with_terms.any (fun t => t.component_id = c) := by
      intro c hc hany
      rcases List.any_eq_true.mp hany with ⟨t, ht, htc⟩
      exact (hdisj c hc t ht) (by simpa using htc)
    have hval : lt_query_validate_desc w desc = Status.notFound := by
      rw [lt_query_validate_desc]
      by_cases hwbad : ∃ t ∈ desc.with_terms, ¬ idRegistered w t.component_id
      · rw [validateWithTerms_notFound w desc.with_terms hacc hndw hwbad]
      · push_neg at hwbad
        rw [validateWithTerms_eq_dup_check w desc.with_terms hwbad hacc, if_pos hndw]
        have hwobad : ∃ c ∈ desc.without, ¬ idRegistered w c := by
          rcases hbad with h | h
          · rcases h with ⟨t, ht, htbad⟩
            exact absurd (hwbad t ht) htbad
          · exact h
        exact validateWithout_notFound w desc.with_terms desc.without hndo hdisj' hwobad
    rw [query_create_of_validate_ne_ok w desc (by rw [hval]; decide), hval]

/-- Witness for C8 on a world with one registered component: the
overlapping descriptor `with = {1}, without = {1}` is `CONFLICT`, the
descriptor referencing the unregistered id `2` is `NOT_FOUND`. -/
theorem c8_query_create_validation_witness :
    lt_query_create
        (lt_register_component initialWorld
          { name := "p", size := 4, align := 4, flags := 0 }).2.1
        { with_terms := [{ component_id := 1, access := 0 }], without := [1] } =
      (Status.conflict, none) ∧
    lt_query_create
        (lt_register_component initialWorld
          { name := "p", size := 4, align := 4, flags := 0 }).2.1
        { with_terms := [{ component_id := 2, access := 0 }], without := [] } =
      (Status.notFound, none) := by
  constructor
  · exact (c8_query_create_validation _
      { with_terms := [{ component_id := 1, access := 0 }], without := [1] }
      (by decide)).1 (by decide) (by decide) (Or.inl (by decide))
  · exact (c8_query_create_validation _
      { with_terms := [{ component_id := 2, access := 0 }], without := [] }
      (by decide)).2 (by decide) (by decide) (by decide) (Or.inl (by decide))

/-! ## Iterator lemmas (C7) -/

theorem skipEmptyChunks_nonempty (chunks : List Chunk) :
    ∀ start ci, skipEmptyChunks chunks start = some ci →
      (chunks.getD ci default).count ≠ 0 := by
  suffices hgen : ∀ n start, chunks.length - start = n →
      ∀ ci, skipEmptyChunks chunks start = some ci →
        (chunks.getD ci default).count ≠ 0 by
    exact fun start => hgen (chunks.length - start) start rfl
  intro n
  induction n with
  | zero =>
    intro start hn ci h
    rw [skipEmptyChunks] at h
    by_cases hlt : start < chunks.length
    · omega
    · rw [if_neg hlt] at h
      exact absurd h (by simp)
  | succ m ih =>
    intro start hn ci h
    have hlt : start < chunks.length := by omega
    rw [skipEmptyChunks, if_pos hlt] at h
    by_cases hc : (chunks.getD start default).count ≠ 0
    · rw [if_pos hc] at h
      cases h
      exact hc
    · rw [if_neg hc] at h
      exact ih (start + 1) (by omega) ci h

/-- Every view the archetype loop emits comes from a non-empty chunk. -/
theorem queryIterLoop_view_nonempty (w : World) (q : Query) :
    ∀ it s it' v, queryIterLoop w q it = (s, it', some v) → 0 < v.count := by
  suffices hgen : ∀ n it, q.match_list.length - it.archetype_index = n →
      ∀ s it' v, queryIterLoop w q it = (s, it', some v) → 0 < v.count by
    exact fun it => hgen (q.match_list.length - it.archetype_index) it rfl
  intro n
  induction n with
  | zero =>
    intro it hn s it' v h
    rw [queryIterLoop] at h
    rw [dif_neg (by omega)] at h
    exact absurd h (by simp)
  | succ m ih =>
    intro it hn s it' v h
    have hlt : it.archetype_index < q.match_list.length := by omega
    rw [queryIterLoop, dif_pos hlt] at h
    split at h
    · exact ih { it with archetype_index := it.archetype_index + 1, chunk_cursor := none }
        (by simp; omega) s it' v h
    · rename_i ci hskip
      split at h
      · simp at h
      · simp only [Prod.mk.injEq, Option.some.injEq] at h
        have hcount := skipEmptyChunks_nonempty
          (w.archD (q.match_list.getD it.archetype_index 0)).chunks _ ci hskip
        rw [← h.2.2]
        simpa using Nat.pos_of_ne_zero hcount

/-- When the archetype loop reports no value, it has marked the iterator
finished. -/
theorem queryIterLoop_none_finished (w : World) (q : Query) :
    ∀ it s it', queryIterLoop w q it = (s, it', none) → it'.finished = true := by
  suffices hgen : ∀ n it, q.match_list.length - it.archetype_index = n →
      ∀ s it', queryIterLoop w q it = (s, it', none) → it'.finished = true by
    exact fun it => hgen (q.match_list.length - it.archetype_index) it rfl
  intro n
  induction n with
  | zero =>
    intro it hn s it' h
    rw [queryIterLoop] at h
    rw [dif_neg (by omega)] at h
    simp only [Prod.mk.injEq] at h
    rw [← h.2.1]
  | succ m ih =>
    intro it hn s it' h
    have hlt : it.archetype_index < q.match_list.length := by omega
    rw [queryIterLoop, dif_pos hlt] at h
    split at h
    · exact ih { it with archetype_index := it.archetype_index + 1, chunk_cursor := none }
        (by simp; omega) s it' h
    · split at h
      · simp only [Prod.mk.injEq] at h
        rw [← h.2.1]
      · simp at h

/-- C7: `query_iter_next` never emits a view from a chunk with
`count == 0`; a call that reports no value leaves the iterator finished;
and a finished iterator immediately reports `OK` with no value and an
unchanged iterator (the archetype loop is not re-entered), so every
subsequent call behaves identically. -/
theorem c7_query_iter_next_exhaustion (w : World) (q : Query) (it : QueryIter) :
    (∀ s it' v, lt_query_iter_next w q it = (s, it', some v) → 0 < v.count) ∧
    (∀ s it', lt_query_iter_next w q it = (s, it', none) → it'.finished = true) ∧
    (it.finished = true → lt_query_iter_next w q it = (Status.ok, it, none)) := by
  refine ⟨?_, ?_, ?_⟩
  · intro s it' v h
    rw [lt_query_iter_next] at h
    by_cases hf : it.finished = true
    · rw [if_pos hf] at h
      exact absurd h (by simp)
    · rw [if_neg hf] at h
      exact queryIterLoop_view_nonempty w q it s it' v h
  · intro s it' h
    rw [lt_query_iter_next] at h
    by_cases hf : it.finished = true
    · rw [if_pos hf] at h
      simp only [Prod.mk.injEq] at h
      rw [← h.2.1]
      exact hf
    · rw [if_neg hf] at h
      exact queryIterLoop_none_finished w q it s it' h
  · intro hf
    rw [lt_query_iter_next, if_pos hf]

/-- Witness for C7: on a finished iterator over a fresh world, `next`
returns `OK` with no value, leaves the iterator unchanged, and the
no-value result again reports finished. -/
theorem c7_query_iter_next_exhaustion_witness :
    lt_query_iter_next initialWorld
        { with_terms := [], without := [], match_list := [0] }
        { archetype_index := 1, chunk_cursor := none, finished := true } =
      (Status.ok, { archetype_index := 1, chunk_cursor := none, finished := true }, none) ∧
    ({ archetype_index := 1, chunk_cursor := none, finished := true } : QueryIter).finished
      = true := by
  have h3 := (c7_query_iter_next_exhaustion initialWorld
    { with_terms := [], without := [], match_list := [0] }
    { archetype_index := 1, chunk_cursor := none, finished := true }).2.2 rfl
  have h2 := (c7_query_iter_next_exhaustion initialWorld
    { with_terms := [], without := [], match_list := [0] }
    { archetype_index := 1, chunk_cursor := none, finished := true }).2.1
    Status.ok { archetype_index := 1, chunk_cursor := none, finished := true } h3
  exact ⟨h3, h2⟩

/-! ## Flush characterisation (C2, C10) -/

instance : Inhabited DeferredOp :=
  ⟨{ kind := DeferredKind.destroyEntity, entity := 0, component_id := 0, payload := none }⟩

/-- The world after re-executing the first `k` queued commands in enqueue
order (ignoring their statuses). -/
def flushPrefix (w : World) (q : List DeferredOp) (k : Nat) : World :=
  (q.take k).foldl (fun w op => (applyDeferredOp w op).2) w

theorem flushPrefix_zero (w : World) (q : List DeferredOp) : flushPrefix w q 0 = w := rfl

theorem flushPrefix_cons (w : World) (op : DeferredOp) (q : List DeferredOp) (k : Nat) :
    flushPrefix w (op :: q) (k + 1) = flushPrefix (applyDeferredOp w op).2 q k := by
  rfl

/-- The flush loop stops at the first failing command: there is a cut `k`
such that the first `k` commands re-execute with `OK`, and either every
command succeeded (`k = length`, overall `OK`) or the `k`-th command fails
and delivers the result. -/
theorem runDeferredOps_spec (q : List DeferredOp) :
    ∀ w, ∃ k, k ≤ q.length ∧
      (∀ j, j < k →
        (applyDeferredOp (flushPrefix w q j) (q.getD j default)).1 = Status.ok) ∧
      (k = q.length → runDeferredOps w q = (Status.ok, flushPrefix w q k)) ∧
      (k < q.length →
        (applyDeferredOp (flushPrefix w q k) (q.getD k default)).1 ≠ Status.ok ∧
        runDeferredOps w q =
          ((applyDeferredOp (flushPrefix w q k) (q.getD k default)).1,
           (applyDeferredOp (flushPrefix w q k) (q.getD k default)).2)) := by
  induction q with
  | nil =>
    intro w
    exact ⟨0, Nat.le_refl 0, fun j hj => absurd hj (Nat.not_lt_zero j),
      fun _ => rfl, fun h => absurd h (by simp)⟩
  | cons op rest ih =>
    intro w
    cases hstep : applyDeferredOp w op with
    | mk s w1 =>
      by_cases hs : s = Status.ok
      · subst hs
        obtain ⟨k, hk, hok, hdone, hfail⟩ := ih w1
        have hw1 : (applyDeferredOp w op).2 = w1 := by
          rw [hstep]
        have hrun : runDeferredOps w (op :: rest) = runDeferredOps w1 rest := by
          rw [runDeferredOps, hstep]
        refine ⟨k + 1, by simpa using Nat.succ_le_succ hk, ?_, ?_, ?_⟩
        · intro j hj
          cases j with
          | zero =>
            rw [flushPrefix_zero]
            simpa using congrArg Prod.fst hstep
          | succ m =>
            rw [flushPrefix_cons, hw1]
            simpa using hok m (by omega)
        · intro hlen
          rw [flushPrefix_cons, hw1, hrun, hdone (by simpa using hlen)]
        · intro hlt
          have hfail' := hfail (by simpa using hlt)
          constructor
          · rw [flushPrefix_cons, hw1]
            simpa using hfail'.1
          · rw [flushPrefix_cons, hw1, hrun]
            simpa using hfail'.2
      · refine ⟨0, Nat.zero_le _, fun j hj => absurd hj (Nat.not_lt_zero j),
          fun h => absurd h.symm (by simp), ?_⟩
        intro hlt
        rw [flushPrefix_zero]
        have h1 : (applyDeferredOp w op).1 = s := congrArg Prod.fst hstep
        have hrun : runDeferredOps w (op :: rest) = (s, w1) := by
          rw [runDeferredOps, hstep]
          cases s with
          | ok => exact absurd rfl hs
          | invalidArgument => rfl
          | notFound => rfl
          | alreadyExists => rfl
          | capacityReached => rfl
          | allocationFailed => rfl
          | staleEntity => rfl
          | conflict => rfl
          | notImplemented => rfl
        constructor
        · simpa [h1] using hs
        · rw [hrun]
          simp only [List.getD_cons_zero, h1]
          rw [show (applyDeferredOp w op).2 = w1 from congrArg Prod.snd hstep]

/-- C2: while `defer_depth > 0`, `flush` fails `CONFLICT` and changes
nothing; at depth `0` it re-executes the queue in enqueue order, stops at
the first non-`OK` command, clears the buffer in every case, and returns
the first failure's status (`OK` when every command succeeded). -/
theorem c2_flush_order_and_failure (w : World) :
    (0 < w.defer_depth → lt_world_flush w = (Status.conflict, w)) ∧
    (w.defer_depth = 0 →
      ∃ k, k ≤ w.deferred.length ∧
        (∀ j, j < k →
          (applyDeferredOp (flushPrefix w w.deferred j) (w.deferred.getD j default)).1 =
            Status.ok) ∧
        (k = w.deferred.length →
          lt_world_flush w = (Status.ok, { flushPrefix w w.deferred k with deferred := [] })) ∧
        (k < w.deferred.length →
          (applyDeferredOp (flushPrefix w w.deferred k) (w.deferred.getD k default)).1 ≠
            Status.ok ∧
          lt_world_flush w =
            ((applyDeferredOp (flushPrefix w w.deferred k) (w.deferred.getD k default)).1,
             { (applyDeferredOp (flushPrefix w w.deferred k)
                 (w.deferred.getD k default)).2 with deferred := [] }))) := by
  constructor
  · intro hd
    rw [lt_world_flush, if_pos (by omega)]
  · intro hd
    obtain ⟨k, hk, hok, hdone, hfail⟩ := runDeferredOps_spec w.deferred w
    refine ⟨k, hk, hok, ?_, ?_⟩
    · intro hlen
      rw [lt_world_flush, if_neg (by omega), hdone hlen]
    · intro hlt
      have hfail' := hfail hlt
      refine ⟨hfail'.1, ?_⟩
      rw [lt_world_flush, if_neg (by omega), hfail'.2]

/-- Witness for C2: with `defer_depth = 1` flush conflicts and leaves the
world untouched; on a fresh world with an empty queue it succeeds and the
queue stays empty. -/
theorem c2_flush_order_and_failure_witness :
    lt_world_flush { initialWorld with defer_depth := 1 } =
      (Status.conflict, { initialWorld with defer_depth := 1 }) ∧
    lt_world_flush initialWorld = (Status.ok, initialWorld) := by
  constructor
  · exact (c2_flush_order_and_failure { initialWorld with defer_depth := 1 }).1 (by decide)
  · obtain ⟨k, hk, -, hdone, -⟩ := (c2_flush_order_and_failure initialWorld).2 rfl
    have hk0 : k = 0 := by
      simpa [initialWorld] using hk
    have h := hdone (by rw [hk0]; rfl)
    rw [hk0] at h
    exact h

/-- C10: while deferring, `entity_destroy` on any non-null entity and
`remove_component` on any non-null entity with a registered id merely
enqueue and return `OK` — even for a dead or stale entity, and (for
remove) even when the entity lacks the component; the failure only
surfaces as the return status of the later flush, which keeps the earlier
commands' effects and clears the queue. -/
theorem c10_deferred_enqueue_no_validation (w : World) (e cid : Nat) :
    (0 < w.defer_depth → e ≠ 0 →
      lt_entity_destroy w e =
        (Status.ok, { w with deferred := w.deferred ++
          [{ kind := DeferredKind.destroyEntity, entity := e, component_id := 0,
             payload := none }] })) ∧
    (0 < w.defer_depth → e ≠ 0 → cid ≠ 0 → cid ≤ w.componentCount →
      lt_remove_component w e cid =
        (Status.ok, { w with deferred := w.deferred ++
          [{ kind := DeferredKind.removeComponent, entity := e, component_id := cid,
             payload := none }] })) ∧
    (w.defer_depth = 0 → ∀ k, k < w.deferred.length →
      (∀ j, j < k →
        (applyDeferredOp (flushPrefix w w.deferred j) (w.deferred.getD j default)).1 =
          Status.ok) →
      (applyDeferredOp (flushPrefix w w.deferred k) (w.deferred.getD k default)).1 ≠
        Status.ok →
      lt_world_flush w =
        ((applyDeferredOp (flushPrefix w w.deferred k) (w.deferred.getD k default)).1,
         { (applyDeferredOp (flushPrefix w w.deferred k)
             (w.deferred.getD k default)).2 with deferred := [] })) := by
  refine ⟨?_, ?_, ?_⟩
  · intro hd he
    rw [lt_entity_destroy, if_neg he, if_pos hd, lt_enqueue_destroy_entity, if_neg he]
  · intro hd he hc hreg
    rw [lt_remove_component, if_neg (by tauto), if_neg (by omega), if_pos hd,
      lt_enqueue_remove_component, if_neg (by tauto)]
  · intro hd k hk hok hfailk
    obtain ⟨k0, hk0, hok0, hdone0, hfail0⟩ := runDeferredOps_spec w.deferred w
    have hkk : k = k0 := by
      rcases Nat.lt_trichotomy k k0 with h | h | h
      · exact absurd (hok0 k h) hfailk
      · exact h
      · have hlt0 : k0 < w.deferred.length := by omega
        exact absurd (hok k0 h) (hfail0 hlt0).1
    subst hkk
    have hfail' := hfail0 hk
    rw [lt_world_flush, if_neg (by omega), hfail'.2]

set_option maxRecDepth 4000 in
/-- Witness for C10: a stale handle (destroyed entity) is enqueued with
`OK` inside a defer region, and flushing a queue holding that stale
destroy returns `STALE_ENTITY` with the queue cleared. -/
theorem c10_deferred_enqueue_no_validation_witness :
    lt_entity_destroy
        { (lt_entity_destroy (lt_entity_create tinyWorld).2.1 4294967296).2 with
            defer_depth := 1 } 4294967296 =
      (Status.ok,
        { (lt_entity_destroy (lt_entity_create tinyWorld).2.1 4294967296).2 with
            defer_depth := 1,
            deferred := [{ kind := DeferredKind.destroyEntity, entity := 4294967296,
                           component_id := 0, payload := none }] }) ∧
    lt_world_flush
        { (lt_entity_destroy (lt_entity_create tinyWorld).2.1 4294967296).2 with
            deferred := [{ kind := DeferredKind.destroyEntity, entity := 4294967296,
                           component_id := 0, payload := none }] } =
      (Status.staleEntity,
        (lt_entity_destroy (lt_entity_create tinyWorld).2.1 4294967296).2) := by
  constructor
  · have h := (c10_deferred_enqueue_no_validation
      { (lt_entity_destroy (lt_entity_create tinyWorld).2.1 4294967296).2 with
          defer_depth := 1 } 4294967296 0).1 (by decide) (by decide)
    rw [h]
    rfl
  · have h := (c10_deferred_enqueue_no_validation
      { (lt_entity_destroy (lt_entity_create tinyWorld).2.1 4294967296).2 with
          deferred := [{ kind := DeferredKind.destroyEntity, entity := 4294967296,
                         component_id := 0, payload := none }] } 0 0).2.2
      (by decide) 0 (by decide) (fun j hj => absurd hj (Nat.not_lt_zero j))
      (by decide)
    rw [h]
    decide

/-! ## Structural-move counter lemmas (C3) -/

theorem counter_modifyArchetype (w : World) (ai : Nat) (f : Archetype → Archetype) :
    (w.modifyArchetype ai f).structural_move_count = w.structural_move_count := rfl

theorem counter_modifyChunk (w : World) (ai ci : Nat) (f : Chunk → Chunk) :
    (w.modifyChunk ai ci f).structural_move_count = w.structural_move_count := rfl

theorem counter_modifySlot (w : World) (i : Nat) (f : Slot → Slot) :
    (w.modifySlot i f).structural_move_count = w.structural_move_count := rfl

theorem counter_copyRowCols (ids : List Nat) (srcAi srcCi srcRow dstAi dstCi dstRow : Nat) :
    ∀ w, (copyRowCols w ids srcAi srcCi srcRow dstAi dstCi dstRow).structural_move_count =
      w.structural_move_count := by
  unfold copyRowCols
  generalize List.range ids.length = l
  induction l with
  | nil => intro w; rfl
  | cons i rest ih =>
    intro w
    rw [List.foldl_cons, ih]
    by_cases h : (w.componentGet (ids.getD i 0)).size = 0
    · rw [if_pos h]
    · rw [if_neg h, counter_modifyChunk]

theorem counter_swap_remove_ge (w : World) (ai ci row : Nat) :
    w.structural_move_count ≤
      (lt_archetype_swap_remove_row w ai ci row).structural_move_count := by
  simp only [lt_archetype_swap_remove_row]
  split
  · exact Nat.le_refl _
  · rw [counter_modifyChunk]
    split
    · exact Nat.le_refl _
    · split
      · rw [counter_modifySlot, counter_copyRowCols, counter_modifyChunk]
        exact Nat.le_succ _
      · rw [counter_copyRowCols, counter_modifyChunk]
        exact Nat.le_succ _

/-- The exact counter effect of swap-remove on an in-range row: `+1` when
the removed row is not the last live row, `+0` when it is. -/
theorem counter_swap_remove_eq (w : World) (ai ci row : Nat)
    (hrow : row < (w.chunkD ai ci).count) :
    (lt_archetype_swap_remove_row w ai ci row).structural_move_count =
      (if row = (w.chunkD ai ci).count - 1 then w.structural_move_count
       else w.structural_move_count + 1) := by
  simp only [lt_archetype_swap_remove_row]
  rw [if_neg (by omega), counter_modifyChunk]
  split
  · rfl
  · split
    · rw [counter_modifySlot, counter_copyRowCols, counter_modifyChunk]
    · rw [counter_copyRowCols, counter_modifyChunk]

theorem counter_archetype_create (w : World) (ids : List Nat) :
    (lt_archetype_create w ids).2.1.structural_move_count = w.structural_move_count := by
  rw [lt_archetype_create]
  split
  · rfl
  · rfl

theorem counter_find_or_create (w : World) (ids : List Nat) :
    (lt_find_or_create_archetype w ids).2.1.structural_move_count =
      w.structural_move_count := by
  rw [lt_find_or_create_archetype]
  cases lt_find_archetype w ids with
  | none => exact counter_archetype_create w ids
  | some ai => rfl

theorem counter_alloc_row (w : World) (ai : Nat) :
    (lt_archetype_alloc_row w ai).2.1.structural_move_count = w.structural_move_count := by
  rw [lt_archetype_alloc_row]
  cases findFreeChunk (w.archD ai).chunks with
  | none => rfl
  | some ci => rfl

theorem counter_grow_entities (w : World) (m : Nat) :
    (lt_grow_entities w m).2.structural_move_count = w.structural_move_count := by
  rw [lt_grow_entities]
  split
  · rfl
  · split
    · rfl
    · rfl

theorem counter_entityCreateFinish (w : World) (index : Nat) :
    (entityCreateFinish w index).2.1.structural_move_count = w.structural_move_count := by
  simp only [entityCreateFinish]
  split
  · simp only [counter_alloc_row, counter_modifySlot]
  · simp only [counter_modifySlot, counter_modifyChunk, counter_alloc_row]

theorem counter_entity_create (w : World) :
    (lt_entity_create w).2.1.structural_move_count = w.structural_move_count := by
  simp only [lt_entity_create]
  split
  · rw [counter_entityCreateFinish]
  · split
    · split
      · rfl
      · simp [counter_entityCreateFinish, counter_grow_entities]
    · split
      · rfl
      · simp [counter_entityCreateFinish]

theorem counter_enqueue_destroy (w : World) (e : Nat) :
    (lt_enqueue_destroy_entity w e).2.structural_move_count = w.structural_move_count := by
  rw [lt_enqueue_destroy_entity]
  split
  · rfl
  · rfl

theorem counter_enqueue_remove (w : World) (e cid : Nat) :
    (lt_enqueue_remove_component w e cid).2.structural_move_count =
      w.structural_move_count := by
  rw [lt_enqueue_remove_component]
  split
  · rfl
  · rfl

theorem counter_enqueue_add (w : World) (e cid : Nat) (p : Option (List Nat)) :
    (lt_enqueue_add_component w e cid p).2.structural_move_count =
      w.structural_move_count := by
  simp only [lt_enqueue_add_component]
  split
  · rfl
  · rfl

theorem counter_entity_destroy_ge (w : World) (e : Nat) :
    w.structural_move_count ≤ (lt_entity_destroy w e).2.structural_move_count := by
  simp only [lt_entity_destroy]
  split
  · exact Nat.le_refl _
  · split
    · rw [counter_enqueue_destroy]
    · split
      · exact Nat.le_refl _
      · simp only
        rw [counter_modifySlot]
        exact counter_swap_remove_ge w _ _ _

theorem counter_fillRow_add (dstIds : List Nat) (cid : Nat) (p : Option (List Nat))
    (srcAi srcCi srcRow dstAi dstCi dstRow : Nat) :
    ∀ w, (addComponentFillRow w dstIds cid p srcAi srcCi srcRow dstAi dstCi
      dstRow).structural_move_count = w.structural_move_count := by
  unfold addComponentFillRow addFillStep
  generalize List.range dstIds.length = l
  induction l with
  | nil => intro w; rfl
  | cons i rest ih =>
    intro w
    rw [List.foldl_cons, ih]
    split
    · split
      · rfl
      · rw [counter_modifyChunk]
    · split
      · rfl
      · rw [counter_modifyChunk]

theorem counter_fillRow_remove (dstIds : List Nat)
    (srcAi srcCi srcRow dstAi dstCi dstRow : Nat) :
    ∀ w, (removeComponentFillRow w dstIds srcAi srcCi srcRow dstAi dstCi
      dstRow).structural_move_count = w.structural_move_count := by
  unfold removeComponentFillRow
  generalize List.range dstIds.length = l
  induction l with
  | nil => intro w; rfl
  | cons i rest ih =>
    intro w
    rw [List.foldl_cons, ih]
    split
    · rfl
    · rw [counter_modifyChunk]

theorem get_live_slot_none_ne_ok (w : World) (e : Nat) :
    ∀ s, lt_world_get_live_slot w e = (s, none) → s ≠ Status.ok := by
  intro s h
  simp only [lt_world_get_live_slot] at h
  split at h
  · cases h
    decide
  · split at h
    · cases h
      decide
    · split at h
      · cases h
        decide
      · cases h

theorem counter_add_ge (w : World) (e cid : Nat) (p : Option (List Nat)) :
    w.structural_move_count ≤ (lt_add_component w e cid p).2.structural_move_count := by
  simp only [lt_add_component]
  split
  · exact Nat.le_refl _
  · split
    · exact Nat.le_refl _
    · split
      · rw [counter_enqueue_add]
      · split
        · exact Nat.le_refl _
        · split
          · exact Nat.le_refl _
          · split
            · simp [counter_find_or_create]
            · split
              · simp [counter_alloc_row, counter_find_or_create]
              · refine Nat.le_trans ?_ (counter_swap_remove_ge _ _ _ _)
                simp [counter_modifySlot, counter_fillRow_add, counter_modifyChunk,
                  counter_alloc_row, counter_find_or_create]

theorem counter_add_strict (w : World) (e cid : Nat) (p : Option (List Nat))
    (hd : w.defer_depth = 0) :
    (lt_add_component w e cid p).1 = Status.ok →
    w.structural_move_count < (lt_add_component w e cid p).2.structural_move_count := by
  simp only [lt_add_component]
  split
  · intro h
    exact absurd h (by simp)
  · split
    · intro h
      exact absurd h (by simp)
    · split
      · rename_i hdep
        omega
      · split
        · rename_i s heq
          intro h
          exact absurd h (get_live_slot_none_ne_ok w e s heq)
        · split
          · intro h
            exact absurd h (by simp)
          · split
            · rename_i hcond
              intro h
              exact absurd h hcond
            · split
              · rename_i hcond
                intro h
                exact absurd h hcond
              · intro _
                refine Nat.lt_of_lt_of_le ?_ (counter_swap_remove_ge _ _ _ _)
                simp [counter_modifySlot, counter_fillRow_add, counter_modifyChunk,
                  counter_alloc_row, counter_find_or_create]

theorem counter_remove_ge (w : World) (e cid : Nat) :
    w.structural_move_count ≤ (lt_remove_component w e cid).2.structural_move_count := by
  simp only [lt_remove_component]
  split
  · exact Nat.le_refl _
  · split
    · exact Nat.le_refl _
    · split
      · rw [counter_enqueue_remove]
      · split
        · exact Nat.le_refl _
        · split
          · exact Nat.le_refl _
          · split
            · exact Nat.le_refl _
            · split
              · simp [counter_find_or_create]
              · split
                · simp [counter_alloc_row, counter_find_or_create]
                · refine Nat.le_trans ?_ (counter_swap_remove_ge _ _ _ _)
                  simp [counter_modifySlot, counter_fillRow_remove, counter_modifyChunk,
                    counter_alloc_row, counter_find_or_create]

theorem counter_remove_strict (w : World) (e cid : Nat)
    (hd : w.defer_depth = 0) :
    (lt_remove_component w e cid).1 = Status.ok →
    w.structural_move_count < (lt_remove_component w e cid).2.structural_move_count := by
  simp only [lt_remove_component]
  split
  · intro h
    exact absurd h (by simp)
  · split
    · intro h
      exact absurd h (by simp)
    · split
      · rename_i hdep
        omega
      · split
        · rename_i s heq
          intro h
          exact absurd h (get_live_slot_none_ne_ok w e s heq)
        · split
          · intro h
            exact absurd h (by simp)
          · split
            · rename_i hcond
              intro h
              exact absurd h hcond
            · split
              · rename_i hcond
                intro h
                exact absurd h hcond
              · split
                · rename_i hcond
                  intro h
                  exact absurd h hcond
                · intro _
                  refine Nat.lt_of_lt_of_le ?_ (counter_swap_remove_ge _ _ _ _)
                  simp [counter_modifySlot, counter_fillRow_remove, counter_modifyChunk,
                    counter_alloc_row, counter_find_or_create]

theorem counter_begin_defer (w : World) :
    (lt_world_begin_defer w).2.structural_move_count = w.structural_move_count := by
  rw [lt_world_begin_defer]
  split
  · rfl
  · rfl

theorem counter_end_defer (w : World) :
    (lt_world_end_defer w).2.structural_move_count = w.structural_move_count := by
  rw [lt_world_end_defer]
  split
  · rfl
  · rfl

theorem counter_register (w : World) (desc : ComponentDesc) :
    (lt_register_component w desc).2.1.structural_move_count = w.structural_move_count := by
  simp only [lt_register_component]
  split
  · rfl
  · split
    · rfl
    · split
      · rfl
      · rfl

theorem counter_apply_op_ge (w : World) (op : DeferredOp) :
    w.structural_move_count ≤ (applyDeferredOp w op).2.structural_move_count := by
  rw [applyDeferredOp]
  cases op.kind with
  | addComponent => exact counter_add_ge w op.entity op.component_id op.payload
  | removeComponent => exact counter_remove_ge w op.entity op.component_id
  | destroyEntity => exact counter_entity_destroy_ge w op.entity

theorem counter_run_ops_ge (q : List DeferredOp) :
    ∀ w, w.structural_move_count ≤ (runDeferredOps w q).2.structural_move_count := by
  induction q with
  | nil => intro w; exact Nat.le_refl _
  | cons op rest ih =>
    intro w
    rw [runDeferredOps]
    cases hstep : applyDeferredOp w op with
    | mk s w1 =>
      have h1 : w.structural_move_count ≤ w1.structural_move_count := by
        have := counter_apply_op_ge w op
        rw [hstep] at this
        exact this
      cases s with
      | ok => exact Nat.le_trans h1 (ih w1)
      | invalidArgument => exact h1
      | notFound => exact h1
      | alreadyExists => exact h1
      | capacityReached => exact h1
      | allocationFailed => exact h1
      | staleEntity => exact h1
      | conflict => exact h1
      | notImplemented => exact h1

theorem counter_flush_ge (w : World) :
    w.structural_move_count ≤ (lt_world_flush w).2.structural_move_count := by
  rw [lt_world_flush]
  split
  · exact Nat.le_refl _
  · cases hrun : runDeferredOps w w.deferred with
    | mk s w1 =>
      have := counter_run_ops_ge w.deferred w
      rw [hrun] at this
      exact this

/-- Counterexample to C3 as stated: destroying the sole (last-row) entity
of a fresh world succeeds yet leaves `structural_moves` unchanged — the
counter only advances inside swap-remove when a row actually moves, and
`lt_entity_destroy` adds no unconditional increment. -/
theorem c3_destroy_no_increment_counterexample :
    (lt_entity_destroy (lt_entity_create tinyWorld).2.1 4294967296).1 = Status.ok ∧
    (lt_entity_destroy (lt_entity_create tinyWorld).2.1 4294967296).2.structural_move_count
      = (lt_entity_create tinyWorld).2.1.structural_move_count := by
  decide

/-! ## Component-index lookup lemmas -/

theorem findComponentIdx_of_not_mem (ids : List Nat) (cid : Nat) (h : cid ∉ ids) :
    findComponentIdx ids cid = none := by
  induction ids with
  | nil => rfl
  | cons x rest ih =>
    rw [findComponentIdx]
    rw [if_neg (fun hc => h (by rw [← hc]; exact List.mem_cons_self x rest))]
    rw [ih (fun hc => h (List.mem_cons_of_mem x hc))]
    rfl

theorem findComponentIdx_of_mem (ids : List Nat) (cid : Nat) (h : cid ∈ ids) :
    ∃ i, findComponentIdx ids cid = some i ∧ i < ids.length ∧ ids.getD i 0 = cid := by
  induction ids with
  | nil => simp at h
  | cons x rest ih =>
    by_cases hx : x = cid
    · exact ⟨0, by rw [findComponentIdx, if_pos hx], by simp, hx⟩
    · have hm : cid ∈ rest := by
        rcases List.mem_cons.mp h with hc | hc
        · exact absurd hc.symm hx
        · exact hc
      obtain ⟨i, hfind, hlen, hget⟩ := ih hm
      refine ⟨i + 1, ?_, by simpa using hlen, by simpa using hget⟩
      rw [findComponentIdx, if_neg hx, hfind]
      rfl

theorem findComponentIdx_some (ids : List Nat) (cid : Nat) :
    ∀ i, findComponentIdx ids cid = some i → i < ids.length ∧ ids.getD i 0 = cid := by
  induction ids with
  | nil => intro i h; cases h
  | cons x rest ih =>
    intro i h
    rw [findComponentIdx] at h
    by_cases hx : x = cid
    · rw [if_pos hx] at h
      cases h
      exact ⟨by simp, hx⟩
    · rw [if_neg hx] at h
      cases hfind : findComponentIdx rest cid with
      | none => rw [hfind] at h; cases h
      | some j =>
        rw [hfind] at h
        simp only [Option.map] at h
        obtain ⟨hlen, hget⟩ := ih j hfind
        cases h
        exact ⟨by simpa using hlen, by simpa using hget⟩

theorem find_component_index_none (a : Archetype) (cid : Nat)
    (h : cid ∉ a.component_ids) :
    lt_archetype_find_component_index a cid = none := by
  rw [lt_archetype_find_component_index]
  split
  · rfl
  · exact findComponentIdx_of_not_mem a.component_ids cid h

theorem find_component_index_of_mem (a : Archetype) (cid : Nat)
    (hc : cid ≠ 0) (h : cid ∈ a.component_ids) :
    ∃ i, lt_archetype_find_component_index a cid = some i ∧
      i < a.component_ids.length ∧ a.component_ids.getD i 0 = cid := by
  rw [lt_archetype_find_component_index, if_neg hc]
  exact findComponentIdx_of_mem a.component_ids cid h

theorem find_component_index_some (a : Archetype) (cid : Nat) (i : Nat)
    (h : lt_archetype_find_component_index a cid = some i) :
    i < a.component_ids.length ∧ a.component_ids.getD i 0 = cid := by
  rw [lt_archetype_find_component_index] at h
  split at h
  · cases h
  · exact findComponentIdx_some a.component_ids cid i h

/-- Membership of an in-range `getD`. -/
theorem getD_mem_of_lt (l : List Nat) (i : Nat) (d : Nat) (h : i < l.length) :
    l.getD i d ∈ l := by
  induction l generalizing i with
  | nil => simp at h
  | cons x rest ih =>
    cases i with
    | zero => simp
    | succ j =>
      simp only [List.getD_cons_succ]
      exact List.mem_cons_of_mem x (ih j (by simpa using h))

/-- In a duplicate-free key, an index holding `cid` is the index the scan
finds. -/
theorem findComponentIdx_unique (ids : List Nat) (cid : Nat) (hnd : ids.Nodup) :
    ∀ i, i < ids.length → ids.getD i 0 = cid → findComponentIdx ids cid = some i := by
  induction ids with
  | nil => intro i h; simp at h
  | cons x rest ih =>
    intro i hlen hget
    rw [List.nodup_cons] at hnd
    cases i with
    | zero =>
      rw [findComponentIdx, if_pos (by simpa using hget)]
    | succ j =>
      have hget' : rest.getD j 0 = cid := by simpa using hget
      have hj : j < rest.length := by simpa using hlen
      have hx : x ≠ cid := by
        intro hc
        subst hc
        refine hnd.1 ?_
        rw [← hget']
        exact getD_mem_of_lt rest j 0 hj
      rw [findComponentIdx, if_neg hx, ih hnd.2 j hj hget']
      rfl


/-! ## Shape lemmas for the structural engine -/

theorem length_slots_modifySlot (w : World) (i : Nat) (f : Slot → Slot) :
    (w.modifySlot i f).slots.length = w.slots.length := by
  simp [World.modifySlot, length_listModify]

theorem slotD_modifySlot_eq (w : World) (i : Nat) (f : Slot → Slot) (h : i < w.slots.length) :
    (w.modifySlot i f).slotD i = f (w.slotD i) := by
  simp only [World.modifySlot, World.slotD]
  exact getD_listModify_eq w.slots i f default h

theorem slotD_modifySlot_ne (w : World) (i j : Nat) (f : Slot → Slot) (h : j ≠ i) :
    (w.modifySlot i f).slotD j = w.slotD j := by
  simp only [World.modifySlot, World.slotD]
  exact getD_listModify_ne w.slots i j f default h

theorem length_arch_modifyArchetype (w : World) (ai : Nat) (f : Archetype → Archetype) :
    (w.modifyArchetype ai f).archetypes.length = w.archetypes.length := by
  simp [World.modifyArchetype, length_listModify]

theorem archD_modifyArchetype_eq (w : World) (ai : Nat) (f : Archetype → Archetype)
    (h : ai < w.archetypes.length) :
    (w.modifyArchetype ai f).archD ai = f (w.archD ai) := by
  simp only [World.modifyArchetype, World.archD]
  exact getD_listModify_eq w.archetypes ai f default h

theorem archD_modifyArchetype_ne (w : World) (ai aj : Nat) (f : Archetype → Archetype)
    (h : aj ≠ ai) :
    (w.modifyArchetype ai f).archD aj = w.archD aj := by
  simp only [World.modifyArchetype, World.archD]
  exact getD_listModify_ne w.archetypes ai aj f default h

theorem archD_modifyArchetype_oob (w : World) (ai : Nat) (f : Archetype → Archetype)
    (h : w.archetypes.length ≤ ai) :
    w.modifyArchetype ai f = w := by
  simp only [World.modifyArchetype]
  rw [listModify_of_ge w.archetypes ai f h]

theorem archD_modifyChunk_ne (w : World) (ai aj ci : Nat) (f : Chunk → Chunk)
    (h : aj ≠ ai) :
    (w.modifyChunk ai ci f).archD aj = w.archD aj :=
  archD_modifyArchetype_ne w ai aj _ h

theorem chunkD_modifyChunk_eq (w : World) (ai ci : Nat) (f : Chunk → Chunk)
    (hai : ai < w.archetypes.length) (hci : ci < (w.archD ai).chunks.length) :
    (w.modifyChunk ai ci f).chunkD ai ci = f (w.chunkD ai ci) := by
  simp only [World.modifyChunk, World.chunkD]
  rw [archD_modifyArchetype_eq w ai _ hai]
  exact getD_listModify_eq (w.archD ai).chunks ci f default hci

theorem chunkD_modifyChunk_ne (w : World) (ai ci cj : Nat) (f : Chunk → Chunk)
    (hai : ai < w.archetypes.length) (h : cj ≠ ci) :
    (w.modifyChunk ai ci f).chunkD ai cj = w.chunkD ai cj := by
  simp only [World.modifyChunk, World.chunkD]
  rw [archD_modifyArchetype_eq w ai _ hai]
  exact getD_listModify_ne (w.archD ai).chunks ci cj f default h

theorem key_modifyChunk (w : World) (ai ci : Nat) (f : Chunk → Chunk)
    (hai : ai < w.archetypes.length) :
    ((w.modifyChunk ai ci f).archD ai).component_ids = (w.archD ai).component_ids := by
  simp only [World.modifyChunk]
  rw [archD_modifyArchetype_eq w ai _ hai]

theorem chunks_length_modifyChunk (w : World) (ai ci : Nat) (f : Chunk → Chunk)
    (hai : ai < w.archetypes.length) :
    ((w.modifyChunk ai ci f).archD ai).chunks.length = (w.archD ai).chunks.length := by
  simp only [World.modifyChunk]
  rw [archD_modifyArchetype_eq w ai _ hai]
  simp [length_listModify]

/-- Two chunks of the same shape: only component cell values differ. -/
def ChunkShapeEq (c c' : Chunk) : Prop :=
  c'.count = c.count ∧ c'.capacity = c.capacity ∧ c'.entities = c.entities ∧
  c'.cols.length = c.cols.length ∧
  ∀ i, (c'.cols.getD i []).length = (c.cols.getD i []).length

/-- Two worlds that differ only in component cell values of one chunk. -/
def WorldShapeEqAt (w w' : World) (dAi dCi : Nat) : Prop :=
  (w' = { w with archetypes := w'.archetypes }) ∧
  w'.archetypes.length = w.archetypes.length ∧
  (∀ aj, aj ≠ dAi → w'.archD aj = w.archD aj) ∧
  (w'.archD dAi).component_ids = (w.archD dAi).component_ids ∧
  (w'.archD dAi).rows_per_chunk = (w.archD dAi).rows_per_chunk ∧
  (w'.archD dAi).chunks.length = (w.archD dAi).chunks.length ∧
  (∀ cj, cj ≠ dCi → w'.chunkD dAi cj = w.chunkD dAi cj) ∧
  ChunkShapeEq (w.chunkD dAi dCi) (w'.chunkD dAi dCi)

theorem worldShapeEqAt_refl (w : World) (dAi dCi : Nat) : WorldShapeEqAt w w dAi dCi := by
  refine ⟨rfl, rfl, fun aj _ => rfl, rfl, rfl, rfl, fun cj _ => rfl, ?_⟩
  exact ⟨rfl, rfl, rfl, rfl, fun i => rfl⟩

theorem worldShapeEqAt_trans (w1 w2 w3 : World) (dAi dCi : Nat)
    (h12 : WorldShapeEqAt w1 w2 dAi dCi) (h23 : WorldShapeEqAt w2 w3 dAi dCi) :
    WorldShapeEqAt w1 w3 dAi dCi := by
  obtain ⟨e12, l12, a12, k12, r12, c12, j12, s12⟩ := h12
  obtain ⟨e23, l23, a23, k23, r23, c23, j23, s23⟩ := h23
  refine ⟨?_, l23.trans l12, fun aj h => (a23 aj h).trans (a12 aj h),
    k23.trans k12, r23.trans r12, c23.trans c12,
    fun cj h => (j23 cj h).trans (j12 cj h), ?_⟩
  · rw [e23, e12]
  · obtain ⟨x1, x2, x3, x4, x5⟩ := s12
    obtain ⟨y1, y2, y3, y4, y5⟩ := s23
    exact ⟨y1.trans x1, y2.trans x2, y3.trans x3, y4.trans x4,
      fun i => (y5 i).trans (x5 i)⟩

theorem worldShapeEqAt_modifyChunk (w : World) (dAi dCi : Nat) (f : Chunk → Chunk)
    (hf : ∀ c, ChunkShapeEq c (f c)) :
    WorldShapeEqAt w (w.modifyChunk dAi dCi f) dAi dCi := by
  by_cases hai : dAi < w.archetypes.length
  · refine ⟨?_, length_arch_modifyArchetype w dAi _, ?_, key_modifyChunk w dAi dCi f hai,
      ?_, chunks_length_modifyChunk w dAi dCi f hai, ?_, ?_⟩
    · rfl
    · intro aj h
      exact archD_modifyChunk_ne w dAi aj dCi f h
    · simp only [World.modifyChunk]
      rw [archD_modifyArchetype_eq w dAi _ hai]
    · intro cj h
      exact chunkD_modifyChunk_ne w dAi dCi cj f hai h
    · by_cases hci : dCi < (w.archD dAi).chunks.length
      · rw [chunkD_modifyChunk_eq w dAi dCi f hai hci]
        exact hf (w.chunkD dAi dCi)
      · have : (w.modifyChunk dAi dCi f).chunkD dAi dCi = w.chunkD dAi dCi := by
          simp only [World.modifyChunk, World.chunkD]
          rw [archD_modifyArchetype_eq w dAi _ hai]
          simp only
          rw [listModify_of_ge (w.archD dAi).chunks dCi f (by omega)]
        rw [this]
        exact ⟨rfl, rfl, rfl, rfl, fun i => rfl⟩
  · rw [World.modifyChunk, archD_modifyArchetype_oob w dAi _ (by omega)]
    exact worldShapeEqAt_refl w dAi dCi

theorem chunkShapeEq_writeCell (c : Chunk) (i r : Nat) (bytes : List Nat) :
    ChunkShapeEq c (c.writeCell i r bytes) := by
  refine ⟨rfl, rfl, rfl, ?_, ?_⟩
  · simp [Chunk.writeCell, length_listModify]
  · intro j
    simp only [Chunk.writeCell]
    by_cases hj : j = i
    · subst hj
      by_cases hlen : j < c.cols.length
      · rw [getD_listModify_eq c.cols j _ [] hlen]
        simp [length_listModify]
      · rw [listModify_of_ge c.cols j _ (by omega)]
    · rw [getD_listModify_ne c.cols i j _ [] hj]

/-- `copyRowCols` only rewrites component cells of the destination
chunk. -/
theorem copyRowCols_shape (ids : List Nat) (sAi sCi sR dAi dCi dR : Nat) :
    ∀ w, WorldShapeEqAt w (copyRowCols w ids sAi sCi sR dAi dCi dR) dAi dCi := by
  unfold copyRowCols
  generalize List.range ids.length = l
  induction l with
  | nil =>
    intro w
    exact worldShapeEqAt_refl w dAi dCi
  | cons i rest ih =>
    intro w
    rw [List.foldl_cons]
    refine worldShapeEqAt_trans _ _ _ dAi dCi ?_ (ih _)
    show WorldShapeEqAt w
      (if (w.componentGet (ids.getD i 0)).size = 0 then w
       else w.modifyChunk dAi dCi (fun c => c.writeCell i dR
         ((w.chunkD sAi sCi).readCell i sR))) dAi dCi
    split
    · exact worldShapeEqAt_refl w dAi dCi
    · exact worldShapeEqAt_modifyChunk w dAi dCi _
        (fun c => chunkShapeEq_writeCell c i dR _)

/-- `addComponentFillRow` only rewrites component cells of the destination
chunk. -/
theorem addFillRow_shape (dstIds : List Nat) (cid : Nat) (p : Option (List Nat))
    (sAi sCi sR dAi dCi dR : Nat) :
    ∀ w, WorldShapeEqAt w (addComponentFillRow w dstIds cid p sAi sCi sR dAi dCi dR)
      dAi dCi := by
  have hstep : ∀ w i,
      WorldShapeEqAt w (addFillStep dstIds cid p sAi sCi sR dAi dCi dR w i) dAi dCi := by
    intro w i
    rw [addFillStep.eq_def]
    split
    · split
      · exact worldShapeEqAt_refl w dAi dCi
      · exact worldShapeEqAt_modifyChunk w dAi dCi _
          (fun c => chunkShapeEq_writeCell c i dR _)
    · split
      · exact worldShapeEqAt_refl w dAi dCi
      · exact worldShapeEqAt_modifyChunk w dAi dCi _
          (fun c => chunkShapeEq_writeCell c i dR _)
  unfold addComponentFillRow
  generalize List.range dstIds.length = l
  induction l with
  | nil =>
    intro w
    exact worldShapeEqAt_refl w dAi dCi
  | cons i rest ih =>
    intro w
    rw [List.foldl_cons]
    exact worldShapeEqAt_trans _ _ _ dAi dCi (hstep w i) (ih _)

/-- `removeComponentFillRow` only rewrites component cells of the
destination chunk. -/
theorem removeFillRow_shape (dstIds : List Nat) (sAi sCi sR dAi dCi dR : Nat) :
    ∀ w, WorldShapeEqAt w (removeComponentFillRow w dstIds sAi sCi sR dAi dCi dR)
      dAi dCi := by
  unfold removeComponentFillRow
  generalize List.range dstIds.length = l
  induction l with
  | nil =>
    intro w
    exact worldShapeEqAt_refl w dAi dCi
  | cons i rest ih =>
    intro w
    rw [List.foldl_cons]
    refine worldShapeEqAt_trans _ _ _ dAi dCi ?_ (ih _)
    show WorldShapeEqAt w
      (if (w.componentGet (dstIds.getD i 0)).size = 0 then w
       else w.modifyChunk dAi dCi (fun c => c.writeCell i dR
         ((w.chunkD sAi sCi).readCell
           ((lt_archetype_find_component_index (w.archD sAi)
             (dstIds.getD i 0)).getD 0) sR))) dAi dCi
    split
    · exact worldShapeEqAt_refl w dAi dCi
    · exact worldShapeEqAt_modifyChunk w dAi dCi _
        (fun c => chunkShapeEq_writeCell c i dR _)

/-! ## Well-formedness of the chunked storage -/

/-- Well-formed chunk for a given archetype key: live prefix within a
positive capacity, a full-capacity entity column, one column per key
entry, tag columns `NULL` (empty) and data columns of full capacity. -/
def ChunkWF (w : World) (key : List Nat) (c : Chunk) : Prop :=
  c.count ≤ c.capacity ∧
  0 < c.capacity ∧
  c.entities.length = c.capacity ∧
  c.cols.length = key.length ∧
  ∀ i, i < key.length →
    ((w.componentGet (key.getD i 0)).size = 0 → c.cols.getD i [] = []) ∧
    ((w.componentGet (key.getD i 0)).size ≠ 0 → (c.cols.getD i []).length = c.capacity)

/-- Well-formed archetype: strictly sorted key, positive row budget,
well-formed chunks. -/
def ArchetypeWF (w : World) (a : Archetype) : Prop :=
  a.component_ids.Pairwise (· < ·) ∧
  0 < a.rows_per_chunk ∧
  ∀ ci, ci < a.chunks.length → ChunkWF w a.component_ids (a.chunks.getD ci default)

/-- All archetypes of the world are well-formed. -/
def ArchetypesWF (w : World) : Prop :=
  ∀ ai, ai < w.archetypes.length → ArchetypeWF w (w.archD ai)

theorem findArchetypeIdx_some (archs : List Archetype) (ids : List Nat) :
    ∀ i, findArchetypeIdx archs ids = some i →
      i < archs.length ∧ (archs.getD i default).component_ids = ids := by
  induction archs with
  | nil => intro i h; cases h
  | cons a rest ih =>
    intro i h
    rw [findArchetypeIdx] at h
    by_cases ha : a.component_ids = ids
    · rw [if_pos ha] at h
      cases h
      exact ⟨by simp, ha⟩
    · rw [if_neg ha] at h
      cases hfind : findArchetypeIdx rest ids with
      | none => rw [hfind] at h; cases h
      | some j =>
        rw [hfind] at h
        simp only [Option.map] at h
        obtain ⟨hlen, hget⟩ := ih j hfind
        cases h
        exact ⟨by simpa using hlen, by simpa using hget⟩

theorem compute_rows_pos (w : World) (ids : List Nat) :
    0 < lt_compute_rows_per_chunk w ids := by
  simp only [lt_compute_rows_per_chunk]
  split
  · split
    · omega
    · omega
  · rename_i h1
    split
    · omega
    · exact Nat.zero_lt_of_ne_zero h1

/-- Specification of `lt_find_or_create_archetype` in the model: it always
succeeds below the archetype-count limit, yields an archetype with the
requested key, preserves every other field and every existing archetype,
and keeps the store well-formed when the key is sorted. -/
theorem find_or_create_spec (w : World) (ids : List Nat)
    (hlen : w.archetypes.length ≠ U32MAX) :
    ∃ w1 ai,
      lt_find_or_create_archetype w ids = (Status.ok, w1, ai) ∧
      (w1 = { w with archetypes := w1.archetypes }) ∧
      ai < w1.archetypes.length ∧
      (w1.archD ai).component_ids = ids ∧
      w.archetypes.length ≤ w1.archetypes.length ∧
      (∀ aj, aj < w.archetypes.length → w1.archD aj = w.archD aj) ∧
      (ids.Pairwise (· < ·) → ArchetypesWF w → ArchetypesWF w1) := by
  rw [lt_find_or_create_archetype]
  cases hfind : lt_find_archetype w ids with
  | some ai =>
    have hspec : ai < w.archetypes.length ∧ (w.archD ai).component_ids = ids := by
      rw [lt_find_archetype] at hfind
      exact findArchetypeIdx_some w.archetypes ids ai hfind
    exact ⟨w, ai, rfl, rfl, hspec.1, hspec.2, Nat.le_refl _,
      fun aj _ => rfl, fun _ h => h⟩
  | none =>
    rw [lt_archetype_create, if_neg hlen]
    refine ⟨_, w.archetypes.length, rfl, rfl, ?_, ?_, ?_, ?_, ?_⟩
    · simp
    · simp only [World.archD]
      rw [getD_append_right _ _ _ _ (Nat.le_refl _)]
      simp
    · simp
    · intro aj haj
      simp only [World.archD]
      rw [getD_append_left _ _ _ _ haj]
    · intro hsort hwf ai hai
      simp only [List.length_append, List.length_cons, List.length_nil] at hai
      by_cases hlt : ai < w.archetypes.length
      · have : ({ w with archetypes := w.archetypes ++
            [{ component_ids := ids,
               rows_per_chunk := if lt_compute_rows_per_chunk w ids = 0 then 1
                 else lt_compute_rows_per_chunk w ids,
               chunks := [] }] } : World).archD ai = w.archD ai := by
          simp only [World.archD]
          rw [getD_append_left _ _ _ _ hlt]
        rw [this]
        have hw := hwf ai hlt
        exact hw
      · have hai' : ai = w.archetypes.length := by omega
        subst hai'
        have : ({ w with archetypes := w.archetypes ++
            [{ component_ids := ids,
               rows_per_chunk := if lt_compute_rows_per_chunk w ids = 0 then 1
                 else lt_compute_rows_per_chunk w ids,
               chunks := [] }] } : World).archD w.archetypes.length =
            { component_ids := ids,
              rows_per_chunk := if lt_compute_rows_per_chunk w ids = 0 then 1
                else lt_compute_rows_per_chunk w ids,
              chunks := [] } := by
          simp only [World.archD]
          rw [getD_append_right _ _ _ _ (Nat.le_refl _)]
          simp
        rw [this]
        refine ⟨hsort, ?_, ?_⟩
        · show 0 < (if lt_compute_rows_per_chunk w ids = 0 then 1
            else lt_compute_rows_per_chunk w ids)
          have := compute_rows_pos w ids
          split
          · omega
          · omega
        · intro ci hci
          simp at hci

theorem getD_map_chunkcol (f : Nat → List (List Nat)) (l : List Nat) (i : Nat)
    (h : i < l.length) : (l.map f).getD i [] = f (l.getD i 0) := by
  induction l generalizing i with
  | nil => simp at h
  | cons x rest ih =>
    cases i with
    | zero => rfl
    | succ j =>
      simp only [List.map_cons, List.getD_cons_succ]
      exact ih j (by simpa using h)

theorem findFreeChunk_some (l : List Chunk) :
    ∀ ci, findFreeChunk l = some ci →
      ci < l.length ∧ (l.getD ci default).count < (l.getD ci default).capacity := by
  induction l with
  | nil => intro ci h; cases h
  | cons c rest ih =>
    intro ci h
    rw [findFreeChunk] at h
    by_cases hc : c.count < c.capacity
    · rw [if_pos hc] at h
      cases h
      exact ⟨by simp, hc⟩
    · rw [if_neg hc] at h
      cases hfind : findFreeChunk rest with
      | none => rw [hfind] at h; cases h
      | some j =>
        rw [hfind] at h
        simp only [Option.map] at h
        obtain ⟨hlen, hlt⟩ := ih j hfind
        cases h
        exact ⟨by simpa using hlen, by simpa using hlt⟩

theorem lt_chunk_create_eq (w : World) (a : Archetype) (h : 0 < a.rows_per_chunk) :
    lt_chunk_create w a =
      { count := 0, capacity := a.rows_per_chunk,
        entities := List.replicate a.rows_per_chunk 0,
        cols := a.component_ids.map (fun cid =>
          if (w.componentGet cid).size = 0 then []
          else List.replicate a.rows_per_chunk
            (List.replicate (w.componentGet cid).size 0)) } := by
  simp only [lt_chunk_create]
  rw [if_neg (by omega)]

/-- The new chunk appended by the allocation slow path is well-formed. -/
theorem chunk_create_wf (w : World) (a : Archetype) (hrpc : 0 < a.rows_per_chunk) :
    ChunkWF w a.component_ids { lt_chunk_create w a with count := 1 } := by
  rw [lt_chunk_create_eq w a hrpc]
  refine ⟨by simpa using hrpc, by simpa using hrpc, by simp, by simp, ?_⟩
  intro i hi
  have hmap := getD_map_chunkcol
    (fun cid => if (w.componentGet cid).size = 0 then []
      else List.replicate a.rows_per_chunk
        (List.replicate (w.componentGet cid).size 0))
    a.component_ids i hi
  constructor
  · intro hsz
    show (a.component_ids.map _).getD i [] = []
    rw [hmap]
    simp only [if_pos hsz]
  · intro hsz
    show ((a.component_ids.map _).getD i []).length = _
    rw [hmap]
    simp only [if_neg hsz]
    simp

theorem getD_of_ge {α : Type} (l : List α) (i : Nat) (d : α) (h : l.length ≤ i) :
    l.getD i d = d := by
  induction l generalizing i with
  | nil => cases i <;> rfl
  | cons x rest ih =>
    cases i with
    | zero => simp at h
    | succ j => exact ih j (by simpa using h)

theorem alloc_row_spec (w : World) (ai : Nat)
    (hai : ai < w.archetypes.length)
    (hwf : ArchetypeWF w (w.archD ai)) :
    ∃ w2 ci row,
      lt_archetype_alloc_row w ai = (Status.ok, w2, ci, row) ∧
      (w2 = { w with archetypes := w2.archetypes,
                     total_chunk_count := w2.total_chunk_count }) ∧
      w2.archetypes.length = w.archetypes.length ∧
      (∀ aj, aj ≠ ai → w2.archD aj = w.archD aj) ∧
      (w2.archD ai).component_ids = (w.archD ai).component_ids ∧
      (w2.archD ai).rows_per_chunk = (w.archD ai).rows_per_chunk ∧
      ci < (w2.archD ai).chunks.length ∧
      (∀ cj, cj ≠ ci → w2.chunkD ai cj = w.chunkD ai cj) ∧
      (w2.chunkD ai ci).count = row + 1 ∧
      ChunkWF w (w.archD ai).component_ids (w2.chunkD ai ci) ∧
      (((w2.archD ai).chunks.length = (w.archD ai).chunks.length ∧
        ci < (w.archD ai).chunks.length ∧
        (w2.chunkD ai ci).entities = (w.chunkD ai ci).entities ∧
        (w2.chunkD ai ci).cols = (w.chunkD ai ci).cols ∧
        (w2.chunkD ai ci).capacity = (w.chunkD ai ci).capacity ∧
        (w.chunkD ai ci).count = row) ∨
       ((w2.archD ai).chunks.length = (w.archD ai).chunks.length + 1 ∧
        ci = (w.archD ai).chunks.length ∧ row = 0 ∧
        (w2.chunkD ai ci).entities =
          List.replicate (w2.chunkD ai ci).capacity 0)) := by
  rw [lt_archetype_alloc_row]
  cases hfind : findFreeChunk (w.archD ai).chunks with
  | some ci =>
    obtain ⟨hci, hfree⟩ := findFreeChunk_some _ ci hfind
    have hckeq := chunkD_modifyChunk_eq w ai ci
      (fun c => { c with count := c.count + 1 }) hai hci
    refine ⟨_, ci, (w.chunkD ai ci).count, rfl, rfl,
      length_arch_modifyArchetype w ai _,
      fun aj h => archD_modifyChunk_ne w ai aj ci _ h, ?_, ?_, ?_, ?_, ?_, ?_, ?_⟩
    · exact key_modifyChunk w ai ci _ hai
    · simp only [World.modifyChunk]
      rw [archD_modifyArchetype_eq w ai _ hai]
    · rw [chunks_length_modifyChunk w ai ci _ hai]
      exact hci
    · intro cj h
      exact chunkD_modifyChunk_ne w ai ci cj _ hai h
    · rw [hckeq]
    · rw [hckeq]
      obtain ⟨h1, h2, h3, h4, h5⟩ := hwf.2.2 ci hci
      exact ⟨Nat.succ_le_of_lt hfree, h2, h3, h4, h5⟩
    · left
      rw [hckeq]
      exact ⟨chunks_length_modifyChunk w ai ci _ hai, hci, rfl, rfl, rfl, rfl⟩
  | none =>
    have hrpc := hwf.2.1
    have harch : ∀ x : Nat,
        ({ w.modifyArchetype ai (fun a => { a with chunks := a.chunks ++
          [{ lt_chunk_create w (w.archD ai) with count := 1 }] }) with
          total_chunk_count := x } : World).archD ai =
        { w.archD ai with chunks := (w.archD ai).chunks ++
          [{ lt_chunk_create w (w.archD ai) with count := 1 }] } := by
      intro x
      show (w.modifyArchetype ai _).archD ai = _
      rw [archD_modifyArchetype_eq w ai _ hai]
    have hchunk : ∀ x : Nat,
        ({ w.modifyArchetype ai (fun a => { a with chunks := a.chunks ++
          [{ lt_chunk_create w (w.archD ai) with count := 1 }] }) with
          total_chunk_count := x } : World).chunkD ai (w.archD ai).chunks.length =
        { lt_chunk_create w (w.archD ai) with count := 1 } := by
      intro x
      show (World.chunkD _ ai _) = _
      rw [World.chunkD, harch x]
      show ((w.archD ai).chunks ++ _).getD (w.archD ai).chunks.length default = _
      rw [getD_append_right _ _ _ _ (Nat.le_refl _)]
      simp
    refine ⟨_, (w.archD ai).chunks.length, 0, rfl, rfl, ?_, ?_, ?_, ?_, ?_, ?_, ?_, ?_, ?_⟩
    · show (w.modifyArchetype ai _).archetypes.length = _
      exact length_arch_modifyArchetype w ai _
    · intro aj h
      show (w.modifyArchetype ai _).archD aj = _
      exact archD_modifyArchetype_ne w ai aj _ h
    · rw [harch]
    · rw [harch]
    · rw [harch]
      simp
    · intro cj h
      show (World.chunkD _ ai cj) = _
      rw [World.chunkD, harch]
      show ((w.archD ai).chunks ++ _).getD cj default = _
      by_cases hcj : cj < (w.archD ai).chunks.length
      · rw [getD_append_left _ _ _ _ hcj]
        rfl
      · rw [getD_append_right _ _ _ _ (by omega), World.chunkD]
        rw [getD_of_ge _ _ _ (by simp; omega), getD_of_ge _ _ _ (by omega)]
    · rw [hchunk]
    · rw [hchunk]
      exact chunk_create_wf w (w.archD ai) hrpc
    · right
      rw [hchunk, harch]
      refine ⟨by simp, rfl, rfl, ?_⟩
      show ({ lt_chunk_create w (w.archD ai) with count := 1 }).entities =
        List.replicate ({ lt_chunk_create w (w.archD ai) with count := 1 }).capacity 0
      rw [lt_chunk_create_eq w (w.archD ai) hrpc]


/-! ## Entity handle lemmas and the location invariant -/

theorem index_pack (i g : Nat) (hi : i < U32LIMIT) :
    lt_entity_index (lt_entity_pack i g) = i := by
  simp only [lt_entity_index, lt_entity_pack, U32LIMIT] at *
  omega

theorem gen_pack (i g : Nat) (hg : g < U32LIMIT) :
    lt_entity_generation (lt_entity_pack i g) = g := by
  simp only [lt_entity_generation, lt_entity_pack, U32LIMIT] at *
  omega

theorem pack_lt (i g : Nat) : lt_entity_pack i g < U32LIMIT * U32LIMIT := by
  simp only [lt_entity_pack, U32LIMIT]
  have h1 : g % 4294967296 < 4294967296 := Nat.mod_lt g (by omega)
  have h2 : i % 4294967296 < 4294967296 := Nat.mod_lt i (by omega)
  nlinarith

theorem pack_inj_index (i g i' g' : Nat) (hi : i < U32LIMIT) (hi' : i' < U32LIMIT)
    (h : lt_entity_pack i g = lt_entity_pack i' g') : i = i' := by
  have h1 := index_pack i g hi
  have h2 := index_pack i' g' hi'
  rw [← h1, ← h2, h]

/-- The backward half of the location invariant at one row: the stored
entity's slot is alive with matching generation and points back at the
row. -/
def BackwardAt (w : World) (ai ci r : Nat) : Prop :=
  lt_entity_index ((w.chunkD ai ci).entities.getD r 0) < w.slots.length ∧
  (w.slotD (lt_entity_index ((w.chunkD ai ci).entities.getD r 0))).alive = true ∧
  (w.slotD (lt_entity_index ((w.chunkD ai ci).entities.getD r 0))).generation =
    lt_entity_generation ((w.chunkD ai ci).entities.getD r 0) ∧
  (w.slotD (lt_entity_index ((w.chunkD ai ci).entities.getD r 0))).archetype = ai ∧
  (w.slotD (lt_entity_index ((w.chunkD ai ci).entities.getD r 0))).chunk = ci ∧
  (w.slotD (lt_entity_index ((w.chunkD ai ci).entities.getD r 0))).row = r

/-- The forward half of the location invariant at one slot: an alive
slot's location is in range and the entity column there holds the packed
handle. -/
def ForwardAt (w : World) (i : Nat) : Prop :=
  (w.slotD i).archetype < w.archetypes.length ∧
  (w.slotD i).chunk < (w.archD (w.slotD i).archetype).chunks.length ∧
  (w.slotD i).row < (w.chunkD (w.slotD i).archetype (w.slotD i).chunk).count ∧
  (w.chunkD (w.slotD i).archetype (w.slotD i).chunk).entities.getD (w.slotD i).row 0 =
    lt_entity_pack i (w.slotD i).generation

/-- The free list as an explicit chain of dead in-range slots ending at
the `UINT32_MAX` terminator. -/
def freeChainOk (w : World) : List Nat → Nat → Prop
  | [], h => h = U32MAX
  | i :: rest, h =>
    h = i ∧ i < w.slots.length ∧ (w.slotD i).alive = false ∧
      freeChainOk w rest ((w.slotD i).next_free)

/-- The world invariant maintained by the core operations (C1): capacity
bounds, well-formed chunked storage, the two halves of the entity
location invariant, a well-formed free list covering every dead slot, and
`u64`-ranged queued entities. -/
structure WorldInv (w : World) : Prop where
  cap_bound : w.entity_capacity ≤ 4294967294
  slots_cap : w.slots.length ≤ w.entity_capacity
  gen_lt : ∀ i, i < w.slots.length → (w.slotD i).generation < U32LIMIT
  root_lt : w.root_archetype < w.archetypes.length
  arch_wf : ArchetypesWF w
  forward : ∀ i, i < w.slots.length → (w.slotD i).alive = true → ForwardAt w i
  backward : ∀ ai ci r, ai < w.archetypes.length → ci < (w.archD ai).chunks.length →
    r < (w.chunkD ai ci).count → BackwardAt w ai ci r
  freelist : ∃ F : List Nat, F.Nodup ∧ freeChainOk w F w.free_entity_head ∧
    (∀ i, i < w.slots.length → (w.slotD i).alive = false → i ∈ F)
  deferred_entities : ∀ op ∈ w.deferred, op.entity < U32LIMIT * U32LIMIT

theorem inv_slots_lt (w : World) (hw : WorldInv w) : w.slots.length < U32LIMIT := by
  have h1 := hw.cap_bound
  have h2 := hw.slots_cap
  simp only [U32LIMIT]
  omega

theorem swap_remove_last_eq (w : World) (ai ci row : Nat)
    (hrow : row < (w.chunkD ai ci).count) (hlast : row = (w.chunkD ai ci).count - 1) :
    lt_archetype_swap_remove_row w ai ci row =
      w.modifyChunk ai ci (fun c => { c with count := c.count - 1 }) := by
  simp only [lt_archetype_swap_remove_row]
  rw [if_neg (by omega), if_pos hlast]

theorem swap_remove_move_eq (w : World) (ai ci row : Nat)
    (hrow : row < (w.chunkD ai ci).count) (hlast : row ≠ (w.chunkD ai ci).count - 1) :
    lt_archetype_swap_remove_row w ai ci row =
      ((fun wC =>
        (if lt_entity_index ((w.chunkD ai ci).entities.getD ((w.chunkD ai ci).count - 1) 0)
            < wC.slots.length then
          wC.modifySlot
            (lt_entity_index ((w.chunkD ai ci).entities.getD ((w.chunkD ai ci).count - 1) 0))
            (fun s => { s with archetype := ai, chunk := ci, row := row })
         else wC).modifyChunk ai ci (fun c => { c with count := c.count - 1 }))
       (copyRowCols
         (({ w with structural_move_count :=
             w.structural_move_count + 1 } : World).modifyChunk ai ci
           (fun c => { c with entities := (c.entities.set row
             ((w.chunkD ai ci).entities.getD ((w.chunkD ai ci).count - 1) 0)) }))
         (w.archD ai).component_ids ai ci ((w.chunkD ai ci).count - 1) ai ci row)) := by
  simp only [lt_archetype_swap_remove_row]
  rw [if_neg (by omega), if_neg hlast]

theorem World_ext (w1 w2 : World)
    (h1 : w1.target_chunk_bytes = w2.target_chunk_bytes)
    (h2 : w1.slots = w2.slots)
    (h3 : w1.entity_capacity = w2.entity_capacity)
    (h4 : w1.live_entity_count = w2.live_entity_count)
    (h5 : w1.free_entity_count = w2.free_entity_count)
    (h6 : w1.free_entity_head = w2.free_entity_head)
    (h7 : w1.components = w2.components)
    (h8 : w1.archetypes = w2.archetypes)
    (h9 : w1.root_archetype = w2.root_archetype)
    (h10 : w1.total_chunk_count = w2.total_chunk_count)
    (h11 : w1.deferred = w2.deferred)
    (h12 : w1.defer_depth = w2.defer_depth)
    (h13 : w1.structural_move_count = w2.structural_move_count) :
    w1 = w2 := by
  cases w1
  cases w2
  simp_all

theorem rpc_modifyChunk (w : World) (ai ci : Nat) (f : Chunk → Chunk)
    (hai : ai < w.archetypes.length) :
    ((w.modifyChunk ai ci f).archD ai).rows_per_chunk = (w.archD ai).rows_per_chunk := by
  simp only [World.modifyChunk]
  rw [archD_modifyArchetype_eq w ai _ hai]

/-- The postcondition of a swap-remove of `row` from chunk `(ai, ci)` when
the caller is about to relocate or retire the slot `exIdx`: the world is
unchanged outside slots, archetypes and the move counter; slots are either
untouched or redirected to the hole; only chunk `(ai, ci)` changes, losing
its last row while staying well-formed; the backward invariant holds
everywhere and the forward invariant everywhere but `exIdx`; and when a
move happened the hole holds the former last entity. -/
def SwapRemovePost (w W : World) (ai ci row exIdx : Nat) : Prop :=
  (W = { w with slots := W.slots,
                archetypes := W.archetypes,
                structural_move_count := W.structural_move_count }) ∧
  W.slots.length = w.slots.length ∧
  W.archetypes.length = w.archetypes.length ∧
  (∀ i, W.slotD i = w.slotD i ∨
    ((w.slotD i).alive = true ∧ i ≠ exIdx ∧ i < w.slots.length ∧
     W.slotD i = { w.slotD i with archetype := ai, chunk := ci, row := row })) ∧
  (∀ aj, aj ≠ ai → W.archD aj = w.archD aj) ∧
  (W.archD ai).component_ids = (w.archD ai).component_ids ∧
  (W.archD ai).rows_per_chunk = (w.archD ai).rows_per_chunk ∧
  (W.archD ai).chunks.length = (w.archD ai).chunks.length ∧
  (∀ cj, cj ≠ ci → W.chunkD ai cj = w.chunkD ai cj) ∧
  (W.chunkD ai ci).count = (w.chunkD ai ci).count - 1 ∧
  ChunkWF w (w.archD ai).component_ids (W.chunkD ai ci) ∧
  (∀ ai' ci' r', ai' < w.archetypes.length → ci' < (w.archD ai').chunks.length →
    r' < (W.chunkD ai' ci').count → BackwardAt W ai' ci' r') ∧
  (∀ i, i < w.slots.length → i ≠ exIdx → (W.slotD i).alive = true → ForwardAt W i) ∧
  (row ≠ (w.chunkD ai ci).count - 1 →
    (W.chunkD ai ci).entities.getD row 0 =
      (w.chunkD ai ci).entities.getD ((w.chunkD ai ci).count - 1) 0)

/-- `SwapRemovePost` follows, in the removed-row-is-last case, from a
characterization of the result world. -/
theorem swapRemovePost_of_last (w W : World) (ai ci row exIdx : Nat)
    (hai : ai < w.archetypes.length)
    (hci : ci < (w.archD ai).chunks.length)
    (hrow : row < (w.chunkD ai ci).count)
    (hcwf : ChunkWF w (w.archD ai).component_ids (w.chunkD ai ci))
    (hback : ∀ ai' ci' r', ai' < w.archetypes.length →
      ci' < (w.archD ai').chunks.length → r' < (w.chunkD ai' ci').count →
      ¬(ai' = ai ∧ ci' = ci ∧ r' = row) → BackwardAt w ai' ci' r')
    (hfor : ∀ i, i < w.slots.length → i ≠ exIdx → (w.slotD i).alive = true →
      ForwardAt w i)
    (hexrow : ∀ i, i < w.slots.length → i ≠ exIdx → (w.slotD i).alive = true →
      ¬((w.slotD i).archetype = ai ∧ (w.slotD i).chunk = ci ∧ (w.slotD i).row = row))
    (hl : row = (w.chunkD ai ci).count - 1)
    (hWeq : W = { w with slots := W.slots,
                         archetypes := W.archetypes,
                         structural_move_count := W.structural_move_count })
    (hWslots_len : W.slots.length = w.slots.length)
    (hWslotD : ∀ i, W.slotD i = w.slotD i)
    (hWarch_len : W.archetypes.length = w.archetypes.length)
    (hWarchD_ne : ∀ aj, aj ≠ ai → W.archD aj = w.archD aj)
    (hWkey : (W.archD ai).component_ids = (w.archD ai).component_ids)
    (hWrpc : (W.archD ai).rows_per_chunk = (w.archD ai).rows_per_chunk)
    (hWchunks_len : (W.archD ai).chunks.length = (w.archD ai).chunks.length)
    (hWchunkD_ne : ∀ cj, cj ≠ ci → W.chunkD ai cj = w.chunkD ai cj)
    (hWcnt : (W.chunkD ai ci).count = (w.chunkD ai ci).count - 1)
    (hWcap : (W.chunkD ai ci).capacity = (w.chunkD ai ci).capacity)
    (hWent : (W.chunkD ai ci).entities = (w.chunkD ai ci).entities)
    (hWcols_len : (W.chunkD ai ci).cols.length = (w.chunkD ai ci).cols.length)
    (hWcols_i : ∀ i, ((W.chunkD ai ci).cols.getD i []).length =
      ((w.chunkD ai ci).cols.getD i []).length) :
    SwapRemovePost w W ai ci row exIdx := by
  obtain ⟨hc1, hc2, hc3, hc4, hc5⟩ := hcwf
  have hother : ∀ a c, ¬(a = ai ∧ c = ci) → W.chunkD a c = w.chunkD a c := by
    intro a c hx
    by_cases ha : a = ai
    · subst ha
      exact hWchunkD_ne c (fun hc => hx ⟨rfl, hc⟩)
    · simp only [World.chunkD, hWarchD_ne a ha]
  refine ⟨hWeq, hWslots_len, hWarch_len, fun i => Or.inl (hWslotD i), hWarchD_ne, hWkey,
    hWrpc, hWchunks_len, hWchunkD_ne, hWcnt, ?_, ?_, ?_, ?_⟩
  · refine ⟨?_, ?_, ?_, ?_, ?_⟩
    · rw [hWcnt, hWcap]; omega
    · rw [hWcap]; exact hc2
    · rw [hWent, hWcap]; exact hc3
    · rw [hWcols_len, hc4]
    · intro i hi
      obtain ⟨h0, hpos⟩ := hc5 i hi
      constructor
      · intro hsz
        have hz : ((W.chunkD ai ci).cols.getD i []).length = 0 := by
          rw [hWcols_i i, h0 hsz]
          rfl
        exact List.length_eq_zero.mp hz
      · intro hsz
        rw [hWcols_i i, hWcap]
        exact hpos hsz
  · intro ai' ci' r' ha' hc' hr'
    by_cases hx : ai' = ai ∧ ci' = ci
    · obtain ⟨hx1, hx2⟩ := hx
      subst hx1
      subst hx2
      rw [hWcnt] at hr'
      have hb := hback ai' ci' r' ha' hc' (by omega) (by
        intro h
        obtain ⟨-, -, h3⟩ := h
        omega)
      obtain ⟨b1, b2, b3, b4, b5, b6⟩ := hb
      exact ⟨by rw [hWent, hWslots_len]; exact b1,
        by rw [hWent, hWslotD]; exact b2,
        by rw [hWent, hWslotD]; exact b3,
        by rw [hWent, hWslotD]; exact b4,
        by rw [hWent, hWslotD]; exact b5,
        by rw [hWent, hWslotD]; exact b6⟩
    · have hce := hother ai' ci' hx
      have hcc : (W.chunkD ai' ci').count = (w.chunkD ai' ci').count := by rw [hce]
      rw [hcc] at hr'
      have hb := hback ai' ci' r' ha' hc' hr' (fun h => hx ⟨h.1, h.2.1⟩)
      obtain ⟨b1, b2, b3, b4, b5, b6⟩ := hb
      exact ⟨by rw [hce, hWslots_len]; exact b1,
        by rw [hce, hWslotD]; exact b2,
        by rw [hce, hWslotD]; exact b3,
        by rw [hce, hWslotD]; exact b4,
        by rw [hce, hWslotD]; exact b5,
        by rw [hce, hWslotD]; exact b6⟩
  · intro i hi hne halive
    rw [hWslotD i] at halive
    obtain ⟨g1, g2, g3, g4⟩ := hfor i hi hne halive
    refine ⟨?_, ?_, ?_, ?_⟩
    · rw [hWslotD i, hWarch_len]
      exact g1
    · rw [hWslotD i]
      by_cases ha : (w.slotD i).archetype = ai
      · rw [ha, hWchunks_len]
        rw [ha] at g2
        exact g2
      · rw [hWarchD_ne _ ha]
        exact g2
    · rw [hWslotD i]
      by_cases hx : (w.slotD i).archetype = ai ∧ (w.slotD i).chunk = ci
      · obtain ⟨hx1, hx2⟩ := hx
        have hnr : (w.slotD i).row ≠ row := fun h => hexrow i hi hne halive ⟨hx1, hx2, h⟩
        rw [hx1, hx2, hWcnt]
        rw [hx1, hx2] at g3
        omega
      · rw [hother _ _ hx]
        exact g3
    · rw [hWslotD i]
      by_cases hx : (w.slotD i).archetype = ai ∧ (w.slotD i).chunk = ci
      · obtain ⟨hx1, hx2⟩ := hx
        rw [hx1, hx2, hWent]
        rw [hx1, hx2] at g4
        exact g4
      · rw [hother _ _ hx]
        exact g4
  · intro h
    exact absurd hl h

/-- `SwapRemovePost` follows, in the moved-last-row case, from a
characterization of the result world: `m` is the slot index of the last
row's entity, which was written into the hole and whose slot was
redirected there. -/
theorem swapRemovePost_of_move (w W : World) (ai ci row exIdx m : Nat)
    (hai : ai < w.archetypes.length)
    (hci : ci < (w.archD ai).chunks.length)
    (hrow : row < (w.chunkD ai ci).count)
    (hlen32 : w.slots.length < U32LIMIT)
    (hcwf : ChunkWF w (w.archD ai).component_ids (w.chunkD ai ci))
    (hback : ∀ ai' ci' r', ai' < w.archetypes.length →
      ci' < (w.archD ai').chunks.length → r' < (w.chunkD ai' ci').count →
      ¬(ai' = ai ∧ ci' = ci ∧ r' = row) → BackwardAt w ai' ci' r')
    (hfor : ∀ i, i < w.slots.length → i ≠ exIdx → (w.slotD i).alive = true →
      ForwardAt w i)
    (hexrow : ∀ i, i < w.slots.length → i ≠ exIdx → (w.slotD i).alive = true →
      ¬((w.slotD i).archetype = ai ∧ (w.slotD i).chunk = ci ∧ (w.slotD i).row = row))
    (hex : ∀ r, r < (w.chunkD ai ci).count → r ≠ row →
      lt_entity_index ((w.chunkD ai ci).entities.getD r 0) ≠ exIdx)
    (hl : row ≠ (w.chunkD ai ci).count - 1)
    (hmdef : lt_entity_index
      ((w.chunkD ai ci).entities.getD ((w.chunkD ai ci).count - 1) 0) = m)
    (hWeq : W = { w with slots := W.slots,
                         archetypes := W.archetypes,
                         structural_move_count := W.structural_move_count })
    (hWslots_len : W.slots.length = w.slots.length)
    (hWslotD_ne : ∀ i, i ≠ m → W.slotD i = w.slotD i)
    (hWslotD_m : W.slotD m = { w.slotD m with archetype := ai, chunk := ci, row := row })
    (hWarch_len : W.archetypes.length = w.archetypes.length)
    (hWarchD_ne : ∀ aj, aj ≠ ai → W.archD aj = w.archD aj)
    (hWkey : (W.archD ai).component_ids = (w.archD ai).component_ids)
    (hWrpc : (W.archD ai).rows_per_chunk = (w.archD ai).rows_per_chunk)
    (hWchunks_len : (W.archD ai).chunks.length = (w.archD ai).chunks.length)
    (hWchunkD_ne : ∀ cj, cj ≠ ci → W.chunkD ai cj = w.chunkD ai cj)
    (hWcnt : (W.chunkD ai ci).count = (w.chunkD ai ci).count - 1)
    (hWcap : (W.chunkD ai ci).capacity = (w.chunkD ai ci).capacity)
    (hWent : (W.chunkD ai ci).entities = (w.chunkD ai ci).entities.set row
      ((w.chunkD ai ci).entities.getD ((w.chunkD ai ci).count - 1) 0))
    (hWcols_len : (W.chunkD ai ci).cols.length = (w.chunkD ai ci).cols.length)
    (hWcols_i : ∀ i, ((W.chunkD ai ci).cols.getD i []).length =
      ((w.chunkD ai ci).cols.getD i []).length) :
    SwapRemovePost w W ai ci row exIdx := by
  obtain ⟨hc1, hc2, hc3, hc4, hc5⟩ := hcwf
  have hrowlen : row < (w.chunkD ai ci).entities.length := by
    rw [hc3]
    omega
  have hb0 := hback ai ci ((w.chunkD ai ci).count - 1) hai hci (by omega)
    (by
      intro h
      exact hl h.2.2.symm)
  obtain ⟨hm1, hm2, hm3, hm4, hm5, hm6⟩ := hb0
  rw [hmdef] at hm1 hm2 hm3 hm4 hm5 hm6
  have hmex : m ≠ exIdx := by
    have := hex ((w.chunkD ai ci).count - 1) (by omega) (fun h => hl h.symm)
    rw [hmdef] at this
    exact this
  have hother : ∀ a c, ¬(a = ai ∧ c = ci) → W.chunkD a c = w.chunkD a c := by
    intro a c hx
    by_cases ha : a = ai
    · subst ha
      exact hWchunkD_ne c (fun hc => hx ⟨rfl, hc⟩)
    · simp only [World.chunkD, hWarchD_ne a ha]
  refine ⟨hWeq, hWslots_len, hWarch_len, ?_, hWarchD_ne, hWkey, hWrpc,
    hWchunks_len, hWchunkD_ne, hWcnt, ?_, ?_, ?_, ?_⟩
  · intro i
    by_cases him : i = m
    · subst him
      exact Or.inr ⟨hm2, hmex, hm1, hWslotD_m⟩
    · exact Or.inl (hWslotD_ne i him)
  · refine ⟨?_, ?_, ?_, ?_, ?_⟩
    · rw [hWcnt, hWcap]; omega
    · rw [hWcap]; exact hc2
    · rw [hWent, hWcap, List.length_set]; exact hc3
    · rw [hWcols_len, hc4]
    · intro i hi
      obtain ⟨h0, hpos⟩ := hc5 i hi
      constructor
      · intro hsz
        have hz : ((W.chunkD ai ci).cols.getD i []).length = 0 := by
          rw [hWcols_i i, h0 hsz]
          rfl
        exact List.length_eq_zero.mp hz
      · intro hsz
        rw [hWcols_i i, hWcap]
        exact hpos hsz
  · intro ai' ci' r' ha' hc' hr'
    by_cases hx : ai' = ai ∧ ci' = ci
    · obtain ⟨hx1, hx2⟩ := hx
      subst hx1
      subst hx2
      rw [hWcnt] at hr'
      by_cases hxr : r' = row
      · subst hxr
        have hcell : (W.chunkD ai' ci').entities.getD r' 0 =
            (w.chunkD ai' ci').entities.getD ((w.chunkD ai' ci').count - 1) 0 := by
          rw [hWent]
          exact getD_set_eq _ r' _ 0 hrowlen
        refine ⟨?_, ?_, ?_, ?_, ?_, ?_⟩ <;> rw [hcell, hmdef]
        · rw [hWslots_len]; exact hm1
        · rw [hWslotD_m]; exact hm2
        · rw [hWslotD_m]; exact hm3
        · rw [hWslotD_m]
        · rw [hWslotD_m]
        · rw [hWslotD_m]
      · have hcell : (W.chunkD ai' ci').entities.getD r' 0 =
            (w.chunkD ai' ci').entities.getD r' 0 := by
          rw [hWent]
          exact getD_set_ne _ row r' _ 0 hxr
        have hb := hback ai' ci' r' ha' hc' (by omega) (by
          intro h
          exact hxr h.2.2)
        obtain ⟨b1, b2, b3, b4, b5, b6⟩ := hb
        have hne' : lt_entity_index ((w.chunkD ai' ci').entities.getD r' 0) ≠ m := by
          intro heq
          rw [heq] at b6
          omega
        refine ⟨?_, ?_, ?_, ?_, ?_, ?_⟩ <;> rw [hcell]
        · rw [hWslots_len]; exact b1
        · rw [hWslotD_ne _ hne']; exact b2
        · rw [hWslotD_ne _ hne']; exact b3
        · rw [hWslotD_ne _ hne']; exact b4
        · rw [hWslotD_ne _ hne']; exact b5
        · rw [hWslotD_ne _ hne']; exact b6
    · have hce := hother ai' ci' hx
      have hcc : (W.chunkD ai' ci').count = (w.chunkD ai' ci').count := by rw [hce]
      rw [hcc] at hr'
      have hb := hback ai' ci' r' ha' hc' hr' (fun h => hx ⟨h.1, h.2.1⟩)
      obtain ⟨b1, b2, b3, b4, b5, b6⟩ := hb
      have hne' : lt_entity_index ((w.chunkD ai' ci').entities.getD r' 0) ≠ m := by
        intro heq
        rw [heq] at b4 b5
        have hx1 : ai' = ai := by rw [← b4, hm4]
        have hx2 : ci' = ci := by rw [← b5, hm5]
        exact hx ⟨hx1, hx2⟩
      refine ⟨?_, ?_, ?_, ?_, ?_, ?_⟩ <;> rw [hce]
      · rw [hWslots_len]; exact b1
      · rw [hWslotD_ne _ hne']; exact b2
      · rw [hWslotD_ne _ hne']; exact b3
      · rw [hWslotD_ne _ hne']; exact b4
      · rw [hWslotD_ne _ hne']; exact b5
      · rw [hWslotD_ne _ hne']; exact b6
  · intro i hi hne halive
    by_cases him : i = m
    · subst him
      have hfm := hfor i hm1 hmex hm2
      obtain ⟨f1, f2, f3, f4⟩ := hfm
      rw [hm4, hm5, hm6] at f4
      refine ⟨?_, ?_, ?_, ?_⟩ <;> rw [hWslotD_m]
      · show ai < W.archetypes.length
        rw [hWarch_len]
        exact hai
      · show ci < (W.archD ai).chunks.length
        rw [hWchunks_len]
        exact hci
      · show row < (W.chunkD ai ci).count
        rw [hWcnt]
        omega
      · show (W.chunkD ai ci).entities.getD row 0 =
          lt_entity_pack i (w.slotD i).generation
        rw [hWent, getD_set_eq _ row _ 0 hrowlen, f4]
    · have hsl := hWslotD_ne i him
      rw [hsl] at halive
      obtain ⟨g1, g2, g3, g4⟩ := hfor i hi hne halive
      refine ⟨?_, ?_, ?_, ?_⟩ <;> rw [hsl]
      · rw [hWarch_len]
        exact g1
      · by_cases ha : (w.slotD i).archetype = ai
        · rw [ha, hWchunks_len]
          rw [ha] at g2
          exact g2
        · rw [hWarchD_ne _ ha]
          exact g2
      · by_cases hx : (w.slotD i).archetype = ai ∧ (w.slotD i).chunk = ci
        · obtain ⟨hx1, hx2⟩ := hx
          have hnr : (w.slotD i).row ≠ row := fun h => hexrow i hi hne halive ⟨hx1, hx2, h⟩
          have hnl : (w.slotD i).row ≠ (w.chunkD ai ci).count - 1 := by
            intro heq
            rw [hx1, hx2, heq] at g4
            apply him
            rw [← hmdef, g4, index_pack i _ (by omega)]
          rw [hx1, hx2] at g3
          rw [hx1, hx2, hWcnt]
          omega
        · rw [hother _ _ hx]
          exact g3
      · by_cases hx : (w.slotD i).archetype = ai ∧ (w.slotD i).chunk = ci
        · obtain ⟨hx1, hx2⟩ := hx
          have hnr : (w.slotD i).row ≠ row := fun h => hexrow i hi hne halive ⟨hx1, hx2, h⟩
          rw [hx1, hx2] at g4
          rw [hx1, hx2, hWent, getD_set_ne _ row _ _ 0 hnr]
          exact g4
        · rw [hother _ _ hx]
          exact g4
  · intro _
    rw [hWent]
    exact getD_set_eq _ row _ 0 hrowlen

/-- The swap-remove move path after the entity column write: the counter
was bumped and the last row's entity stored into the hole. -/
def swapMoveEnt (w : World) (ai ci row : Nat) : World :=
  ({ w with structural_move_count := w.structural_move_count + 1 } : World).modifyChunk ai ci
    (fun c => { c with entities := (c.entities.set row
      ((w.chunkD ai ci).entities.getD ((w.chunkD ai ci).count - 1) 0)) })

/-- The swap-remove move path after the component cells were copied from
the last row into the hole. -/
def swapMoveMid (w : World) (ai ci row : Nat) : World :=
  copyRowCols (swapMoveEnt w ai ci row) (w.archD ai).component_ids ai ci
    ((w.chunkD ai ci).count - 1) ai ci row

theorem swapMoveMid_slots (w : World) (ai ci row : Nat) :
    (swapMoveMid w ai ci row).slots = w.slots := by
  have h : swapMoveMid w ai ci row =
      { swapMoveEnt w ai ci row with archetypes := (swapMoveMid w ai ci row).archetypes } :=
    (copyRowCols_shape (w.archD ai).component_ids ai ci ((w.chunkD ai ci).count - 1)
      ai ci row (swapMoveEnt w ai ci row)).1
  rw [h]
  rfl

theorem swapMoveMid_eq (w : World) (ai ci row : Nat) :
    swapMoveMid w ai ci row =
      { w with archetypes := (swapMoveMid w ai ci row).archetypes,
               structural_move_count := w.structural_move_count + 1 } := by
  have h : swapMoveMid w ai ci row =
      { swapMoveEnt w ai ci row with archetypes := (swapMoveMid w ai ci row).archetypes } :=
    (copyRowCols_shape (w.archD ai).component_ids ai ci ((w.chunkD ai ci).count - 1)
      ai ci row (swapMoveEnt w ai ci row)).1
  exact World_ext _ _ (by rw [h]; rfl) (by rw [h]; rfl) (by rw [h]; rfl) (by rw [h]; rfl)
    (by rw [h]; rfl) (by rw [h]; rfl) (by rw [h]; rfl) rfl (by rw [h]; rfl) (by rw [h]; rfl)
    (by rw [h]; rfl) (by rw [h]; rfl) (by rw [h]; rfl)

theorem swapMoveMid_arch_len (w : World) (ai ci row : Nat) :
    (swapMoveMid w ai ci row).archetypes.length = w.archetypes.length := by
  have h1 : (swapMoveMid w ai ci row).archetypes.length =
      (swapMoveEnt w ai ci row).archetypes.length :=
    (copyRowCols_shape (w.archD ai).component_ids ai ci ((w.chunkD ai ci).count - 1)
      ai ci row (swapMoveEnt w ai ci row)).2.1
  have h2 : (swapMoveEnt w ai ci row).archetypes.length = w.archetypes.length :=
    length_arch_modifyArchetype _ ai _
  rw [h1, h2]

theorem swapMoveMid_archD_ne (w : World) (ai ci row aj : Nat) (haj : aj ≠ ai) :
    (swapMoveMid w ai ci row).archD aj = w.archD aj := by
  have h1 : (swapMoveMid w ai ci row).archD aj = (swapMoveEnt w ai ci row).archD aj :=
    (copyRowCols_shape (w.archD ai).component_ids ai ci ((w.chunkD ai ci).count - 1)
      ai ci row (swapMoveEnt w ai ci row)).2.2.1 aj haj
  have h2 : (swapMoveEnt w ai ci row).archD aj = w.archD aj :=
    archD_modifyChunk_ne _ ai aj ci _ haj
  rw [h1, h2]

theorem swapMoveMid_key (w : World) (ai ci row : Nat) (hai : ai < w.archetypes.length) :
    ((swapMoveMid w ai ci row).archD ai).component_ids = (w.archD ai).component_ids := by
  have h1 : ((swapMoveMid w ai ci row).archD ai).component_ids =
      ((swapMoveEnt w ai ci row).archD ai).component_ids :=
    (copyRowCols_shape (w.archD ai).component_ids ai ci ((w.chunkD ai ci).count - 1)
      ai ci row (swapMoveEnt w ai ci row)).2.2.2.1
  have h2 : ((swapMoveEnt w ai ci row).archD ai).component_ids =
      (w.archD ai).component_ids := key_modifyChunk _ ai ci _ hai
  rw [h1, h2]

theorem swapMoveMid_rpc (w : World) (ai ci row : Nat) (hai : ai < w.archetypes.length) :
    ((swapMoveMid w ai ci row).archD ai).rows_per_chunk = (w.archD ai).rows_per_chunk := by
  have h1 : ((swapMoveMid w ai ci row).archD ai).rows_per_chunk =
      ((swapMoveEnt w ai ci row).archD ai).rows_per_chunk :=
    (copyRowCols_shape (w.archD ai).component_ids ai ci ((w.chunkD ai ci).count - 1)
      ai ci row (swapMoveEnt w ai ci row)).2.2.2.2.1
  have h2 : ((swapMoveEnt w ai ci row).archD ai).rows_per_chunk =
      (w.archD ai).rows_per_chunk := rpc_modifyChunk _ ai ci _ hai
  rw [h1, h2]

theorem swapMoveMid_chunks_len (w : World) (ai ci row : Nat)
    (hai : ai < w.archetypes.length) :
    ((swapMoveMid w ai ci row).archD ai).chunks.length = (w.archD ai).chunks.length := by
  have h1 : ((swapMoveMid w ai ci row).archD ai).chunks.length =
      ((swapMoveEnt w ai ci row).archD ai).chunks.length :=
    (copyRowCols_shape (w.archD ai).component_ids ai ci ((w.chunkD ai ci).count - 1)
      ai ci row (swapMoveEnt w ai ci row)).2.2.2.2.2.1
  have h2 : ((swapMoveEnt w ai ci row).archD ai).chunks.length =
      (w.archD ai).chunks.length := chunks_length_modifyChunk _ ai ci _ hai
  rw [h1, h2]

theorem swapMoveMid_chunkD_ne (w : World) (ai ci row cj : Nat)
    (hai : ai < w.archetypes.length) (hcj : cj ≠ ci) :
    (swapMoveMid w ai ci row).chunkD ai cj = w.chunkD ai cj := by
  have h1 : (swapMoveMid w ai ci row).chunkD ai cj =
      (swapMoveEnt w ai ci row).chunkD ai cj :=
    (copyRowCols_shape (w.archD ai).component_ids ai ci ((w.chunkD ai ci).count - 1)
      ai ci row (swapMoveEnt w ai ci row)).2.2.2.2.2.2.1 cj hcj
  have h2 : (swapMoveEnt w ai ci row).chunkD ai cj = w.chunkD ai cj :=
    chunkD_modifyChunk_ne _ ai ci cj _ hai hcj
  rw [h1, h2]

theorem swapMoveMid_chunk (w : World) (ai ci row : Nat)
    (hai : ai < w.archetypes.length) (hci : ci < (w.archD ai).chunks.length) :
    ((swapMoveMid w ai ci row).chunkD ai ci).count = (w.chunkD ai ci).count ∧
    ((swapMoveMid w ai ci row).chunkD ai ci).capacity = (w.chunkD ai ci).capacity ∧
    ((swapMoveMid w ai ci row).chunkD ai ci).entities =
      (w.chunkD ai ci).entities.set row
        ((w.chunkD ai ci).entities.getD ((w.chunkD ai ci).count - 1) 0) ∧
    ((swapMoveMid w ai ci row).chunkD ai ci).cols.length =
      (w.chunkD ai ci).cols.length ∧
    ∀ i, (((swapMoveMid w ai ci row).chunkD ai ci).cols.getD i []).length =
      ((w.chunkD ai ci).cols.getD i []).length := by
  have hB : (swapMoveEnt w ai ci row).chunkD ai ci =
      { w.chunkD ai ci with entities := ((w.chunkD ai ci).entities.set row
        ((w.chunkD ai ci).entities.getD ((w.chunkD ai ci).count - 1) 0)) } :=
    chunkD_modifyChunk_eq _ ai ci _ hai hci
  obtain ⟨s1, s2, s3, s4, s5⟩ :=
    (copyRowCols_shape (w.archD ai).component_ids ai ci ((w.chunkD ai ci).count - 1)
      ai ci row (swapMoveEnt w ai ci row)).2.2.2.2.2.2.2
  refine ⟨s1.trans (by rw [hB]), s2.trans (by rw [hB]), s3.trans (by rw [hB]),
    s4.trans (by rw [hB]), fun i => (s5 i).trans (by rw [hB])⟩

/-- The move path of `lt_archetype_swap_remove_row`, written through
`swapMoveMid` with the in-range test on the moved slot resolved. -/
theorem swap_remove_move_eq3 (w : World) (ai ci row : Nat)
    (hrow : row < (w.chunkD ai ci).count) (hlast : row ≠ (w.chunkD ai ci).count - 1)
    (hm : lt_entity_index ((w.chunkD ai ci).entities.getD ((w.chunkD ai ci).count - 1) 0)
      < w.slots.length) :
    lt_archetype_swap_remove_row w ai ci row =
      ((swapMoveMid w ai ci row).modifySlot
        (lt_entity_index ((w.chunkD ai ci).entities.getD ((w.chunkD ai ci).count - 1) 0))
        (fun s => { s with archetype := ai, chunk := ci, row := row })).modifyChunk ai ci
        (fun c => { c with count := c.count - 1 }) := by
  have hcond : lt_entity_index
      ((w.chunkD ai ci).entities.getD ((w.chunkD ai ci).count - 1) 0) <
      (swapMoveMid w ai ci row).slots.length := by
    rw [swapMoveMid_slots]
    exact hm
  rw [swap_remove_move_eq w ai ci row hrow hlast]
  show (if lt_entity_index
      ((w.chunkD ai ci).entities.getD ((w.chunkD ai ci).count - 1) 0) <
      (swapMoveMid w ai ci row).slots.length then
        (swapMoveMid w ai ci row).modifySlot
          (lt_entity_index ((w.chunkD ai ci).entities.getD ((w.chunkD ai ci).count - 1) 0))
          (fun s => { s with archetype := ai, chunk := ci, row := row })
      else swapMoveMid w ai ci row).modifyChunk ai ci
        (fun c => { c with count := c.count - 1 }) = _
  rw [if_pos hcond]

/-- The effect of `lt_archetype_swap_remove_row` on a world whose location
invariant holds everywhere except possibly at the removed row and at the
slot `exIdx` being relocated or retired by the caller: the chunk loses its
last row, the hole receives the last row's entity, the moved entity's slot
is redirected to the hole, the backward invariant holds everywhere
afterwards, and the forward invariant holds except at `exIdx`. -/
theorem swap_remove_main (w : World) (ai ci row exIdx : Nat)
    (hai : ai < w.archetypes.length)
    (hci : ci < (w.archD ai).chunks.length)
    (hrow : row < (w.chunkD ai ci).count)
    (hlen32 : w.slots.length < U32LIMIT)
    (hgen : ∀ i, i < w.slots.length → (w.slotD i).generation < U32LIMIT)
    (hawf : ArchetypesWF w)
    (hback : ∀ ai' ci' r', ai' < w.archetypes.length →
      ci' < (w.archD ai').chunks.length → r' < (w.chunkD ai' ci').count →
      ¬(ai' = ai ∧ ci' = ci ∧ r' = row) → BackwardAt w ai' ci' r')
    (hfor : ∀ i, i < w.slots.length → i ≠ exIdx → (w.slotD i).alive = true →
      ForwardAt w i)
    (hexrow : ∀ i, i < w.slots.length → i ≠ exIdx → (w.slotD i).alive = true →
      ¬((w.slotD i).archetype = ai ∧ (w.slotD i).chunk = ci ∧ (w.slotD i).row = row))
    (hex : ∀ r, r < (w.chunkD ai ci).count → r ≠ row →
      lt_entity_index ((w.chunkD ai ci).entities.getD r 0) ≠ exIdx) :
    (lt_archetype_swap_remove_row w ai ci row =
      { w with slots := (lt_archetype_swap_remove_row w ai ci row).slots,
               archetypes := (lt_archetype_swap_remove_row w ai ci row).archetypes,
               structural_move_count :=
                 (lt_archetype_swap_remove_row w ai ci row).structural_move_count }) ∧
    (lt_archetype_swap_remove_row w ai ci row).slots.length = w.slots.length ∧
    (lt_archetype_swap_remove_row w ai ci row).archetypes.length = w.archetypes.length ∧
    (∀ i, (lt_archetype_swap_remove_row w ai ci row).slotD i = w.slotD i ∨
      ((w.slotD i).alive = true ∧ i ≠ exIdx ∧ i < w.slots.length ∧
       (lt_archetype_swap_remove_row w ai ci row).slotD i =
         { w.slotD i with archetype := ai, chunk := ci, row := row })) ∧
    (∀ aj, aj ≠ ai → (lt_archetype_swap_remove_row w ai ci row).archD aj = w.archD aj) ∧
    ((lt_archetype_swap_remove_row w ai ci row).archD ai).component_ids =
      (w.archD ai).component_ids ∧
    ((lt_archetype_swap_remove_row w ai ci row).archD ai).rows_per_chunk =
      (w.archD ai).rows_per_chunk ∧
    ((lt_archetype_swap_remove_row w ai ci row).archD ai).chunks.length =
      (w.archD ai).chunks.length ∧
    (∀ cj, cj ≠ ci →
      (lt_archetype_swap_remove_row w ai ci row).chunkD ai cj = w.chunkD ai cj) ∧
    ((lt_archetype_swap_remove_row w ai ci row).chunkD ai ci).count =
      (w.chunkD ai ci).count - 1 ∧
    ChunkWF w (w.archD ai).component_ids
      ((lt_archetype_swap_remove_row w ai ci row).chunkD ai ci) ∧
    (∀ ai' ci' r', ai' < w.archetypes.length →
      ci' < (w.archD ai').chunks.length →
      r' < ((lt_archetype_swap_remove_row w ai ci row).chunkD ai' ci').count →
      BackwardAt (lt_archetype_swap_remove_row w ai ci row) ai' ci' r') ∧
    (∀ i, i < w.slots.length → i ≠ exIdx →
      ((lt_archetype_swap_remove_row w ai ci row).slotD i).alive = true →
      ForwardAt (lt_archetype_swap_remove_row w ai ci row) i) ∧
    (row ≠ (w.chunkD ai ci).count - 1 →
      ((lt_archetype_swap_remove_row w ai ci row).chunkD ai ci).entities.getD row 0 =
        (w.chunkD ai ci).entities.getD ((w.chunkD ai ci).count - 1) 0) := by
  show SwapRemovePost w (lt_archetype_swap_remove_row w ai ci row) ai ci row exIdx
  have hcwf : ChunkWF w (w.archD ai).component_ids (w.chunkD ai ci) :=
    (hawf ai hai).2.2 ci hci
  by_cases hl : row = (w.chunkD ai ci).count - 1
  · rw [swap_remove_last_eq w ai ci row hrow hl]
    have hch : (w.modifyChunk ai ci (fun c => { c with count := c.count - 1 })).chunkD ai ci =
        { w.chunkD ai ci with count := (w.chunkD ai ci).count - 1 } :=
      chunkD_modifyChunk_eq w ai ci _ hai hci
    refine swapRemovePost_of_last w _ ai ci row exIdx hai hci hrow hcwf hback hfor hexrow hl
      rfl rfl (fun i => rfl) (length_arch_modifyArchetype w ai _)
      (fun aj haj => archD_modifyChunk_ne w ai aj ci _ haj)
      (key_modifyChunk w ai ci _ hai) (rpc_modifyChunk w ai ci _ hai)
      (chunks_length_modifyChunk w ai ci _ hai)
      (fun cj hcj => chunkD_modifyChunk_ne w ai ci cj _ hai hcj)
      ?_ ?_ ?_ ?_ ?_
    · rw [hch]
    · rw [hch]
    · rw [hch]
    · rw [hch]
    · intro i
      rw [hch]
  · have hb0 := hback ai ci ((w.chunkD ai ci).count - 1) hai hci (by omega)
      (fun h => hl h.2.2.symm)
    obtain ⟨hm1, -, -, -, -, -⟩ := hb0
    rw [swap_remove_move_eq3 w ai ci row hrow hl hm1]
    set M := lt_entity_index
      ((w.chunkD ai ci).entities.getD ((w.chunkD ai ci).count - 1) 0) with hM
    set wC := swapMoveMid w ai ci row with hwC
    set wD := wC.modifySlot M (fun s => { s with archetype := ai, chunk := ci, row := row })
      with hwD
    set W := wD.modifyChunk ai ci (fun c => { c with count := c.count - 1 }) with hW
    have hm1' : M < w.slots.length := by rw [hM]; exact hm1
    have hCslots : wC.slots = w.slots := by
      rw [hwC]
      exact swapMoveMid_slots w ai ci row
    have hmC : M < wC.slots.length := by rw [hCslots]; exact hm1'
    have hai' : ai < wD.archetypes.length := by
      show ai < wC.archetypes.length
      rw [hwC, swapMoveMid_arch_len w ai ci row]
      exact hai
    have hci' : ci < (wD.archD ai).chunks.length := by
      show ci < (wC.archD ai).chunks.length
      rw [hwC, swapMoveMid_chunks_len w ai ci row hai]
      exact hci
    have hWchunk : W.chunkD ai ci =
        { wC.chunkD ai ci with count := (wC.chunkD ai ci).count - 1 } := by
      rw [hW]
      exact chunkD_modifyChunk_eq _ ai ci _ hai' hci'
    obtain ⟨t9a, t9b, t9c, t9d, t9e⟩ := swapMoveMid_chunk w ai ci row hai hci
    rw [← hwC] at t9a t9b t9c t9d
    simp only [← hwC] at t9e
    have hCeq : wC = { w with archetypes := wC.archetypes,
                              structural_move_count := w.structural_move_count + 1 } := by
      rw [hwC]
      exact swapMoveMid_eq w ai ci row
    have hWeq : W = { w with slots := W.slots,
                             archetypes := W.archetypes,
                             structural_move_count := W.structural_move_count } := by
      refine World_ext _ _ ?_ rfl ?_ ?_ ?_ ?_ ?_ rfl ?_ ?_ ?_ ?_ rfl
      · show wC.target_chunk_bytes = w.target_chunk_bytes
        rw [hCeq]
      · show wC.entity_capacity = w.entity_capacity
        rw [hCeq]
      · show wC.live_entity_count = w.live_entity_count
        rw [hCeq]
      · show wC.free_entity_count = w.free_entity_count
        rw [hCeq]
      · show wC.free_entity_head = w.free_entity_head
        rw [hCeq]
      · show wC.components = w.components
        rw [hCeq]
      · show wC.root_archetype = w.root_archetype
        rw [hCeq]
      · show wC.total_chunk_count = w.total_chunk_count
        rw [hCeq]
      · show wC.deferred = w.deferred
        rw [hCeq]
      · show wC.defer_depth = w.defer_depth
        rw [hCeq]
    have hWslots_len : W.slots.length = w.slots.length := by
      show wD.slots.length = w.slots.length
      rw [hwD, length_slots_modifySlot, hCslots]
    have hWslotD_ne : ∀ i, i ≠ M → W.slotD i = w.slotD i := by
      intro i hne2
      show wD.slotD i = w.slotD i
      rw [hwD, slotD_modifySlot_ne _ _ _ _ hne2]
      simp only [World.slotD, hCslots]
    have hWslotD_m : W.slotD M = { w.slotD M with archetype := ai, chunk := ci, row := row } := by
      show wD.slotD M = _
      rw [hwD, slotD_modifySlot_eq _ _ _ hmC]
      have h3 : wC.slotD M = w.slotD M := by simp only [World.slotD, hCslots]
      rw [h3]
    have hWarch_len : W.archetypes.length = w.archetypes.length := by
      have h1 : W.archetypes.length = wD.archetypes.length := by
        rw [hW]
        exact length_arch_modifyArchetype _ ai _
      rw [h1]
      show wC.archetypes.length = w.archetypes.length
      rw [hwC]
      exact swapMoveMid_arch_len w ai ci row
    have hWarchD_ne : ∀ aj, aj ≠ ai → W.archD aj = w.archD aj := by
      intro aj haj
      have h1 : W.archD aj = wD.archD aj := by
        rw [hW]
        exact archD_modifyChunk_ne _ ai aj ci _ haj
      rw [h1]
      show wC.archD aj = w.archD aj
      rw [hwC]
      exact swapMoveMid_archD_ne w ai ci row aj haj
    have hWkey : (W.archD ai).component_ids = (w.archD ai).component_ids := by
      have h1 : (W.archD ai).component_ids = (wD.archD ai).component_ids := by
        rw [hW]
        exact key_modifyChunk _ ai ci _ hai'
      rw [h1]
      show (wC.archD ai).component_ids = (w.archD ai).component_ids
      rw [hwC]
      exact swapMoveMid_key w ai ci row hai
    have hWrpc : (W.archD ai).rows_per_chunk = (w.archD ai).rows_per_chunk := by
      have h1 : (W.archD ai).rows_per_chunk = (wD.archD ai).rows_per_chunk := by
        rw [hW]
        exact rpc_modifyChunk _ ai ci _ hai'
      rw [h1]
      show (wC.archD ai).rows_per_chunk = (w.archD ai).rows_per_chunk
      rw [hwC]
      exact swapMoveMid_rpc w ai ci row hai
    have hWchunks_len : (W.archD ai).chunks.length = (w.archD ai).chunks.length := by
      have h1 : (W.archD ai).chunks.length = (wD.archD ai).chunks.length := by
        rw [hW]
        exact chunks_length_modifyChunk _ ai ci _ hai'
      rw [h1]
      show (wC.archD ai).chunks.length = (w.archD ai).chunks.length
      rw [hwC]
      exact swapMoveMid_chunks_len w ai ci row hai
    have hWchunkD_ne : ∀ cj, cj ≠ ci → W.chunkD ai cj = w.chunkD ai cj := by
      intro cj hcj
      have h1 : W.chunkD ai cj = wD.chunkD ai cj := by
        rw [hW]
        exact chunkD_modifyChunk_ne _ ai ci cj _ hai' hcj
      rw [h1]
      show wC.chunkD ai cj = w.chunkD ai cj
      rw [hwC]
      exact swapMoveMid_chunkD_ne w ai ci row cj hai hcj
    have hWcnt : (W.chunkD ai ci).count = (w.chunkD ai ci).count - 1 := by
      rw [hWchunk]
      show (wC.chunkD ai ci).count - 1 = (w.chunkD ai ci).count - 1
      rw [t9a]
    have hWcap : (W.chunkD ai ci).capacity = (w.chunkD ai ci).capacity := by
      rw [hWchunk]
      show (wC.chunkD ai ci).capacity = (w.chunkD ai ci).capacity
      exact t9b
    have hWent : (W.chunkD ai ci).entities = ((w.chunkD ai ci).entities.set row
        ((w.chunkD ai ci).entities.getD ((w.chunkD ai ci).count - 1) 0)) := by
      rw [hWchunk]
      show (wC.chunkD ai ci).entities = _
      exact t9c
    have hWcols_len : (W.chunkD ai ci).cols.length = (w.chunkD ai ci).cols.length := by
      rw [hWchunk]
      show (wC.chunkD ai ci).cols.length = (w.chunkD ai ci).cols.length
      exact t9d
    have hWcols_i : ∀ i, ((W.chunkD ai ci).cols.getD i []).length =
        ((w.chunkD ai ci).cols.getD i []).length := by
      intro i
      rw [hWchunk]
      show ((wC.chunkD ai ci).cols.getD i []).length = ((w.chunkD ai ci).cols.getD i []).length
      exact t9e i
    exact swapRemovePost_of_move w W ai ci row exIdx M hai hci hrow hlen32 hcwf hback hfor
      hexrow hex hl hM.symm hWeq hWslots_len hWslotD_ne hWslotD_m hWarch_len hWarchD_ne
      hWkey hWrpc hWchunks_len hWchunkD_ne hWcnt hWcap hWent hWcols_len hWcols_i

/-! ## Transfer lemmas for the world invariant -/

theorem pack_decode (e : Nat) (he : e < U32LIMIT * U32LIMIT) :
    lt_entity_pack (lt_entity_index e) (lt_entity_generation e) = e := by
  simp only [lt_entity_pack, lt_entity_index, lt_entity_generation, U32LIMIT] at *
  omega

/-- Characterization of a successful live-slot lookup. -/
theorem get_live_slot_some_spec (w : World) (e index : Nat)
    (h : (lt_world_get_live_slot w e).2 = some index) :
    lt_world_get_live_slot w e = (Status.ok, some index) ∧
    e ≠ 0 ∧ index = lt_entity_index e ∧ index < w.slots.length ∧
    (w.slotD index).alive = true ∧
    (w.slotD index).generation = lt_entity_generation e := by
  simp only [lt_world_get_live_slot] at h ⊢
  split at h
  · simp at h
  · rename_i he0
    split at h
    · simp at h
    · rename_i hge
      split at h
      · simp at h
      · rename_i hcond
        simp only [Option.some.injEq] at h
        subst h
        rw [if_neg he0, if_neg hge, if_neg hcond]
        push_neg at hcond
        exact ⟨rfl, he0, rfl, by omega, by simpa using hcond.1, hcond.2⟩

theorem chunkWF_congr (w w' : World) (key : List Nat) (c : Chunk)
    (h : w'.components = w.components) (hc : ChunkWF w key c) : ChunkWF w' key c := by
  obtain ⟨h1, h2, h3, h4, h5⟩ := hc
  refine ⟨h1, h2, h3, h4, ?_⟩
  intro i hi
  have h6 := h5 i hi
  simp only [World.componentGet, h]
  simp only [World.componentGet] at h6
  exact h6

theorem archetypesWF_congr (w w' : World) (hc : w'.components = w.components)
    (ha : w'.archetypes = w.archetypes) (h : ArchetypesWF w) : ArchetypesWF w' := by
  intro ai hai
  rw [ha] at hai
  have e1 : w'.archD ai = w.archD ai := by simp only [World.archD, ha]
  obtain ⟨s, p, hch⟩ := h ai hai
  refine ⟨by rw [e1]; exact s, by rw [e1]; exact p, ?_⟩
  intro ci hci
  rw [e1] at hci ⊢
  exact chunkWF_congr w w' _ _ hc (hch ci hci)

theorem backwardAt_congr (w w' : World) (a c r : Nat)
    (hs : w'.slots = w.slots) (ha : w'.archetypes = w.archetypes)
    (h : BackwardAt w a c r) : BackwardAt w' a c r := by
  simp only [BackwardAt, World.slotD, World.chunkD, World.archD, hs, ha] at h ⊢
  exact h

theorem forwardAt_congr (w w' : World) (i : Nat)
    (hs : w'.slots = w.slots) (ha : w'.archetypes = w.archetypes)
    (h : ForwardAt w i) : ForwardAt w' i := by
  simp only [ForwardAt, World.slotD, World.chunkD, World.archD, hs, ha] at h ⊢
  exact h

theorem freeChainOk_mem (w : World) :
    ∀ (F : List Nat) (h : Nat), freeChainOk w F h →
      ∀ i ∈ F, i < w.slots.length ∧ (w.slotD i).alive = false := by
  intro F
  induction F with
  | nil =>
    intro h _ i hi
    simp at hi
  | cons a rest ih =>
    intro h hok i hi
    obtain ⟨h1, h2, h3, h4⟩ := hok
    rcases List.mem_cons.mp hi with h5 | h5
    · subst h5
      exact ⟨h2, h3⟩
    · exact ih _ h4 i h5

theorem freeChainOk_congr (w w' : World) (hlen : w'.slots.length = w.slots.length) :
    ∀ (F : List Nat) (h : Nat),
      (∀ i ∈ F, (w'.slotD i).alive = (w.slotD i).alive ∧
        (w'.slotD i).next_free = (w.slotD i).next_free) →
      freeChainOk w F h → freeChainOk w' F h := by
  intro F
  induction F with
  | nil =>
    intro h _ hok
    exact hok
  | cons a rest ih =>
    intro h hsl hok
    obtain ⟨h1, h2, h3, h4⟩ := hok
    have ha := hsl a (List.mem_cons_self a rest)
    refine ⟨h1, by omega, by rw [ha.1]; exact h3, ?_⟩
    rw [ha.2]
    exact ih _ (fun i hi => hsl i (List.mem_cons_of_mem a hi)) h4

theorem growCapacityLoop_spec : ∀ (fuel cap min c : Nat), cap ≤ 4294967294 →
    growCapacityLoop fuel cap min = some c → min ≤ c ∧ c ≤ 4294967294 := by
  intro fuel
  induction fuel with
  | zero =>
    intro cap min c _ h
    simp [growCapacityLoop] at h
  | succ n ih =>
    intro cap min c hcap h
    simp only [growCapacityLoop] at h
    split at h
    · rename_i hge
      simp only [Option.some.injEq] at h
      omega
    · split at h
      · simp at h
      · rename_i h1 h2
        exact ih _ _ _ (by omega) h

/-- `lt_grow_entities` only raises `entity_capacity`, keeping it within the
`u32` headroom. -/
theorem grow_entities_spec (w : World) (m : Nat) (hcap : w.entity_capacity ≤ 4294967294) :
    (lt_grow_entities w m).2 = { w with
      entity_capacity := (lt_grow_entities w m).2.entity_capacity } ∧
    w.entity_capacity ≤ (lt_grow_entities w m).2.entity_capacity ∧
    (lt_grow_entities w m).2.entity_capacity ≤ 4294967294 ∧
    ((lt_grow_entities w m).1 = Status.ok → m ≤ (lt_grow_entities w m).2.entity_capacity) := by
  simp only [lt_grow_entities]
  split
  · rename_i hge
    exact ⟨rfl, Nat.le_refl _, hcap, fun _ => by show m ≤ w.entity_capacity; omega⟩
  · rename_i hlt
    split
    · rename_i hloop
      exact ⟨rfl, Nat.le_refl _, hcap, fun h => by simp at h⟩
    · rename_i c hloop
      have hspec := growCapacityLoop_spec 64 _ m c (by split <;> omega) hloop
      exact ⟨rfl, by show w.entity_capacity ≤ c; omega, by show c ≤ 4294967294; omega,
        fun _ => by show m ≤ c; omega⟩

/-- Retiring the destroyed entity's slot after the swap-remove restores
the full world invariant. -/
theorem destroy_finish_inv (w W1 W2 : World) (index fc lc : Nat)
    (hw : WorldInv w)
    (hlt : index < w.slots.length)
    (halive : (w.slotD index).alive = true)
    (hpost : SwapRemovePost w W1 (w.slotD index).archetype (w.slotD index).chunk
      (w.slotD index).row index)
    (hW2eq : W2 = { W1 with slots := W2.slots,
                            free_entity_head := index,
                            free_entity_count := fc,
                            live_entity_count := lc })
    (hW2len : W2.slots.length = W1.slots.length)
    (hW2ne : ∀ i, i ≠ index → W2.slotD i = W1.slotD i)
    (hW2idx : W2.slotD index = { w.slotD index with
      alive := false,
      generation := (if ((w.slotD index).generation + 1) % U32LIMIT = 0 then 1
        else ((w.slotD index).generation + 1) % U32LIMIT),
      archetype := 0, chunk := 0, row := 0,
      next_free := w.free_entity_head }) :
    WorldInv W2 := by
  obtain ⟨P1, P2, P2b, P3, P4, P5, P6, P7, P8, P9, P10, P11, P12, P13⟩ := hpost
  obtain ⟨f1, f2, f3, f4⟩ := hw.forward index hlt halive
  have hcomp : W1.components = w.components := by rw [P1]
  have hcap1 : W1.entity_capacity = w.entity_capacity := by rw [P1]
  have hroot1 : W1.root_archetype = w.root_archetype := by rw [P1]
  have hdef1 : W1.deferred = w.deferred := by rw [P1]
  have hW1idx : W1.slotD index = w.slotD index := by
    rcases P3 index with h | h
    · exact h
    · exact absurd rfl h.2.1
  have hlen2 : W2.slots.length = w.slots.length := by rw [hW2len, P2]
  have hcomp2 : W2.components = w.components := by rw [hW2eq]; exact hcomp
  have harch2 : W2.archetypes = W1.archetypes := by rw [hW2eq]
  have hroot2 : W2.root_archetype = w.root_archetype := by rw [hW2eq]; exact hroot1
  have hcap2 : W2.entity_capacity = w.entity_capacity := by rw [hW2eq]; exact hcap1
  have hdef2 : W2.deferred = w.deferred := by rw [hW2eq]; exact hdef1
  have hhead2 : W2.free_entity_head = index := by rw [hW2eq]
  have hal21 : W2.archetypes.length = W1.archetypes.length := by rw [harch2]
  have harchD2 : ∀ a, W2.archD a = W1.archD a := fun a => by
    simp only [World.archD, harch2]
  have hchunkD2 : ∀ a c, W2.chunkD a c = W1.chunkD a c := fun a c => by
    simp only [World.chunkD, World.archD, harch2]
  refine ⟨?_, ?_, ?_, ?_, ?_, ?_, ?_, ?_, ?_⟩
  · rw [hcap2]
    exact hw.cap_bound
  · rw [hlen2, hcap2]
    exact hw.slots_cap
  · intro i hi
    rw [hlen2] at hi
    by_cases hii : i = index
    · subst hii
      rw [hW2idx]
      show (if ((w.slotD i).generation + 1) % U32LIMIT = 0 then 1
        else ((w.slotD i).generation + 1) % U32LIMIT) < U32LIMIT
      split
      · simp only [U32LIMIT]
        omega
      · simp only [U32LIMIT]
        omega
    · rw [hW2ne i hii]
      rcases P3 i with h | h
      · rw [h]
        exact hw.gen_lt i hi
      · rw [h.2.2.2]
        show (w.slotD i).generation < U32LIMIT
        exact hw.gen_lt i hi
  · rw [hroot2]
    have h1 : W2.archetypes.length = w.archetypes.length := by rw [hal21, P2b]
    rw [h1]
    exact hw.root_lt
  · apply archetypesWF_congr W1 W2 (by rw [hcomp2, hcomp]) harch2
    intro aj haj
    rw [P2b] at haj
    by_cases haij : aj = (w.slotD index).archetype
    · subst haij
      refine ⟨?_, ?_, ?_⟩
      · rw [P5]
        exact (hw.arch_wf _ haj).1
      · rw [P6]
        exact (hw.arch_wf _ haj).2.1
      · intro ci hci
        rw [P7] at hci
        by_cases hcij : ci = (w.slotD index).chunk
        · subst hcij
          show ChunkWF W1 (W1.archD (w.slotD index).archetype).component_ids
            (W1.chunkD (w.slotD index).archetype (w.slotD index).chunk)
          rw [P5]
          exact chunkWF_congr w W1 _ _ hcomp P10
        · show ChunkWF W1 (W1.archD (w.slotD index).archetype).component_ids
            (W1.chunkD (w.slotD index).archetype ci)
          rw [P5, P8 ci hcij]
          exact chunkWF_congr w W1 _ _ hcomp ((hw.arch_wf _ haj).2.2 ci hci)
    · rw [P4 aj haij]
      refine ⟨(hw.arch_wf aj haj).1, (hw.arch_wf aj haj).2.1, ?_⟩
      intro ci hci
      exact chunkWF_congr w W1 _ _ hcomp ((hw.arch_wf aj haj).2.2 ci hci)
  · intro i hi hal
    rw [hlen2] at hi
    by_cases hii : i = index
    · subst hii
      rw [hW2idx] at hal
      simp at hal
    · rw [hW2ne i hii] at hal
      obtain ⟨q1, q2, q3, q4⟩ := P12 i hi hii hal
      refine ⟨?_, ?_, ?_, ?_⟩
      · rw [hW2ne i hii, hal21]
        exact q1
      · rw [hW2ne i hii, harchD2]
        exact q2
      · rw [hW2ne i hii, hchunkD2]
        exact q3
      · rw [hW2ne i hii, hchunkD2]
        exact q4
  · intro a c r ha hc hr
    rw [hal21] at ha
    have hc1 : c < (W1.archD a).chunks.length := by rw [harchD2] at hc; exact hc
    have hr1 : r < (W1.chunkD a c).count := by rw [hchunkD2] at hr; exact hr
    have hclen : (W1.archD a).chunks.length = (w.archD a).chunks.length := by
      by_cases haa : a = (w.slotD index).archetype
      · subst haa
        exact P7
      · rw [P4 a haa]
    obtain ⟨b1, b2, b3, b4, b5, b6⟩ := P11 a c r (by rw [← P2b]; exact ha)
      (by rw [← hclen]; exact hc1) hr1
    have hidxne : lt_entity_index ((W1.chunkD a c).entities.getD r 0) ≠ index := by
      intro heq
      rw [heq] at b4 b5 b6
      rw [hW1idx] at b4 b5 b6
      subst b4
      subst b5
      subst b6
      rw [P9] at hr1
      have hroweq := P13 (by omega)
      rw [hroweq] at heq
      obtain ⟨c1, c2, c3, c4, c5, c6⟩ := hw.backward (w.slotD index).archetype
        (w.slotD index).chunk
        ((w.chunkD (w.slotD index).archetype (w.slotD index).chunk).count - 1)
        f1 f2 (by omega)
      rw [heq] at c6
      omega
    have hcell : W2.chunkD a c = W1.chunkD a c := hchunkD2 a c
    have hslot2 : W2.slotD (lt_entity_index ((W1.chunkD a c).entities.getD r 0)) =
        W1.slotD (lt_entity_index ((W1.chunkD a c).entities.getD r 0)) :=
      hW2ne _ hidxne
    refine ⟨?_, ?_, ?_, ?_, ?_, ?_⟩
    · rw [hcell, hW2len]
      exact b1
    · rw [hcell, hslot2]
      exact b2
    · rw [hcell, hslot2]
      exact b3
    · rw [hcell, hslot2]
      exact b4
    · rw [hcell, hslot2]
      exact b5
    · rw [hcell, hslot2]
      exact b6
  · obtain ⟨F, hnd, hch, hcov⟩ := hw.freelist
    have hnotin : index ∉ F := by
      intro hmem
      have hdead := (freeChainOk_mem w F _ hch index hmem).2
      rw [halive] at hdead
      simp at hdead
    refine ⟨index :: F, List.nodup_cons.mpr ⟨hnotin, hnd⟩, ?_, ?_⟩
    · refine ⟨hhead2, by rw [hlen2]; exact hlt, by rw [hW2idx], ?_⟩
      rw [hW2idx]
      show freeChainOk W2 F w.free_entity_head
      refine freeChainOk_congr w W2 hlen2 F w.free_entity_head ?_ hch
      intro i hiF
      have hne : i ≠ index := fun h => hnotin (h ▸ hiF)
      rw [hW2ne i hne]
      rcases P3 i with h | h
      · rw [h]
        exact ⟨rfl, rfl⟩
      · rw [h.2.2.2]
        exact ⟨rfl, rfl⟩
    · intro i hi hdead
      rw [hlen2] at hi
      by_cases hii : i = index
      · subst hii
        exact List.mem_cons_self _ _
      · rw [hW2ne i hii] at hdead
        rcases P3 i with h | h
        · rw [h] at hdead
          exact List.mem_cons_of_mem _ (hcov i hi hdead)
        · rw [h.2.2.2] at hdead
          have hfalse : (w.slotD i).alive = false := hdead
          rw [h.1] at hfalse
          simp at hfalse
  · intro op hop
    rw [hdef2] at hop
    exact hw.deferred_entities op hop

/-- `lt_entity_destroy` preserves the world invariant (every status),
keeps the defer depth, and outside a defer region leaves the queue
alone. -/
theorem destroy_preserves (w : World) (e : Nat) (hw : WorldInv w)
    (he : e < U32LIMIT * U32LIMIT) :
    WorldInv (lt_entity_destroy w e).2 ∧
    (lt_entity_destroy w e).2.defer_depth = w.defer_depth ∧
    (w.defer_depth = 0 → (lt_entity_destroy w e).2.deferred = w.deferred) := by
  simp only [lt_entity_destroy]
  split
  · exact ⟨hw, by simp, by simp⟩
  · rename_i he0
    split
    · rename_i hdepth
      simp only [lt_enqueue_destroy_entity, if_neg he0]
      refine ⟨?_, by simp, fun h => absurd h (by omega)⟩
      refine ⟨hw.cap_bound, hw.slots_cap, hw.gen_lt, hw.root_lt, hw.arch_wf,
        hw.forward, hw.backward, ?_, ?_⟩
      · obtain ⟨F, hnd, hch, hcov⟩ := hw.freelist
        refine ⟨F, hnd, ?_, hcov⟩
        exact freeChainOk_congr w
          { w with deferred := (w.deferred ++
            [{ kind := DeferredKind.destroyEntity, entity := e, component_id := 0,
               payload := none }]) }
          rfl F w.free_entity_head (fun i _ => ⟨rfl, rfl⟩) hch
      · intro op hop
        rcases List.mem_append.mp hop with h | h
        · exact hw.deferred_entities op h
        · simp only [List.mem_singleton] at h
          subst h
          exact he
    · rename_i hdepth
      split
      · exact ⟨hw, by simp, by simp⟩
      · rename_i s index heq
        obtain ⟨-, -, hidx, hlt, halive, hgen⟩ :=
          get_live_slot_some_spec w e index (by rw [heq])
        obtain ⟨f1, f2, f3, f4⟩ := hw.forward index hlt halive
        obtain ⟨P1, P2, P2b, P3, P4, P5, P6, P7, P8, P9, P10, P11, P12, P13⟩ :=
          swap_remove_main w (w.slotD index).archetype (w.slotD index).chunk
            (w.slotD index).row index f1 f2 f3 (inv_slots_lt w hw) hw.gen_lt hw.arch_wf
            (fun a c r ha hc hr _ => hw.backward a c r ha hc hr)
            (fun i hi _ hal => hw.forward i hi hal)
            (fun i hi hne hal => by
              intro hp
              obtain ⟨p1, p2, p3⟩ := hp
              obtain ⟨g1, g2, g3, g4⟩ := hw.forward i hi hal
              rw [p1, p2, p3] at g4
              have hlt32 := inv_slots_lt w hw
              exact hne (pack_inj_index i _ index _ (by omega) (by omega)
                (by rw [← g4, f4])))
            (fun r hr hne => by
              intro heq2
              obtain ⟨b1, b2, b3, b4, b5, b6⟩ :=
                hw.backward (w.slotD index).archetype (w.slotD index).chunk r f1 f2 hr
              rw [heq2] at b6
              exact hne b6.symm)
        have hfh : (lt_archetype_swap_remove_row w (w.slotD index).archetype
            (w.slotD index).chunk (w.slotD index).row).free_entity_head =
            w.free_entity_head := by
          rw [P1]
        have hdef : (lt_archetype_swap_remove_row w (w.slotD index).archetype
            (w.slotD index).chunk (w.slotD index).row).deferred = w.deferred := by
          rw [P1]
        have hdepth1 : (lt_archetype_swap_remove_row w (w.slotD index).archetype
            (w.slotD index).chunk (w.slotD index).row).defer_depth = w.defer_depth := by
          rw [P1]
        have hcap1 : (lt_archetype_swap_remove_row w (w.slotD index).archetype
            (w.slotD index).chunk (w.slotD index).row).entity_capacity =
            w.entity_capacity := by
          rw [P1]
        have hcomp : (lt_archetype_swap_remove_row w (w.slotD index).archetype
            (w.slotD index).chunk (w.slotD index).row).components = w.components := by
          rw [P1]
        have hroot : (lt_archetype_swap_remove_row w (w.slotD index).archetype
            (w.slotD index).chunk (w.slotD index).row).root_archetype =
            w.root_archetype := by
          rw [P1]
        have hW1idx : (lt_archetype_swap_remove_row w (w.slotD index).archetype
            (w.slotD index).chunk (w.slotD index).row).slotD index = w.slotD index := by
          rcases P3 index with h | h
          · exact h
          · exact absurd rfl h.2.1
        have hidxlt1 : index < (lt_archetype_swap_remove_row w (w.slotD index).archetype
            (w.slotD index).chunk (w.slotD index).row).slots.length := by
          rw [P2]
          exact hlt
        refine ⟨?_, ?_, fun _ => hdef⟩
        · rw [← hidx]
          refine destroy_finish_inv w _ _ index _ _ hw hlt halive
            ⟨P1, P2, P2b, P3, P4, P5, P6, P7, P8, P9, P10, P11, P12, P13⟩
            rfl ?_ ?_ ?_
          · exact length_slots_modifySlot _ index _
          · intro i h
            exact slotD_modifySlot_ne _ index i _ h
          · show ((lt_archetype_swap_remove_row w (w.slotD index).archetype
              (w.slotD index).chunk (w.slotD index).row).modifySlot index (fun sl =>
                { sl with alive := false,
                          generation := (if (sl.generation + 1) % U32LIMIT = 0 then 1
                            else (sl.generation + 1) % U32LIMIT),
                          archetype := 0, chunk := 0, row := 0,
                          next_free := (lt_archetype_swap_remove_row w
                            (w.slotD index).archetype (w.slotD index).chunk
                            (w.slotD index).row).free_entity_head })).slotD index = _
            rw [slotD_modifySlot_eq _ index _ hidxlt1, hW1idx, hfh]
        · exact hdepth1

/-- `lt_world_get_live_slot` never pairs `OK` with an empty slot result. -/
theorem get_live_slot_none_not_ok (w : World) (e : Nat)
    (h : lt_world_get_live_slot w e = (Status.ok, none)) : False := by
  simp only [lt_world_get_live_slot] at h
  split at h
  · simp at h
  · split at h
    · simp at h
    · split at h
      · simp at h
      · simp at h

/-- The exact counter effect of a successful non-deferred
`lt_entity_destroy` on an invariant-satisfying world: unchanged when the
destroyed entity occupied the last row of its chunk, `+1` otherwise (the
bump happens only inside the swap-remove when a row actually moves). -/
theorem counter_destroy_eq (w : World) (e : Nat) (hw : WorldInv w)
    (hd : w.defer_depth = 0) (hok : (lt_entity_destroy w e).1 = Status.ok) :
    (lt_entity_destroy w e).2.structural_move_count =
      (if (w.slotD (lt_entity_index e)).row =
          (w.chunkD (w.slotD (lt_entity_index e)).archetype
            (w.slotD (lt_entity_index e)).chunk).count - 1
       then w.structural_move_count
       else w.structural_move_count + 1) := by
  by_cases he0 : e = 0
  · rw [lt_entity_destroy, if_pos he0] at hok
    simp at hok
  · have hdgt : ¬ w.defer_depth > 0 := by omega
    rw [lt_entity_destroy, if_neg he0, if_neg hdgt] at hok ⊢
    rcases heq : lt_world_get_live_slot w e with ⟨s, o⟩
    cases o with
    | none =>
      rw [heq] at hok
      have hs : s = Status.ok := hok
      rw [hs] at heq
      exact absurd heq (fun h => get_live_slot_none_not_ok w e h)
    | some index =>
      obtain ⟨-, -, hidx, hlt, halive, hgen⟩ :=
        get_live_slot_some_spec w e index (by rw [heq])
      obtain ⟨f1, f2, f3, f4⟩ := hw.forward index hlt halive
      rw [← hidx]
      show ((lt_archetype_swap_remove_row w (w.slotD index).archetype
          (w.slotD index).chunk (w.slotD index).row).modifySlot index (fun sl =>
            { sl with alive := false,
                      generation := (if (sl.generation + 1) % U32LIMIT = 0 then 1
                        else (sl.generation + 1) % U32LIMIT),
                      archetype := 0, chunk := 0, row := 0,
                      next_free := (lt_archetype_swap_remove_row w
                        (w.slotD index).archetype (w.slotD index).chunk
                        (w.slotD index).row).free_entity_head
            })).structural_move_count =
        (if (w.slotD index).row =
            (w.chunkD (w.slotD index).archetype (w.slotD index).chunk).count - 1
         then w.structural_move_count
         else w.structural_move_count + 1)
      rw [counter_modifySlot, counter_swap_remove_eq w _ _ _ f3]

/-- The one-entity world `c3World` satisfies the world invariant. -/
theorem c3World_inv : WorldInv c3World := by
  have hslen : c3World.slots.length = 1 := by decide
  have halen : c3World.archetypes.length = 1 := by decide
  refine ⟨by decide, by decide, ?_, by decide, ?_, ?_, ?_, ?_, ?_⟩
  · intro i hi
    have h0 : i = 0 := by omega
    subst h0
    decide
  · intro ai hai
    have h0 : ai = 0 := by omega
    subst h0
    refine ⟨by decide, by decide, ?_⟩
    intro ci hci
    have hclen : (c3World.archD 0).chunks.length = 1 := by decide
    have h1 : ci = 0 := by omega
    subst h1
    refine ⟨by decide, by decide, by decide, by decide, ?_⟩
    intro i hi
    have h9 : ((c3World.archD 0).component_ids).length = 0 := by decide
    omega
  · intro i hi hal
    have h0 : i = 0 := by omega
    subst h0
    refine ⟨by decide, by decide, by decide, by decide⟩
  · intro ai ci r hai hci hr
    have h0 : ai = 0 := by omega
    subst h0
    have hclen : (c3World.archD 0).chunks.length = 1 := by decide
    have h1 : ci = 0 := by omega
    subst h1
    have hcnt : (c3World.chunkD 0 0).count = 1 := by decide
    have h2 : r = 0 := by omega
    subst h2
    refine ⟨by decide, by decide, by decide, by decide, by decide, by decide⟩
  · refine ⟨[], by decide, ?_, ?_⟩
    · show c3World.free_entity_head = U32MAX
      decide
    · intro i hi hdead
      have h0 : i = 0 := by omega
      subst h0
      exact absurd hdead (by decide)
  · intro op hop
    rw [show c3World.deferred = [] from rfl] at hop
    simp at hop

/-- The two-entity world `c3World2` satisfies the world invariant. -/
theorem c3World2_inv : WorldInv c3World2 := by
  have hslen : c3World2.slots.length = 2 := by decide
  have halen : c3World2.archetypes.length = 1 := by decide
  refine ⟨by decide, by decide, ?_, by decide, ?_, ?_, ?_, ?_, ?_⟩
  · intro i hi
    have h0 : i = 0 ∨ i = 1 := by omega
    rcases h0 with h0 | h0 <;> subst h0 <;> decide
  · intro ai hai
    have h0 : ai = 0 := by omega
    subst h0
    refine ⟨by decide, by decide, ?_⟩
    intro ci hci
    have hclen : (c3World2.archD 0).chunks.length = 1 := by decide
    have h1 : ci = 0 := by omega
    subst h1
    refine ⟨by decide, by decide, by decide, by decide, ?_⟩
    intro i hi
    have h9 : ((c3World2.archD 0).component_ids).length = 0 := by decide
    omega
  · intro i hi hal
    have h0 : i = 0 ∨ i = 1 := by omega
    rcases h0 with h0 | h0 <;> subst h0
    · refine ⟨by decide, by decide, by decide, by decide⟩
    · refine ⟨by decide, by decide, by decide, by decide⟩
  · intro ai ci r hai hci hr
    have h0 : ai = 0 := by omega
    subst h0
    have hclen : (c3World2.archD 0).chunks.length = 1 := by decide
    have h1 : ci = 0 := by omega
    subst h1
    have hcnt : (c3World2.chunkD 0 0).count = 2 := by decide
    have h2 : r = 0 ∨ r = 1 := by omega
    rcases h2 with h2 | h2 <;> subst h2
    · refine ⟨by decide, by decide, by decide, by decide, by decide, by decide⟩
    · refine ⟨by decide, by decide, by decide, by decide, by decide, by decide⟩
  · refine ⟨[], by decide, ?_, ?_⟩
    · show c3World2.free_entity_head = U32MAX
      decide
    · intro i hi hdead
      have h0 : i = 0 ∨ i = 1 := by omega
      rcases h0 with h0 | h0 <;> subst h0
      · exact absurd hdead (by decide)
      · exact absurd hdead (by decide)
  · intro op hop
    rw [show c3World2.deferred = [] from rfl] at hop
    simp at hop

/-- C3 (amended): each successful non-deferred `add_component` and
`remove_component` strictly increases `structural_moves` by at least 1;
no operation ever decreases it; and on any world satisfying the world
invariant a successful non-deferred `entity_destroy` leaves the counter
unchanged exactly when the destroyed entity occupied the last row of its
chunk, increasing it by exactly 1 otherwise. -/
theorem c3_structural_move_monotonicity (w : World) (e cid : Nat)
    (p : Option (List Nat)) (desc : ComponentDesc) :
    (w.defer_depth = 0 → (lt_add_component w e cid p).1 = Status.ok →
      w.structural_move_count < (lt_add_component w e cid p).2.structural_move_count) ∧
    (w.defer_depth = 0 → (lt_remove_component w e cid).1 = Status.ok →
      w.structural_move_count < (lt_remove_component w e cid).2.structural_move_count) ∧
    w.structural_move_count ≤ (lt_entity_destroy w e).2.structural_move_count ∧
    (WorldInv w → w.defer_depth = 0 → (lt_entity_destroy w e).1 = Status.ok →
      (lt_entity_destroy w e).2.structural_move_count =
        (if (w.slotD (lt_entity_index e)).row =
            (w.chunkD (w.slotD (lt_entity_index e)).archetype
              (w.slotD (lt_entity_index e)).chunk).count - 1
         then w.structural_move_count
         else w.structural_move_count + 1)) ∧
    w.structural_move_count ≤ (lt_add_component w e cid p).2.structural_move_count ∧
    w.structural_move_count ≤ (lt_remove_component w e cid).2.structural_move_count ∧
    (lt_entity_create w).2.1.structural_move_count = w.structural_move_count ∧
    (lt_world_begin_defer w).2.structural_move_count = w.structural_move_count ∧
    (lt_world_end_defer w).2.structural_move_count = w.structural_move_count ∧
    (lt_register_component w desc).2.1.structural_move_count = w.structural_move_count ∧
    w.structural_move_count ≤ (lt_world_flush w).2.structural_move_count :=
  ⟨fun hd hok => counter_add_strict w e cid p hd hok,
   fun hd hok => counter_remove_strict w e cid hd hok,
   counter_entity_destroy_ge w e,
   fun hw hd hok => counter_destroy_eq w e hw hd hok,
   counter_add_ge w e cid p,
   counter_remove_ge w e cid,
   counter_entity_create w,
   counter_begin_defer w,
   counter_end_defer w,
   counter_register w desc,
   counter_flush_ge w⟩

/-- Witness for C3: on a tiny world with a registered component and one
live entity the successful add strictly increases the counter; destroying
the last-row entity of `c3World` leaves the counter unchanged, while
destroying the row-0 entity of the two-row `c3World2` increases it by
exactly 1. -/
theorem c3_structural_move_monotonicity_witness :
    ((lt_entity_create (lt_register_component tinyWorld
        { name := "p", size := 4, align := 4, flags := 0 }).2.1).2.1.structural_move_count
      <
    (lt_add_component
        (lt_entity_create (lt_register_component tinyWorld
          { name := "p", size := 4, align := 4, flags := 0 }).2.1).2.1
        4294967296 1 (some [1, 2, 3, 4])).2.structural_move_count) ∧
    (lt_entity_destroy c3World 4294967296).2.structural_move_count =
      c3World.structural_move_count ∧
    (lt_entity_destroy c3World2 4294967296).2.structural_move_count =
      c3World2.structural_move_count + 1 := by
  refine ⟨?_, ?_, ?_⟩
  · exact (c3_structural_move_monotonicity
      (lt_entity_create (lt_register_component tinyWorld
        { name := "p", size := 4, align := 4, flags := 0 }).2.1).2.1
      4294967296 1 (some [1, 2, 3, 4])
      { name := "p", size := 4, align := 4, flags := 0 }).1
      (by decide) (by decide)
  · have h := (c3_structural_move_monotonicity c3World 4294967296 1 none
      { name := "p", size := 4, align := 4, flags := 0 }).2.2.2.1
      c3World_inv (by decide) (by decide)
    rw [h]
    decide
  · have h := (c3_structural_move_monotonicity c3World2 4294967296 1 none
      { name := "p", size := 4, align := 4, flags := 0 }).2.2.2.1
      c3World2_inv (by decide) (by decide)
    rw [h]
    decide

theorem archD_oob_len (w : World) (ai : Nat) (h : w.archetypes.length ≤ ai) :
    (w.archD ai).chunks.length = 0 := by
  simp only [World.archD]
  rw [getD_of_ge _ _ _ h]
  rfl

theorem chunkD_count_oob (w : World) (ai ci : Nat)
    (h : (w.archD ai).chunks.length ≤ ci) : (w.chunkD ai ci).count = 0 := by
  simp only [World.chunkD]
  rw [getD_of_ge _ _ _ h]
  rfl

/-- A chunk with a live row is addressed in range. -/
theorem chunk_pos_bounds (w : World) (ai ci : Nat) (h : 0 < (w.chunkD ai ci).count) :
    ai < w.archetypes.length ∧ ci < (w.archD ai).chunks.length := by
  constructor
  · by_contra hc
    push_neg at hc
    have h0 := chunkD_count_oob w ai ci (by rw [archD_oob_len w ai hc]; omega)
    omega
  · by_contra hc
    push_neg at hc
    have h0 := chunkD_count_oob w ai ci hc
    omega

/-- Characterization of a successful `lt_find_or_create_archetype`
call. -/
theorem find_or_create_ok_spec (w : World) (ids : List Nat) (w1 : World) (ai : Nat)
    (h : lt_find_or_create_archetype w ids = (Status.ok, w1, ai)) :
    (w1 = { w with archetypes := w1.archetypes }) ∧
    ai < w1.archetypes.length ∧
    (w1.archD ai).component_ids = ids ∧
    w.archetypes.length ≤ w1.archetypes.length ∧
    (∀ aj, aj < w.archetypes.length → w1.archD aj = w.archD aj) ∧
    (ids.Pairwise (· < ·) → ArchetypesWF w → ArchetypesWF w1) ∧
    ((w1.archetypes.length = w.archetypes.length ∧ ai < w.archetypes.length) ∨
     (w1.archetypes.length = w.archetypes.length + 1 ∧ ai = w.archetypes.length ∧
      (w1.archD ai).chunks.length = 0)) := by
  by_cases hU : w.archetypes.length = U32MAX
  · rw [lt_find_or_create_archetype] at h
    cases hfind : lt_find_archetype w ids with
    | some ai0 =>
      rw [hfind] at h
      simp only [Prod.mk.injEq] at h
      obtain ⟨-, hw1, hai⟩ := h
      subst hw1
      subst hai
      obtain ⟨hlt, hkey⟩ := findArchetypeIdx_some w.archetypes ids ai0 (by
        rw [lt_find_archetype] at hfind
        exact hfind)
      exact ⟨rfl, hlt, hkey, Nat.le_refl _, fun aj _ => rfl, fun _ hx => hx,
        Or.inl ⟨rfl, hlt⟩⟩
    | none =>
      rw [hfind, lt_archetype_create, if_pos hU] at h
      simp only [Prod.mk.injEq] at h
      exact absurd h.1.symm (by decide)
  · obtain ⟨w1', ai', heq, e1, e2, e3, e4, e5, e6⟩ := find_or_create_spec w ids hU
    rw [heq] at h
    simp only [Prod.mk.injEq] at h
    obtain ⟨-, hw1, hai⟩ := h
    subst hw1
    subst hai
    refine ⟨e1, e2, e3, e4, e5, e6, ?_⟩
    rw [lt_find_or_create_archetype] at heq
    cases hfind : lt_find_archetype w ids with
    | some ai0 =>
      rw [hfind] at heq
      simp only [Prod.mk.injEq] at heq
      obtain ⟨-, hw1', hai'⟩ := heq
      rw [← hw1', ← hai']
      obtain ⟨hlt, -⟩ := findArchetypeIdx_some w.archetypes ids ai0 (by
        rw [lt_find_archetype] at hfind
        exact hfind)
      exact Or.inl ⟨rfl, hlt⟩
    | none =>
      rw [hfind, lt_archetype_create, if_neg hU] at heq
      simp only [Prod.mk.injEq] at heq
      obtain ⟨-, hw1', hai'⟩ := heq
      rw [← hw1', ← hai']
      refine Or.inr ⟨?_, rfl, ?_⟩
      · simp
      · simp only [World.archD]
        rw [getD_append_right _ _ _ _ (Nat.le_refl _)]
        simp

/-- A shape-preserving rewrite of one chunk's cells keeps the storage
well-formed. -/
theorem archetypesWF_shape (w w' : World) (dAi dCi : Nat)
    (hsh : WorldShapeEqAt w w' dAi dCi) (hwf : ArchetypesWF w) : ArchetypesWF w' := by
  obtain ⟨hEq, hLen, hANe, hKey, hRpc, hCLen, hCNe, hShape⟩ := hsh
  have hcomp : w'.components = w.components := by rw [hEq]
  intro aj haj
  rw [hLen] at haj
  by_cases haij : aj = dAi
  · subst haij
    refine ⟨by rw [hKey]; exact (hwf aj haj).1, by rw [hRpc]; exact (hwf aj haj).2.1, ?_⟩
    intro ci hci
    rw [hCLen] at hci
    by_cases hcij : ci = dCi
    · subst hcij
      obtain ⟨s1, s2, s3, s4, s5⟩ := hShape
      obtain ⟨c1, c2, c3, c4, c5⟩ := chunkWF_congr w w' _ _ hcomp
        (show ChunkWF w (w.archD aj).component_ids (w.chunkD aj ci) from
          (hwf aj haj).2.2 ci hci)
      show ChunkWF w' (w'.archD aj).component_ids (w'.chunkD aj ci)
      rw [hKey]
      refine ⟨by rw [s1, s2]; exact c1, by rw [s2]; exact c2,
        by rw [s3, s2]; exact c3, by rw [s4]; exact c4, ?_⟩
      intro i hi
      obtain ⟨z1, z2⟩ := c5 i hi
      constructor
      · intro hsz
        have hz : ((w'.chunkD aj ci).cols.getD i []).length = 0 := by
          rw [s5 i, z1 hsz]
          rfl
        exact List.length_eq_zero.mp hz
      · intro hsz
        rw [s5 i, s2]
        exact z2 hsz
    · show ChunkWF w' (w'.archD aj).component_ids (w'.chunkD aj ci)
      rw [hKey, hCNe ci hcij]
      exact chunkWF_congr w w' _ _ hcomp ((hwf aj haj).2.2 ci hci)
  · rw [hANe aj haij]
    refine ⟨(hwf aj haj).1, (hwf aj haj).2.1, ?_⟩
    intro ci hci
    exact chunkWF_congr w w' _ _ hcomp ((hwf aj haj).2.2 ci hci)

/-- Rewriting one entity-column cell keeps the storage well-formed. -/
theorem archetypesWF_set_ent (w : World) (ai ci r x : Nat)
    (hwf : ArchetypesWF w) :
    ArchetypesWF (w.modifyChunk ai ci
      (fun c => { c with entities := (c.entities.set r x) })) := by
  by_cases hai : ai < w.archetypes.length
  · intro aj haj
    have hlen : (w.modifyChunk ai ci (fun c =>
        { c with entities := (c.entities.set r x) })).archetypes.length =
        w.archetypes.length :=
      length_arch_modifyArchetype w ai _
    rw [hlen] at haj
    have hcomp : (w.modifyChunk ai ci (fun c =>
        { c with entities := (c.entities.set r x) })).components = w.components := rfl
    by_cases haij : aj = ai
    · subst haij
      refine ⟨by rw [key_modifyChunk w aj ci _ hai]; exact (hwf aj haj).1,
        by rw [rpc_modifyChunk w aj ci _ hai]; exact (hwf aj haj).2.1, ?_⟩
      intro cj hcj
      rw [chunks_length_modifyChunk w aj ci _ hai] at hcj
      by_cases hcij : cj = ci
      · subst hcij
        show ChunkWF _ ((w.modifyChunk aj cj _).archD aj).component_ids
          ((w.modifyChunk aj cj _).chunkD aj cj)
        rw [key_modifyChunk w aj cj _ hai, chunkD_modifyChunk_eq w aj cj _ hai hcj]
        obtain ⟨c1, c2, c3, c4, c5⟩ :=
          chunkWF_congr w _ _ _ hcomp ((hwf aj haj).2.2 cj hcj)
        exact ⟨c1, c2, by rw [List.length_set]; exact c3, c4, c5⟩
      · show ChunkWF _ ((w.modifyChunk aj ci _).archD aj).component_ids
          ((w.modifyChunk aj ci _).chunkD aj cj)
        rw [key_modifyChunk w aj ci _ hai, chunkD_modifyChunk_ne w aj ci cj _ hai hcij]
        exact chunkWF_congr w _ _ _ hcomp ((hwf aj haj).2.2 cj hcj)
    · rw [archD_modifyChunk_ne w ai aj ci _ haij]
      refine ⟨(hwf aj haj).1, (hwf aj haj).2.1, ?_⟩
      intro cj hcj
      exact chunkWF_congr w _ _ _ hcomp ((hwf aj haj).2.2 cj hcj)
  · rw [World.modifyChunk, archD_modifyArchetype_oob w ai _ (by omega)]
    exact hwf

/-- Allocating a row keeps the storage well-formed. -/
theorem archetypesWF_alloc (w1 w2 : World) (ai ci row : Nat)
    (hwf1 : ArchetypesWF w1)
    (A2 : w2 = { w1 with archetypes := w2.archetypes,
                         total_chunk_count := w2.total_chunk_count })
    (A3 : w2.archetypes.length = w1.archetypes.length)
    (A4 : ∀ aj, aj ≠ ai → w2.archD aj = w1.archD aj)
    (A5 : (w2.archD ai).component_ids = (w1.archD ai).component_ids)
    (A6 : (w2.archD ai).rows_per_chunk = (w1.archD ai).rows_per_chunk)
    (A8 : ∀ cj, cj ≠ ci → w2.chunkD ai cj = w1.chunkD ai cj)
    (A10 : ChunkWF w1 (w1.archD ai).component_ids (w2.chunkD ai ci))
    (hlen2 : ∀ cj, cj ≠ ci → cj < (w2.archD ai).chunks.length →
      cj < (w1.archD ai).chunks.length)
    (hai : ai < w1.archetypes.length) :
    ArchetypesWF w2 := by
  have hcomp : w2.components = w1.components := by rw [A2]
  intro aj haj
  rw [A3] at haj
  by_cases haij : aj = ai
  · subst haij
    refine ⟨by rw [A5]; exact (hwf1 aj haj).1, by rw [A6]; exact (hwf1 aj haj).2.1, ?_⟩
    intro cj hcj
    by_cases hcij : cj = ci
    · subst hcij
      show ChunkWF w2 (w2.archD aj).component_ids (w2.chunkD aj cj)
      rw [A5]
      exact chunkWF_congr w1 w2 _ _ hcomp A10
    · show ChunkWF w2 (w2.archD aj).component_ids (w2.chunkD aj cj)
      rw [A5, A8 cj hcij]
      exact chunkWF_congr w1 w2 _ _ hcomp ((hwf1 aj haj).2.2 cj (hlen2 cj hcij hcj))
  · rw [A4 aj haij]
    refine ⟨(hwf1 aj haj).1, (hwf1 aj haj).2.1, ?_⟩
    intro cj hcj
    exact chunkWF_congr w1 w2 _ _ hcomp ((hwf1 aj haj).2.2 cj hcj)

/-- The shared structural-move tail of `lt_add_component` and
`lt_remove_component`: find or create the destination archetype, allocate
a row, write the entity column, run the column fill, redirect the entity's
slot, bump the move counter and swap-remove the source row. -/
def moveTail (w : World) (e index : Nat) (dstIds : List Nat)
    (fill : World → Nat → Nat → Nat → World) : Status × World :=
  match lt_find_or_create_archetype w dstIds with
  | (s, w1, dstAi) =>
    if s ≠ Status.ok then (s, w1)
    else
      match lt_archetype_alloc_row w1 dstAi with
      | (s2, w2, dstCi, dstRow) =>
        if s2 ≠ Status.ok then (s2, w2)
        else
          let w3 := w2.modifyChunk dstAi dstCi
            (fun c => { c with entities := (c.entities.set dstRow e) })
          let w4 := fill w3 dstAi dstCi dstRow
          let w5 := w4.modifySlot index (fun sl =>
            { sl with archetype := dstAi, chunk := dstCi, row := dstRow })
          let w6 := { w5 with structural_move_count := w5.structural_move_count + 1 }
          (Status.ok, lt_archetype_swap_remove_row w6
            (w.slotD index).archetype (w.slotD index).chunk (w.slotD index).row)

/-- The success branch of `lt_add_component` is the structural-move tail
with the `key_with_add` destination key and the payload fill. -/
theorem add_component_success_eq (w : World) (e cid : Nat) (initial : Option (List Nat))
    (index : Nat)
    (he0 : ¬(e = 0 ∨ cid = 0)) (hcid : ¬ cid > w.componentCount)
    (hdepth : ¬ w.defer_depth > 0)
    (hlive : lt_world_get_live_slot w e = (Status.ok, some index))
    (habsent : ¬(lt_archetype_find_component_index
      (w.archD (w.slotD index).archetype) cid).isSome = true) :
    lt_add_component w e cid initial = moveTail w e index
      (lt_world_component_key_with_add
        (w.archD (w.slotD index).archetype).component_ids cid)
      (fun w' dAi dCi dR => addComponentFillRow w'
        (lt_world_component_key_with_add
          (w.archD (w.slotD index).archetype).component_ids cid) cid initial
        (w.slotD index).archetype (w.slotD index).chunk (w.slotD index).row
        dAi dCi dR) := by
  simp only [lt_add_component, if_neg he0, if_neg hcid, if_neg hdepth, hlive]
  rw [if_neg habsent]
  rfl

/-- The success branch of `lt_remove_component` is the structural-move
tail with the `key_with_remove` destination key and the transfer fill. -/
theorem remove_component_success_eq (w : World) (e cid : Nat) (index : Nat)
    (dstIds : List Nat)
    (he0 : ¬(e = 0 ∨ cid = 0)) (hcid : ¬ cid > w.componentCount)
    (hdepth : ¬ w.defer_depth > 0)
    (hlive : lt_world_get_live_slot w e = (Status.ok, some index))
    (hpresent : ¬(lt_archetype_find_component_index
      (w.archD (w.slotD index).archetype) cid).isNone = true)
    (hkey : lt_world_component_key_with_remove
      (w.archD (w.slotD index).archetype).component_ids cid = (Status.ok, dstIds)) :
    lt_remove_component w e cid = moveTail w e index dstIds
      (fun w' dAi dCi dR => removeComponentFillRow w' dstIds
        (w.slotD index).archetype (w.slotD index).chunk (w.slotD index).row
        dAi dCi dR) := by
  simp only [lt_remove_component, if_neg he0, if_neg hcid, if_neg hdepth, hlive]
  rw [if_neg hpresent, hkey]
  rw [if_neg (show ¬ Status.ok ≠ Status.ok from fun h => h rfl)]
  rfl

/-- The storage stays well-formed across a swap-remove. -/
theorem archetypesWF_post (w W : World) (ai ci row exIdx : Nat)
    (hwf : ArchetypesWF w) (hpost : SwapRemovePost w W ai ci row exIdx) :
    ArchetypesWF W := by
  obtain ⟨P1, P2, P2b, P3, P4, P5, P6, P7, P8, P9, P10, P11, P12, P13⟩ := hpost
  have hcomp : W.components = w.components := by rw [P1]
  intro aj haj
  rw [P2b] at haj
  by_cases haij : aj = ai
  · subst haij
    refine ⟨by rw [P5]; exact (hwf _ haj).1, by rw [P6]; exact (hwf _ haj).2.1, ?_⟩
    intro cj hcj
    rw [P7] at hcj
    by_cases hcij : cj = ci
    · subst hcij
      show ChunkWF W (W.archD aj).component_ids (W.chunkD aj cj)
      rw [P5]
      exact chunkWF_congr w W _ _ hcomp P10
    · show ChunkWF W (W.archD aj).component_ids (W.chunkD aj cj)
      rw [P5, P8 cj hcij]
      exact chunkWF_congr w W _ _ hcomp ((hwf _ haj).2.2 cj hcj)
  · rw [P4 aj haij]
    refine ⟨(hwf aj haj).1, (hwf aj haj).2.1, ?_⟩
    intro cj hcj
    exact chunkWF_congr w W _ _ hcomp ((hwf aj haj).2.2 cj hcj)

/-- The world invariant is restored at the end of a structural move: the
entity already sits in its destination row with its slot redirected, and
swap-removing the source row completes the operation. -/
theorem move_finish_inv (w W6 : World) (e index dstAi dstCi dstRow : Nat)
    (hw : WorldInv w)
    (he : e < U32LIMIT * U32LIMIT)
    (hidx : index = lt_entity_index e)
    (hgen : (w.slotD index).generation = lt_entity_generation e)
    (hlt : index < w.slots.length)
    (halive : (w.slotD index).alive = true)
    (hdstne : dstAi ≠ (w.slotD index).archetype)
    (hW6eq : W6 = { w with slots := W6.slots,
                           archetypes := W6.archetypes,
                           total_chunk_count := W6.total_chunk_count,
                           structural_move_count := W6.structural_move_count })
    (hW6slen : W6.slots.length = w.slots.length)
    (hW6sne : ∀ i, i ≠ index → W6.slotD i = w.slotD i)
    (hW6sidx : W6.slotD index = { w.slotD index with
      archetype := dstAi, chunk := dstCi, row := dstRow })
    (hW6alen : w.archetypes.length ≤ W6.archetypes.length)
    (hW6alen2 : W6.archetypes.length ≤ w.archetypes.length + 1)
    (hW6append : w.archetypes.length < W6.archetypes.length →
      dstAi = w.archetypes.length)
    (hW6dstAi : dstAi < W6.archetypes.length)
    (hW6srcpres : ∀ aj, aj ≠ dstAi → aj < w.archetypes.length →
      W6.archD aj = w.archD aj)
    (hW6wf : ArchetypesWF W6)
    (hW6dstci : dstCi < (W6.archD dstAi).chunks.length)
    (hW6dstcnt : (W6.chunkD dstAi dstCi).count = dstRow + 1)
    (hW6cell : (W6.chunkD dstAi dstCi).entities.getD dstRow 0 = e)
    (hW6oldcell : ∀ r, r < dstRow → (W6.chunkD dstAi dstCi).entities.getD r 0 =
      (w.chunkD dstAi dstCi).entities.getD r 0)
    (hW6oldcnt : (w.chunkD dstAi dstCi).count = dstRow)
    (hW6dstclen : (w.archD dstAi).chunks.length ≤ (W6.archD dstAi).chunks.length)
    (hW6dstoc : ∀ cj, cj ≠ dstCi → cj < (W6.archD dstAi).chunks.length →
      cj < (w.archD dstAi).chunks.length ∧ W6.chunkD dstAi cj = w.chunkD dstAi cj) :
    WorldInv (lt_archetype_swap_remove_row W6 (w.slotD index).archetype
      (w.slotD index).chunk (w.slotD index).row) ∧
    (lt_archetype_swap_remove_row W6 (w.slotD index).archetype
      (w.slotD index).chunk (w.slotD index).row).defer_depth = w.defer_depth ∧
    (lt_archetype_swap_remove_row W6 (w.slotD index).archetype
      (w.slotD index).chunk (w.slotD index).row).deferred = w.deferred := by
  obtain ⟨f1, f2, f3, f4⟩ := hw.forward index hlt halive
  have hlen32 := inv_slots_lt w hw
  have hW6chunkpres : ∀ aj cj, aj < w.archetypes.length → ¬(aj = dstAi ∧ cj = dstCi) →
      W6.chunkD aj cj = w.chunkD aj cj ∧
      (cj < (W6.archD aj).chunks.length → cj < (w.archD aj).chunks.length) := by
    intro aj cj hajlt hnot
    by_cases haj : aj = dstAi
    · subst haj
      have hcj : cj ≠ dstCi := fun h => hnot ⟨rfl, h⟩
      constructor
      · by_cases hcl : cj < (W6.archD aj).chunks.length
        · exact (hW6dstoc cj hcj hcl).2
        · push_neg at hcl
          have h1 : W6.chunkD aj cj = default := by
            simp only [World.chunkD]
            rw [getD_of_ge _ _ _ hcl]
          have h2 : w.chunkD aj cj = default := by
            simp only [World.chunkD]
            rw [getD_of_ge _ _ _ (by omega)]
          rw [h1, h2]
      · intro hcl
        exact (hW6dstoc cj hcj hcl).1
    · constructor
      · simp only [World.chunkD, hW6srcpres aj haj hajlt]
      · rw [hW6srcpres aj haj hajlt]
        exact fun h => h
  have hsrcne : (w.slotD index).archetype ≠ dstAi := fun h => hdstne h.symm
  have hsm_ai : (w.slotD index).archetype < W6.archetypes.length := by omega
  have hsrcarch : W6.archD (w.slotD index).archetype =
      w.archD (w.slotD index).archetype := hW6srcpres _ hsrcne f1
  have hsm_ci : (w.slotD index).chunk <
      (W6.archD (w.slotD index).archetype).chunks.length := by
    rw [hsrcarch]
    exact f2
  have hsrcchunk : ∀ cj, W6.chunkD (w.slotD index).archetype cj =
      w.chunkD (w.slotD index).archetype cj := by
    intro cj
    simp only [World.chunkD, hsrcarch]
  have hsm_row : (w.slotD index).row <
      (W6.chunkD (w.slotD index).archetype (w.slotD index).chunk).count := by
    rw [hsrcchunk]
    exact f3
  have hsm_len32 : W6.slots.length < U32LIMIT := by omega
  have hsm_gen : ∀ i, i < W6.slots.length → (W6.slotD i).generation < U32LIMIT := by
    intro i hi
    rw [hW6slen] at hi
    by_cases hii : i = index
    · subst hii
      rw [hW6sidx]
      show (w.slotD i).generation < U32LIMIT
      exact hw.gen_lt i hi
    · rw [hW6sne i hii]
      exact hw.gen_lt i hi
  have huniq : ∀ a c r, a < w.archetypes.length → c < (w.archD a).chunks.length →
      r < (w.chunkD a c).count →
      lt_entity_index ((w.chunkD a c).entities.getD r 0) = index →
      a = (w.slotD index).archetype ∧ c = (w.slotD index).chunk ∧
        r = (w.slotD index).row := by
    intro a c r ha hc hr heq
    obtain ⟨b1, b2, b3, b4, b5, b6⟩ := hw.backward a c r ha hc hr
    rw [heq] at b4 b5 b6
    exact ⟨b4.symm, b5.symm, b6.symm⟩
  have hsm_back : ∀ a c r, a < W6.archetypes.length →
      c < (W6.archD a).chunks.length → r < (W6.chunkD a c).count →
      ¬(a = (w.slotD index).archetype ∧ c = (w.slotD index).chunk ∧
        r = (w.slotD index).row) →
      BackwardAt W6 a c r := by
    intro a c r ha hc hr hnot
    by_cases hdst : a = dstAi ∧ c = dstCi
    · obtain ⟨h1, h2⟩ := hdst
      subst h1
      subst h2
      rw [hW6dstcnt] at hr
      by_cases hrr : r = dstRow
      · subst hrr
        refine ⟨?_, ?_, ?_, ?_, ?_, ?_⟩ <;> rw [hW6cell, ← hidx]
        · rw [hW6slen]
          exact hlt
        · rw [hW6sidx]
          show (w.slotD index).alive = true
          exact halive
        · rw [hW6sidx]
          show (w.slotD index).generation = lt_entity_generation e
          exact hgen
        · rw [hW6sidx]
        · rw [hW6sidx]
        · rw [hW6sidx]
      · have hrd : r < dstRow := by omega
        have hposr : r < (w.chunkD a c).count := by omega
        have hbounds := chunk_pos_bounds w a c (by omega)
        obtain ⟨b1, b2, b3, b4, b5, b6⟩ := hw.backward a c r hbounds.1 hbounds.2 hposr
        have hne' : lt_entity_index ((w.chunkD a c).entities.getD r 0) ≠ index := by
          intro heq
          obtain ⟨u1, u2, u3⟩ := huniq a c r hbounds.1 hbounds.2 hposr heq
          exact hdstne u1
        refine ⟨?_, ?_, ?_, ?_, ?_, ?_⟩ <;> rw [hW6oldcell r hrd]
        · rw [hW6slen]
          exact b1
        · rw [hW6sne _ hne']
          exact b2
        · rw [hW6sne _ hne']
          exact b3
        · rw [hW6sne _ hne']
          exact b4
        · rw [hW6sne _ hne']
          exact b5
        · rw [hW6sne _ hne']
          exact b6
    · by_cases hain : a < w.archetypes.length
      · have hcp := hW6chunkpres a c hain hdst
        rw [hcp.1] at hr
        have hcw : c < (w.archD a).chunks.length := by
          by_contra hge
          push_neg at hge
          have h0 := chunkD_count_oob w a c hge
          omega
        obtain ⟨b1, b2, b3, b4, b5, b6⟩ := hw.backward a c r hain hcw hr
        have hne' : lt_entity_index ((w.chunkD a c).entities.getD r 0) ≠ index := by
          intro heq
          exact hnot (huniq a c r hain hcw hr heq)
        refine ⟨?_, ?_, ?_, ?_, ?_, ?_⟩ <;> rw [hcp.1]
        · rw [hW6slen]
          exact b1
        · rw [hW6sne _ hne']
          exact b2
        · rw [hW6sne _ hne']
          exact b3
        · rw [hW6sne _ hne']
          exact b4
        · rw [hW6sne _ hne']
          exact b5
        · rw [hW6sne _ hne']
          exact b6
      · by_cases hadst : a = dstAi
        · subst hadst
          have hc2 : c ≠ dstCi := fun h => hdst ⟨rfl, h⟩
          have hc3 := (hW6dstoc c hc2 hc).1
          push_neg at hain
          have h0 := archD_oob_len w a hain
          omega
        · exfalso
          push_neg at hain
          have hlt2 : w.archetypes.length < W6.archetypes.length := by omega
          have hD := hW6append hlt2
          omega
  have hsm_for : ∀ i, i < W6.slots.length → i ≠ index → (W6.slotD i).alive = true →
      ForwardAt W6 i := by
    intro i hi hne hal
    rw [hW6slen] at hi
    rw [hW6sne i hne] at hal
    obtain ⟨g1, g2, g3, g4⟩ := hw.forward i hi hal
    have hslot := hW6sne i hne
    by_cases hxa : (w.slotD i).archetype = dstAi
    · by_cases hxc : (w.slotD i).chunk = dstCi
      · refine ⟨?_, ?_, ?_, ?_⟩
        · rw [hslot]
          omega
        · rw [hslot, hxa, hxc]
          exact hW6dstci
        · rw [hslot, hxa, hxc, hW6dstcnt]
          rw [hxa, hxc] at g3
          omega
        · rw [hslot, hxa, hxc]
          rw [hxa, hxc] at g3 g4
          rw [hW6oldcnt] at g3
          rw [hW6oldcell _ g3]
          exact g4
      · refine ⟨?_, ?_, ?_, ?_⟩
        · rw [hslot]
          omega
        · rw [hslot, hxa]
          rw [hxa] at g2
          omega
        · rw [hslot, hxa]
          rw [hxa] at g2 g3
          rw [(hW6dstoc _ hxc (by omega)).2]
          exact g3
        · rw [hslot, hxa]
          rw [hxa] at g2 g3 g4
          rw [(hW6dstoc _ hxc (by omega)).2]
          exact g4
    · have harcheq := hW6srcpres _ hxa g1
      have hch : ∀ cj, W6.chunkD (w.slotD i).archetype cj =
          w.chunkD (w.slotD i).archetype cj := by
        intro cj
        simp only [World.chunkD, harcheq]
      refine ⟨?_, ?_, ?_, ?_⟩
      · rw [hslot]
        omega
      · rw [hslot, harcheq]
        exact g2
      · rw [hslot, hch]
        exact g3
      · rw [hslot, hch]
        exact g4
  have hsm_exrow : ∀ i, i < W6.slots.length → i ≠ index → (W6.slotD i).alive = true →
      ¬((W6.slotD i).archetype = (w.slotD index).archetype ∧
        (W6.slotD i).chunk = (w.slotD index).chunk ∧
        (W6.slotD i).row = (w.slotD index).row) := by
    intro i hi hne hal hp
    rw [hW6slen] at hi
    rw [hW6sne i hne] at hal hp
    obtain ⟨p1, p2, p3⟩ := hp
    obtain ⟨g1, g2, g3, g4⟩ := hw.forward i hi hal
    rw [p1, p2, p3] at g4
    rw [g4] at f4
    exact hne (pack_inj_index i _ index _ (by omega) (by omega) f4)
  have hsm_ex : ∀ r,
      r < (W6.chunkD (w.slotD index).archetype (w.slotD index).chunk).count →
      r ≠ (w.slotD index).row →
      lt_entity_index ((W6.chunkD (w.slotD index).archetype
        (w.slotD index).chunk).entities.getD r 0) ≠ index := by
    intro r hr hne heq
    rw [hsrcchunk] at hr heq
    obtain ⟨u1, u2, u3⟩ := huniq _ _ r f1 f2 hr heq
    exact hne u3
  obtain ⟨P1, P2, P2b, P3, P4, P5, P6, P7, P8, P9, P10, P11, P12, P13⟩ :=
    swap_remove_main W6 (w.slotD index).archetype (w.slotD index).chunk
      (w.slotD index).row index hsm_ai hsm_ci hsm_row hsm_len32 hsm_gen hW6wf
      hsm_back hsm_for hsm_exrow hsm_ex
  have h7def : (lt_archetype_swap_remove_row W6 (w.slotD index).archetype
      (w.slotD index).chunk (w.slotD index).row).deferred = w.deferred := by
    rw [P1]
    show W6.deferred = w.deferred
    rw [hW6eq]
  have h7depth : (lt_archetype_swap_remove_row W6 (w.slotD index).archetype
      (w.slotD index).chunk (w.slotD index).row).defer_depth = w.defer_depth := by
    rw [P1]
    show W6.defer_depth = w.defer_depth
    rw [hW6eq]
  have h7cap : (lt_archetype_swap_remove_row W6 (w.slotD index).archetype
      (w.slotD index).chunk (w.slotD index).row).entity_capacity =
      w.entity_capacity := by
    rw [P1]
    show W6.entity_capacity = w.entity_capacity
    rw [hW6eq]
  have h7root : (lt_archetype_swap_remove_row W6 (w.slotD index).archetype
      (w.slotD index).chunk (w.slotD index).row).root_archetype =
      w.root_archetype := by
    rw [P1]
    show W6.root_archetype = w.root_archetype
    rw [hW6eq]
  have h7slen : (lt_archetype_swap_remove_row W6 (w.slotD index).archetype
      (w.slotD index).chunk (w.slotD index).row).slots.length = w.slots.length := by
    rw [P2, hW6slen]
  have hslpres : ∀ i, ((lt_archetype_swap_remove_row W6 (w.slotD index).archetype
      (w.slotD index).chunk (w.slotD index).row).slotD i).alive = (w.slotD i).alive ∧
      ((lt_archetype_swap_remove_row W6 (w.slotD index).archetype
      (w.slotD index).chunk (w.slotD index).row).slotD i).next_free =
        (w.slotD i).next_free := by
    intro i
    rcases P3 i with h | h
    · rw [h]
      by_cases hii : i = index
      · subst hii
        rw [hW6sidx]
        exact ⟨rfl, rfl⟩
      · rw [hW6sne i hii]
        exact ⟨rfl, rfl⟩
    · rw [h.2.2.2, hW6sne i h.2.1]
      exact ⟨rfl, rfl⟩
  refine ⟨⟨?_, ?_, ?_, ?_, ?_, ?_, ?_, ?_, ?_⟩, h7depth, h7def⟩
  · rw [h7cap]
    exact hw.cap_bound
  · rw [h7slen, h7cap]
    exact hw.slots_cap
  · intro i hi
    rw [h7slen] at hi
    rcases P3 i with h | h
    · rw [h]
      exact hsm_gen i (by rw [hW6slen]; exact hi)
    · rw [h.2.2.2]
      show ((W6.slotD i)).generation < U32LIMIT
      exact hsm_gen i (by rw [hW6slen]; exact hi)
  · rw [h7root, P2b]
    have hr0 := hw.root_lt
    omega
  · exact archetypesWF_post W6 _ (w.slotD index).archetype (w.slotD index).chunk
      (w.slotD index).row index hW6wf
      ⟨P1, P2, P2b, P3, P4, P5, P6, P7, P8, P9, P10, P11, P12, P13⟩
  · intro i hi hal
    rw [h7slen] at hi
    by_cases hii : i = index
    · rw [hii]
      have hsl7 : (lt_archetype_swap_remove_row W6 (w.slotD index).archetype
          (w.slotD index).chunk (w.slotD index).row).slotD index =
          W6.slotD index := by
        rcases P3 index with h | h
        · exact h
        · exact absurd rfl h.2.1
      have hch7 : (lt_archetype_swap_remove_row W6 (w.slotD index).archetype
          (w.slotD index).chunk (w.slotD index).row).chunkD dstAi dstCi =
          W6.chunkD dstAi dstCi := by
        simp only [World.chunkD, P4 dstAi hdstne]
      refine ⟨?_, ?_, ?_, ?_⟩
      · rw [hsl7, hW6sidx]
        show dstAi < (lt_archetype_swap_remove_row W6 (w.slotD index).archetype
          (w.slotD index).chunk (w.slotD index).row).archetypes.length
        rw [P2b]
        exact hW6dstAi
      · rw [hsl7, hW6sidx]
        show dstCi < ((lt_archetype_swap_remove_row W6 (w.slotD index).archetype
          (w.slotD index).chunk (w.slotD index).row).archD dstAi).chunks.length
        rw [P4 dstAi hdstne]
        exact hW6dstci
      · rw [hsl7, hW6sidx]
        show dstRow < ((lt_archetype_swap_remove_row W6 (w.slotD index).archetype
          (w.slotD index).chunk (w.slotD index).row).chunkD dstAi dstCi).count
        rw [hch7, hW6dstcnt]
        omega
      · rw [hsl7, hW6sidx]
        show ((lt_archetype_swap_remove_row W6 (w.slotD index).archetype
          (w.slotD index).chunk (w.slotD index).row).chunkD
            dstAi dstCi).entities.getD dstRow 0 =
          lt_entity_pack index ((w.slotD index).generation)
        rw [hch7, hW6cell, hgen, hidx]
        exact (pack_decode e he).symm
    · exact P12 i (by rw [hW6slen]; exact hi) hii hal
  · intro a c r ha hc hr
    rw [P2b] at ha
    have hc6 : c < (W6.archD a).chunks.length := by
      by_cases haa : a = (w.slotD index).archetype
      · subst haa
        rw [P7] at hc
        exact hc
      · rw [P4 a haa] at hc
        exact hc
    exact P11 a c r ha hc6 hr
  · obtain ⟨F, hnd, hch, hcov⟩ := hw.freelist
    refine ⟨F, hnd, ?_, ?_⟩
    · have hhead : (lt_archetype_swap_remove_row W6 (w.slotD index).archetype
          (w.slotD index).chunk (w.slotD index).row).free_entity_head =
          w.free_entity_head := by
        rw [P1]
        show W6.free_entity_head = w.free_entity_head
        rw [hW6eq]
      rw [hhead]
      exact freeChainOk_congr w _ h7slen F w.free_entity_head
        (fun i _ => hslpres i) hch
    · intro i hi hdead
      rw [h7slen] at hi
      rw [(hslpres i).1] at hdead
      exact hcov i hi hdead
  · intro op hop
    rw [h7def] at hop
    exact hw.deferred_entities op hop

/-- The structural-move tail preserves the world invariant and the defer
bookkeeping. -/
theorem moveTail_preserves (w : World) (e index : Nat) (dstIds : List Nat)
    (fill : World → Nat → Nat → Nat → World)
    (hw : WorldInv w)
    (he : e < U32LIMIT * U32LIMIT)
    (hlive : (lt_world_get_live_slot w e).2 = some index)
    (hsorted : dstIds.Pairwise (· < ·))
    (hne : dstIds ≠ (w.archD (w.slotD index).archetype).component_ids)
    (hfillshape : ∀ w' dAi dCi dR, WorldShapeEqAt w' (fill w' dAi dCi dR) dAi dCi) :
    WorldInv (moveTail w e index dstIds fill).2 ∧
    (moveTail w e index dstIds fill).2.defer_depth = w.defer_depth ∧
    (moveTail w e index dstIds fill).2.deferred = w.deferred := by
  obtain ⟨hcall, he0, hidx, hlt, halive, hgen⟩ := get_live_slot_some_spec w e index hlive
  obtain ⟨f1, f2, f3, f4⟩ := hw.forward index hlt halive
  rcases hfc : lt_find_or_create_archetype w dstIds with ⟨s, w1, dstAi⟩
  simp only [moveTail, hfc]
  by_cases hs : s = Status.ok
  · subst hs
    rw [if_neg (show ¬ Status.ok ≠ Status.ok from fun h => h rfl)]
    obtain ⟨F1, F2, F3, F4, F5, F6, F7⟩ := find_or_create_ok_spec w dstIds w1 dstAi hfc
    have hwf1 : ArchetypesWF w1 := F6 hsorted hw.arch_wf
    have harch1 : ArchetypeWF w1 (w1.archD dstAi) := hwf1 dstAi F2
    obtain ⟨w2', dstCi', dstRow', A1, A2, A3, A4, A5, A6, A7, A8, A9, A10, A11⟩ :=
      alloc_row_spec w1 dstAi F2 harch1
    simp only [A1]
    rw [if_neg (show ¬ Status.ok ≠ Status.ok from fun h => h rfl)]
    have hai2 : dstAi < w2'.archetypes.length := by
      rw [A3]
      exact F2
    set w3 := w2'.modifyChunk dstAi dstCi'
      (fun c => { c with entities := (c.entities.set dstRow' e) }) with hw3
    set w4 := fill w3 dstAi dstCi' dstRow' with hw4
    obtain ⟨S1, S2, S3, S4, S5, S6, S7, S8⟩ :
        WorldShapeEqAt w3 w4 dstAi dstCi' := by
      rw [hw4]
      exact hfillshape w3 dstAi dstCi' dstRow'
    obtain ⟨T1, T2, T3, T4, T5⟩ := S8
    have hslots3 : w3.slots = w2'.slots := by rw [hw3]; rfl
    have hslots4 : w4.slots = w.slots := by
      rw [S1]
      show w2'.slots = w.slots
      rw [A2]
      show w1.slots = w.slots
      rw [F1]
    have h3len : w3.archetypes.length = w2'.archetypes.length := by
      rw [hw3]
      exact length_arch_modifyArchetype w2' dstAi _
    have halen4 : w4.archetypes.length = w1.archetypes.length := by
      rw [S2, h3len, A3]
    have hc3eq : w3.chunkD dstAi dstCi' = { w2'.chunkD dstAi dstCi' with
        entities := ((w2'.chunkD dstAi dstCi').entities.set dstRow' e) } := by
      rw [hw3]
      exact chunkD_modifyChunk_eq w2' dstAi dstCi' _ hai2 A7
    have hA10 := A10
    obtain ⟨C1, C2, C3, C4, C5⟩ := hA10
    have hlenB : ∀ cj, cj ≠ dstCi' → cj < (w2'.archD dstAi).chunks.length →
        cj < (w1.archD dstAi).chunks.length := by
      intro cj h1 h2
      rcases A11 with h | h
      · rw [h.1] at h2
        exact h2
      · rw [h.1] at h2
        have := h.2.1
        omega
    have hwf2 : ArchetypesWF w2' :=
      archetypesWF_alloc w1 w2' dstAi dstCi' dstRow' hwf1 A2 A3 A4 A5 A6 A8 A10 hlenB F2
    have hwf3 : ArchetypesWF w3 := by
      rw [hw3]
      exact archetypesWF_set_ent w2' dstAi dstCi' dstRow' e hwf2
    have hwf4 : ArchetypesWF w4 :=
      archetypesWF_shape w3 w4 dstAi dstCi' ⟨S1, S2, S3, S4, S5, S6, S7,
        ⟨T1, T2, T3, T4, T5⟩⟩ hwf3
    set w5 := w4.modifySlot index
      (fun sl => { sl with archetype := dstAi, chunk := dstCi', row := dstRow' })
      with hw5
    set W6 := { w5 with structural_move_count := w5.structural_move_count + 1 } with hW6
    have hdstne : dstAi ≠ (w.slotD index).archetype := by
      intro hEq
      apply hne
      rw [← F3, hEq, F5 _ f1]
    have hW6eq : W6 = { w with slots := W6.slots,
                               archetypes := W6.archetypes,
                               total_chunk_count := W6.total_chunk_count,
                               structural_move_count := W6.structural_move_count } := by
      refine World_ext _ _ ?_ rfl ?_ ?_ ?_ ?_ ?_ rfl ?_ rfl ?_ ?_ rfl
      · show w4.target_chunk_bytes = w.target_chunk_bytes
        rw [S1]
        show w2'.target_chunk_bytes = w.target_chunk_bytes
        rw [A2]
        show w1.target_chunk_bytes = w.target_chunk_bytes
        rw [F1]
      · show w4.entity_capacity = w.entity_capacity
        rw [S1]
        show w2'.entity_capacity = w.entity_capacity
        rw [A2]
        show w1.entity_capacity = w.entity_capacity
        rw [F1]
      · show w4.live_entity_count = w.live_entity_count
        rw [S1]
        show w2'.live_entity_count = w.live_entity_count
        rw [A2]
        show w1.live_entity_count = w.live_entity_count
        rw [F1]
      · show w4.free_entity_count = w.free_entity_count
        rw [S1]
        show w2'.free_entity_count = w.free_entity_count
        rw [A2]
        show w1.free_entity_count = w.free_entity_count
        rw [F1]
      · show w4.free_entity_head = w.free_entity_head
        rw [S1]
        show w2'.free_entity_head = w.free_entity_head
        rw [A2]
        show w1.free_entity_head = w.free_entity_head
        rw [F1]
      · show w4.components = w.components
        rw [S1]
        show w2'.components = w.components
        rw [A2]
        show w1.components = w.components
        rw [F1]
      · show w4.root_archetype = w.root_archetype
        rw [S1]
        show w2'.root_archetype = w.root_archetype
        rw [A2]
        show w1.root_archetype = w.root_archetype
        rw [F1]
      · show w4.deferred = w.deferred
        rw [S1]
        show w2'.deferred = w.deferred
        rw [A2]
        show w1.deferred = w.deferred
        rw [F1]
      · show w4.defer_depth = w.defer_depth
        rw [S1]
        show w2'.defer_depth = w.defer_depth
        rw [A2]
        show w1.defer_depth = w.defer_depth
        rw [F1]
    have hW6slen : W6.slots.length = w.slots.length := by
      show (w4.modifySlot index _).slots.length = w.slots.length
      rw [length_slots_modifySlot, hslots4]
    have hW6sne : ∀ i, i ≠ index → W6.slotD i = w.slotD i := by
      intro i h
      show (w4.modifySlot index _).slotD i = w.slotD i
      rw [slotD_modifySlot_ne _ _ _ _ h]
      simp only [World.slotD, hslots4]
    have hW6sidx : W6.slotD index = { w.slotD index with
        archetype := dstAi, chunk := dstCi', row := dstRow' } := by
      show (w4.modifySlot index _).slotD index = _
      rw [slotD_modifySlot_eq _ _ _ (by rw [hslots4]; exact hlt)]
      have h4 : w4.slotD index = w.slotD index := by
        simp only [World.slotD, hslots4]
      rw [h4]
    have hW6alen : w.archetypes.length ≤ W6.archetypes.length := by
      show w.archetypes.length ≤ w4.archetypes.length
      rw [halen4]
      exact F4
    have hW6alen2 : W6.archetypes.length ≤ w.archetypes.length + 1 := by
      show w4.archetypes.length ≤ w.archetypes.length + 1
      rw [halen4]
      rcases F7 with h | h
      · omega
      · omega
    have hW6append : w.archetypes.length < W6.archetypes.length →
        dstAi = w.archetypes.length := by
      show w.archetypes.length < w4.archetypes.length → dstAi = w.archetypes.length
      rw [halen4]
      intro h
      rcases F7 with h2 | h2
      · omega
      · exact h2.2.1
    have hW6dstAi : dstAi < W6.archetypes.length := by
      show dstAi < w4.archetypes.length
      rw [halen4]
      exact F2
    have hW6srcpres : ∀ aj, aj ≠ dstAi → aj < w.archetypes.length →
        W6.archD aj = w.archD aj := by
      intro aj hne2 hlt2
      show w4.archD aj = w.archD aj
      rw [S3 aj hne2, hw3, archD_modifyChunk_ne w2' dstAi aj dstCi' _ hne2,
        A4 aj hne2, F5 aj hlt2]
    have hW6wf : ArchetypesWF W6 := archetypesWF_congr w4 W6 rfl rfl hwf4
    have hW6dstci : dstCi' < (W6.archD dstAi).chunks.length := by
      show dstCi' < (w4.archD dstAi).chunks.length
      rw [S6, hw3, chunks_length_modifyChunk w2' dstAi dstCi' _ hai2]
      exact A7
    have hW6dstcnt : (W6.chunkD dstAi dstCi').count = dstRow' + 1 := by
      show (w4.chunkD dstAi dstCi').count = dstRow' + 1
      rw [T1, hc3eq]
      show (w2'.chunkD dstAi dstCi').count = dstRow' + 1
      exact A9
    have hW6cell : (W6.chunkD dstAi dstCi').entities.getD dstRow' 0 = e := by
      show (w4.chunkD dstAi dstCi').entities.getD dstRow' 0 = e
      rw [T3, hc3eq]
      show ((w2'.chunkD dstAi dstCi').entities.set dstRow' e).getD dstRow' 0 = e
      refine getD_set_eq _ dstRow' e 0 ?_
      rw [C3]
      omega
    have hW6oldcell : ∀ r, r < dstRow' →
        (W6.chunkD dstAi dstCi').entities.getD r 0 =
        (w.chunkD dstAi dstCi').entities.getD r 0 := by
      intro r hr
      show (w4.chunkD dstAi dstCi').entities.getD r 0 = _
      rw [T3, hc3eq]
      show ((w2'.chunkD dstAi dstCi').entities.set dstRow' e).getD r 0 = _
      rw [getD_set_ne _ dstRow' r e 0 (by omega)]
      rcases A11 with h | h
      · rw [h.2.2.1]
        rcases F7 with h2 | h2
        · have hcc : w1.chunkD dstAi dstCi' = w.chunkD dstAi dstCi' := by
            simp only [World.chunkD, F5 dstAi h2.2]
          rw [hcc]
        · exfalso
          have := h.2.1
          have := h2.2.2
          omega
      · exfalso
        have := h.2.2.1
        omega
    have hW6oldcnt : (w.chunkD dstAi dstCi').count = dstRow' := by
      rcases A11 with h | h
      · rcases F7 with h2 | h2
        · have hcc : w1.chunkD dstAi dstCi' = w.chunkD dstAi dstCi' := by
            simp only [World.chunkD, F5 dstAi h2.2]
          rw [← hcc]
          exact h.2.2.2.2.2
        · exfalso
          have := h.2.1
          have := h2.2.2
          omega
      · rcases F7 with h2 | h2
        · have harch1d : w1.archD dstAi = w.archD dstAi := F5 dstAi h2.2
          have hge : (w.archD dstAi).chunks.length ≤ dstCi' := by
            rw [← harch1d]
            omega
          rw [chunkD_count_oob w dstAi dstCi' hge]
          omega
        · have h0 : (w.archD dstAi).chunks.length = 0 :=
            archD_oob_len w dstAi (by omega)
          rw [chunkD_count_oob w dstAi dstCi' (by omega)]
          omega
    have hW6dstclen : (w.archD dstAi).chunks.length ≤
        (W6.archD dstAi).chunks.length := by
      show (w.archD dstAi).chunks.length ≤ (w4.archD dstAi).chunks.length
      rw [S6, hw3, chunks_length_modifyChunk w2' dstAi dstCi' _ hai2]
      rcases F7 with h2 | h2
      · have harch1d : w1.archD dstAi = w.archD dstAi := F5 dstAi h2.2
        rw [← harch1d]
        rcases A11 with h | h
        · have := h.1
          omega
        · have := h.1
          omega
      · rw [archD_oob_len w dstAi (by omega)]
        omega
    have hW6dstoc : ∀ cj, cj ≠ dstCi' → cj < (W6.archD dstAi).chunks.length →
        cj < (w.archD dstAi).chunks.length ∧
        W6.chunkD dstAi cj = w.chunkD dstAi cj := by
      intro cj h1 h2
      have h2' : cj < (w4.archD dstAi).chunks.length := h2
      rw [S6, hw3, chunks_length_modifyChunk w2' dstAi dstCi' _ hai2] at h2'
      have h2w1 : cj < (w1.archD dstAi).chunks.length := hlenB cj h1 h2'
      constructor
      · rcases F7 with h3 | h3
        · rw [← F5 dstAi h3.2]
          exact h2w1
        · exfalso
          have := h3.2.2
          omega
      · show w4.chunkD dstAi cj = w.chunkD dstAi cj
        rw [S7 cj h1, hw3, chunkD_modifyChunk_ne w2' dstAi dstCi' cj _ hai2 h1,
          A8 cj h1]
        rcases F7 with h3 | h3
        · simp only [World.chunkD, F5 dstAi h3.2]
        · exfalso
          have := h3.2.2
          omega
    exact move_finish_inv w W6 e index dstAi dstCi' dstRow' hw he hidx hgen hlt halive
      hdstne hW6eq hW6slen hW6sne hW6sidx hW6alen hW6alen2 hW6append hW6dstAi
      hW6srcpres hW6wf hW6dstci hW6dstcnt hW6cell hW6oldcell hW6oldcnt
      hW6dstclen hW6dstoc
  · rw [if_pos hs]
    have hw1 : w1 = w := by
      rw [lt_find_or_create_archetype] at hfc
      cases hfind : lt_find_archetype w dstIds with
      | some ai0 =>
        rw [hfind] at hfc
        simp only [Prod.mk.injEq] at hfc
        exact absurd hfc.1.symm hs
      | none =>
        rw [hfind, lt_archetype_create] at hfc
        by_cases hU : w.archetypes.length = U32MAX
        · rw [if_pos hU] at hfc
          simp only [Prod.mk.injEq] at hfc
          exact hfc.2.1.symm
        · rw [if_neg hU] at hfc
          simp only [Prod.mk.injEq] at hfc
          exact absurd hfc.1.symm hs
    subst hw1
    exact ⟨hw, rfl, rfl⟩

/-- `lt_add_component` preserves the world invariant (every status). -/
theorem add_preserves (w : World) (e cid : Nat) (initial : Option (List Nat))
    (hw : WorldInv w) (he : e < U32LIMIT * U32LIMIT) :
    WorldInv (lt_add_component w e cid initial).2 ∧
    (lt_add_component w e cid initial).2.defer_depth = w.defer_depth ∧
    (w.defer_depth = 0 → (lt_add_component w e cid initial).2.deferred = w.deferred) := by
  by_cases h1 : e = 0 ∨ cid = 0
  · simp only [lt_add_component, if_pos h1]
    exact ⟨hw, by simp, by simp⟩
  by_cases h2 : cid > w.componentCount
  · simp only [lt_add_component, if_neg h1, if_pos h2]
    exact ⟨hw, by simp, by simp⟩
  by_cases h3 : w.defer_depth > 0
  · simp only [lt_add_component, if_neg h1, if_neg h2, if_pos h3,
      lt_enqueue_add_component]
    refine ⟨?_, by simp, fun h => absurd h (by omega)⟩
    refine ⟨hw.cap_bound, hw.slots_cap, hw.gen_lt, hw.root_lt, hw.arch_wf,
      hw.forward, hw.backward, ?_, ?_⟩
    · obtain ⟨F, hnd, hch, hcov⟩ := hw.freelist
      refine ⟨F, hnd, ?_, hcov⟩
      refine freeChainOk_congr w _ ?_ F _ ?_ hch
      · rfl
      · exact fun i _ => ⟨rfl, rfl⟩
    · intro op hop
      rcases List.mem_append.mp hop with h | h
      · exact hw.deferred_entities op h
      · simp only [List.mem_singleton] at h
        subst h
        exact he
  rcases hls : lt_world_get_live_slot w e with ⟨s0, oidx⟩
  cases oidx with
  | none =>
    simp only [lt_add_component, if_neg h1, if_neg h2, if_neg h3, hls]
    exact ⟨hw, by simp, by simp⟩
  | some index =>
    obtain ⟨hcall, he0, hidx, hlt, halive, hgen⟩ :=
      get_live_slot_some_spec w e index (by rw [hls])
    obtain ⟨f1, f2, f3, f4⟩ := hw.forward index hlt halive
    have hsortedSrc := (hw.arch_wf _ f1).1
    by_cases h4 : (lt_archetype_find_component_index
        (w.archD (w.slotD index).archetype) cid).isSome = true
    · simp only [lt_add_component, if_neg h1, if_neg h2, if_neg h3, hls]
      rw [if_pos h4]
      exact ⟨hw, by simp, by simp⟩
    · have hcid0 : cid ≠ 0 := fun h => h1 (Or.inr h)
      have hnotmem : cid ∉ (w.archD (w.slotD index).archetype).component_ids := by
        intro hm
        obtain ⟨i, hfi, -, -⟩ := find_component_index_of_mem _ cid hcid0 hm
        exact h4 (by rw [hfi]; rfl)
      rw [add_component_success_eq w e cid initial index h1 h2 h3 hcall h4]
      have hmt := moveTail_preserves w e index
        (lt_world_component_key_with_add
          (w.archD (w.slotD index).archetype).component_ids cid)
        (fun w' dAi dCi dR => addComponentFillRow w'
          (lt_world_component_key_with_add
            (w.archD (w.slotD index).archetype).component_ids cid) cid initial
          (w.slotD index).archetype (w.slotD index).chunk (w.slotD index).row
          dAi dCi dR)
        hw he (by rw [hcall])
        (by
          rw [key_with_add_eq_insertAsc]
          exact pairwise_insertAsc cid _ hsortedSrc hnotmem)
        (by
          intro hEq
          have hlen := congrArg List.length hEq
          rw [key_with_add_eq_insertAsc, length_insertAsc] at hlen
          omega)
        (fun w' dAi dCi dR => addFillRow_shape _ cid initial _ _ _ dAi dCi dR w')
      exact ⟨hmt.1, hmt.2.1, fun _ => hmt.2.2⟩

/-- `lt_remove_component` preserves the world invariant (every status). -/
theorem remove_preserves (w : World) (e cid : Nat)
    (hw : WorldInv w) (he : e < U32LIMIT * U32LIMIT) :
    WorldInv (lt_remove_component w e cid).2 ∧
    (lt_remove_component w e cid).2.defer_depth = w.defer_depth ∧
    (w.defer_depth = 0 → (lt_remove_component w e cid).2.deferred = w.deferred) := by
  by_cases h1 : e = 0 ∨ cid = 0
  · simp only [lt_remove_component, if_pos h1]
    exact ⟨hw, by simp, by simp⟩
  by_cases h2 : cid > w.componentCount
  · simp only [lt_remove_component, if_neg h1, if_pos h2]
    exact ⟨hw, by simp, by simp⟩
  by_cases h3 : w.defer_depth > 0
  · simp only [lt_remove_component, if_neg h1, if_neg h2, if_pos h3,
      lt_enqueue_remove_component]
    refine ⟨?_, by simp, fun h => absurd h (by omega)⟩
    refine ⟨hw.cap_bound, hw.slots_cap, hw.gen_lt, hw.root_lt, hw.arch_wf,
      hw.forward, hw.backward, ?_, ?_⟩
    · obtain ⟨F, hnd, hch, hcov⟩ := hw.freelist
      refine ⟨F, hnd, ?_, hcov⟩
      refine freeChainOk_congr w _ ?_ F _ ?_ hch
      · rfl
      · exact fun i _ => ⟨rfl, rfl⟩
    · intro op hop
      rcases List.mem_append.mp hop with h | h
      · exact hw.deferred_entities op h
      · simp only [List.mem_singleton] at h
        subst h
        exact he
  rcases hls : lt_world_get_live_slot w e with ⟨s0, oidx⟩
  cases oidx with
  | none =>
    simp only [lt_remove_component, if_neg h1, if_neg h2, if_neg h3, hls]
    exact ⟨hw, by simp, by simp⟩
  | some index =>
    obtain ⟨hcall, he0, hidx, hlt, halive, hgen⟩ :=
      get_live_slot_some_spec w e index (by rw [hls])
    obtain ⟨f1, f2, f3, f4⟩ := hw.forward index hlt halive
    have hsortedSrc := (hw.arch_wf _ f1).1
    by_cases h4 : (lt_archetype_find_component_index
        (w.archD (w.slotD index).archetype) cid).isNone = true
    · simp only [lt_remove_component, if_neg h1, if_neg h2, if_neg h3, hls]
      rw [if_pos h4]
      exact ⟨hw, by simp, by simp⟩
    · have hcid0 : cid ≠ 0 := fun h => h1 (Or.inr h)
      have hmem : cid ∈ (w.archD (w.slotD index).archetype).component_ids := by
        by_contra hm
        exact h4 (by rw [find_component_index_none _ cid hm]; rfl)
      have hlen0 : (w.archD (w.slotD index).archetype).component_ids.length ≠ 0 := by
        intro h0
        rw [List.length_eq_zero] at h0
        rw [h0] at hmem
        simp at hmem
      have hkey : lt_world_component_key_with_remove
          (w.archD (w.slotD index).archetype).component_ids cid =
          (Status.ok, (w.archD (w.slotD index).archetype).component_ids.filter
            (fun i => i ≠ cid)) := by
        rw [lt_world_component_key_with_remove, if_neg hlen0]
      rw [remove_component_success_eq w e cid index _ h1 h2 h3 hcall h4 hkey]
      have hmt := moveTail_preserves w e index
        ((w.archD (w.slotD index).archetype).component_ids.filter (fun i => i ≠ cid))
        (fun w' dAi dCi dR => removeComponentFillRow w'
          ((w.archD (w.slotD index).archetype).component_ids.filter (fun i => i ≠ cid))
          (w.slotD index).archetype (w.slotD index).chunk (w.slotD index).row
          dAi dCi dR)
        hw he (by rw [hcall])
        (List.Pairwise.sublist (List.filter_sublist _) hsortedSrc)
        (by
          intro hEq
          have hlen := congrArg List.length hEq
          rw [length_filter_ne_of_mem _ cid (pairwise_lt_nodup _ hsortedSrc) hmem] at hlen
          have h5 : 0 < (w.archD (w.slotD index).archetype).component_ids.length :=
            List.length_pos_of_mem hmem
          omega)
        (fun w' dAi dCi dR => removeFillRow_shape _ _ _ _ dAi dCi dR w')
      exact ⟨hmt.1, hmt.2.1, fun _ => hmt.2.2⟩

/-- `entityCreateFinish` on a dead in-range slot succeeds and restores
every component of the world invariant that it touches. -/
theorem entityCreateFinish_spec (w : World) (index : Nat)
    (hidx : index < w.slots.length)
    (hdead : (w.slotD index).alive = false)
    (hlen32 : w.slots.length < U32LIMIT)
    (hgen : ∀ i, i < w.slots.length → (w.slotD i).generation < U32LIMIT)
    (hroot : w.root_archetype < w.archetypes.length)
    (hawf : ArchetypesWF w)
    (hfor : ∀ i, i < w.slots.length → (w.slotD i).alive = true → ForwardAt w i)
    (hback : ∀ a c r, a < w.archetypes.length → c < (w.archD a).chunks.length →
      r < (w.chunkD a c).count → BackwardAt w a c r) :
    (entityCreateFinish w index).1 = Status.ok ∧
    (entityCreateFinish w index).2.1.slots.length = w.slots.length ∧
    (∀ i, i ≠ index → (entityCreateFinish w index).2.1.slotD i = w.slotD i) ∧
    ((entityCreateFinish w index).2.1.slotD index).alive = true ∧
    ((entityCreateFinish w index).2.1.slotD index).next_free = U32MAX ∧
    ((entityCreateFinish w index).2.1 = { w with
      slots := (entityCreateFinish w index).2.1.slots,
      archetypes := (entityCreateFinish w index).2.1.archetypes,
      total_chunk_count := (entityCreateFinish w index).2.1.total_chunk_count,
      live_entity_count := (entityCreateFinish w index).2.1.live_entity_count }) ∧
    (entityCreateFinish w index).2.1.archetypes.length = w.archetypes.length ∧
    (∀ i, i < w.slots.length →
      ((entityCreateFinish w index).2.1.slotD i).generation < U32LIMIT) ∧
    ArchetypesWF (entityCreateFinish w index).2.1 ∧
    (∀ i, i < w.slots.length →
      ((entityCreateFinish w index).2.1.slotD i).alive = true →
      ForwardAt (entityCreateFinish w index).2.1 i) ∧
    (∀ a c r, a < (entityCreateFinish w index).2.1.archetypes.length →
      c < ((entityCreateFinish w index).2.1.archD a).chunks.length →
      r < ((entityCreateFinish w index).2.1.chunkD a c).count →
      BackwardAt (entityCreateFinish w index).2.1 a c r) := by
  simp only [entityCreateFinish]
  set wA := w.modifySlot index (fun s =>
    if s.generation = 0 then { s with generation := 1 } else s) with hwA
  have hAslots : wA.slots.length = w.slots.length := by
    rw [hwA]
    exact length_slots_modifySlot w index _
  have hAsne : ∀ i, i ≠ index → wA.slotD i = w.slotD i := fun i h => by
    rw [hwA]
    exact slotD_modifySlot_ne w index i _ h
  have hAidx : wA.slotD index = (if (w.slotD index).generation = 0 then
      { w.slotD index with generation := 1 } else (w.slotD index)) := by
    rw [hwA]
    exact slotD_modifySlot_eq w index _ hidx
  have hAarch : wA.archetypes = w.archetypes := by rw [hwA]; rfl
  have hAcomp : wA.components = w.components := by rw [hwA]; rfl
  have hAwf : ArchetypesWF wA := archetypesWF_congr w wA hAcomp hAarch hawf
  have hAal : (wA.slotD index).alive = false := by
    rw [hAidx]
    by_cases hg : (w.slotD index).generation = 0
    · rw [if_pos hg]
      exact hdead
    · rw [if_neg hg]
      exact hdead
  have hrootA : wA.root_archetype < wA.archetypes.length := by
    rw [hAarch]
    exact hroot
  have hAchunk : ∀ a c, wA.chunkD a c = w.chunkD a c := fun a c => by
    simp only [World.chunkD, World.archD, hAarch]
  have hAarchD : ∀ x, wA.archD x = w.archD x := fun x => by
    simp only [World.archD, hAarch]
  have hgenA : (wA.slotD index).generation =
      (if (w.slotD index).generation = 0 then 1 else (w.slotD index).generation) := by
    rw [hAidx]
    by_cases hg : (w.slotD index).generation = 0
    · rw [if_pos hg, if_pos hg]
    · rw [if_neg hg, if_neg hg]
  have hgenAlt : (wA.slotD index).generation < U32LIMIT := by
    rw [hgenA]
    by_cases hg : (w.slotD index).generation = 0
    · rw [if_pos hg]
      simp only [U32LIMIT]
      omega
    · rw [if_neg hg]
      exact hgen index hidx
  obtain ⟨w', ci, row, A1, A2, A3, A4, A5, A6, A7, A8, A9, A10, A11⟩ :=
    alloc_row_spec wA wA.root_archetype hrootA (hAwf _ hrootA)
  simp only [A1]
  rw [if_neg (show ¬ Status.ok ≠ Status.ok from fun h => h rfl)]
  have hroot' : w'.root_archetype = wA.root_archetype := by rw [A2]
  rw [hroot']
  have hroot'' : (w'.modifyChunk wA.root_archetype ci (fun c =>
      { c with entities := (c.entities.set row
        (lt_entity_pack index (wA.slotD index).generation)) })).root_archetype =
      wA.root_archetype := hroot'
  rw [hroot'']
  have hA10' := A10
  obtain ⟨C1, C2, C3, C4, C5⟩ := hA10'
  have hai' : wA.root_archetype < w'.archetypes.length := by
    rw [A3]
    exact hrootA
  set wB := w'.modifyChunk wA.root_archetype ci (fun c =>
    { c with entities := (c.entities.set row
      (lt_entity_pack index (wA.slotD index).generation)) }) with hwB
  have hBslots : wB.slots = wA.slots := by
    rw [hwB]
    show w'.slots = wA.slots
    rw [A2]
  have hBslen : wB.slots.length = w.slots.length := by
    rw [hBslots, hAslots]
  have hBarchlen : wB.archetypes.length = w.archetypes.length := by
    have h1 : wB.archetypes.length = w'.archetypes.length := by
      rw [hwB]
      exact length_arch_modifyArchetype w' _ _
    rw [h1, A3, hAarch]
  have hBcomp : wB.components = w.components := by
    rw [hwB]
    show w'.components = w.components
    rw [A2]
    show wA.components = w.components
    exact hAcomp
  have hBchunk : wB.chunkD wA.root_archetype ci =
      { w'.chunkD wA.root_archetype ci with
        entities := ((w'.chunkD wA.root_archetype ci).entities.set row
          (lt_entity_pack index (wA.slotD index).generation)) } := by
    rw [hwB]
    exact chunkD_modifyChunk_eq w' _ ci _ hai' A7
  have hBarchne : ∀ aj, aj ≠ wA.root_archetype → wB.archD aj = w.archD aj := by
    intro aj h
    have h1 : wB.archD aj = w'.archD aj := by
      rw [hwB]
      exact archD_modifyChunk_ne w' _ aj ci _ h
    rw [h1, A4 aj h]
    exact hAarchD aj
  have hBchunkne : ∀ cj, cj ≠ ci → wB.chunkD wA.root_archetype cj =
      w.chunkD wA.root_archetype cj := by
    intro cj h
    have h1 : wB.chunkD wA.root_archetype cj = w'.chunkD wA.root_archetype cj := by
      rw [hwB]
      exact chunkD_modifyChunk_ne w' _ ci cj _ hai' h
    rw [h1, A8 cj h, hAchunk]
  have hBchunks_len : (wB.archD wA.root_archetype).chunks.length =
      (w'.archD wA.root_archetype).chunks.length := by
    rw [hwB]
    exact chunks_length_modifyChunk w' _ ci _ hai'
  have hBkey : (wB.archD wA.root_archetype).component_ids =
      (wA.archD wA.root_archetype).component_ids := by
    have h1 : (wB.archD wA.root_archetype).component_ids =
        (w'.archD wA.root_archetype).component_ids := by
      rw [hwB]
      exact key_modifyChunk w' _ ci _ hai'
    rw [h1, A5]
  have hBwf : ArchetypesWF wB := by
    have hwf' : ArchetypesWF w' := by
      have hlenB : ∀ cj, cj ≠ ci → cj < (w'.archD wA.root_archetype).chunks.length →
          cj < (wA.archD wA.root_archetype).chunks.length := by
        intro cj h1 h2
        rcases A11 with h | h
        · rw [h.1] at h2
          exact h2
        · rw [h.1] at h2
          have := h.2.1
          omega
      exact archetypesWF_alloc wA w' wA.root_archetype ci row hAwf A2 A3 A4 A5 A6
        A8 A10 hlenB hrootA
    rw [hwB]
    exact archetypesWF_set_ent w' wA.root_archetype ci row _ hwf'
  set w3 := wB.modifySlot index (fun sl =>
    { sl with alive := true, next_free := U32MAX,
              archetype := wA.root_archetype, chunk := ci, row := row }) with hw3
  have h3slen : w3.slots.length = w.slots.length := by
    rw [hw3, length_slots_modifySlot, hBslen]
  have h3sne : ∀ i, i ≠ index → w3.slotD i = w.slotD i := by
    intro i h
    rw [hw3, slotD_modifySlot_ne _ _ _ _ h]
    have h2 : wB.slotD i = wA.slotD i := by
      simp only [World.slotD, hBslots]
    rw [h2]
    exact hAsne i h
  have h3sidx : w3.slotD index = { w.slotD index with
      generation := (if (w.slotD index).generation = 0 then 1
        else (w.slotD index).generation),
      alive := true, next_free := U32MAX,
      archetype := wA.root_archetype, chunk := ci, row := row } := by
    rw [hw3, slotD_modifySlot_eq _ _ _ (by rw [hBslen]; exact hidx)]
    have h1 : wB.slotD index = wA.slotD index := by
      simp only [World.slotD, hBslots]
    rw [h1, hAidx]
    by_cases hg : (w.slotD index).generation = 0
    · rw [if_pos hg, if_pos hg]
    · rw [if_neg hg, if_neg hg]
  refine ⟨rfl, ?_, ?_, ?_, ?_, ?_, ?_, ?_, ?_, ?_, ?_⟩
  · exact h3slen
  · intro i h
    show w3.slotD i = w.slotD i
    exact h3sne i h
  · show (w3.slotD index).alive = true
    rw [h3sidx]
  · show (w3.slotD index).next_free = U32MAX
    rw [h3sidx]
  · refine World_ext _ _ ?_ rfl ?_ rfl ?_ ?_ ?_ rfl ?_ rfl ?_ ?_ ?_
    · show wB.target_chunk_bytes = w.target_chunk_bytes
      rw [hwB]
      show w'.target_chunk_bytes = w.target_chunk_bytes
      rw [A2]
      show wA.target_chunk_bytes = w.target_chunk_bytes
      rw [hwA]
      rfl
    · show wB.entity_capacity = w.entity_capacity
      rw [hwB]
      show w'.entity_capacity = w.entity_capacity
      rw [A2]
      show wA.entity_capacity = w.entity_capacity
      rw [hwA]
      rfl
    · show wB.free_entity_count = w.free_entity_count
      rw [hwB]
      show w'.free_entity_count = w.free_entity_count
      rw [A2]
      show wA.free_entity_count = w.free_entity_count
      rw [hwA]
      rfl
    · show wB.free_entity_head = w.free_entity_head
      rw [hwB]
      show w'.free_entity_head = w.free_entity_head
      rw [A2]
      show wA.free_entity_head = w.free_entity_head
      rw [hwA]
      rfl
    · show wB.components = w.components
      exact hBcomp
    · show wB.root_archetype = w.root_archetype
      rw [hwB]
      show w'.root_archetype = w.root_archetype
      rw [A2]
      show wA.root_archetype = w.root_archetype
      rw [hwA]
      rfl
    · show wB.deferred = w.deferred
      rw [hwB]
      show w'.deferred = w.deferred
      rw [A2]
      show wA.deferred = w.deferred
      rw [hwA]
      rfl
    · show wB.defer_depth = w.defer_depth
      rw [hwB]
      show w'.defer_depth = w.defer_depth
      rw [A2]
      show wA.defer_depth = w.defer_depth
      rw [hwA]
      rfl
    · show wB.structural_move_count = w.structural_move_count
      rw [hwB]
      show w'.structural_move_count = w.structural_move_count
      rw [A2]
      show wA.structural_move_count = w.structural_move_count
      rw [hwA]
      rfl
  · show w3.archetypes.length = w.archetypes.length
    have h1 : w3.archetypes.length = wB.archetypes.length := by rw [hw3]; rfl
    rw [h1, hBarchlen]
  · intro i hi
    by_cases hii : i = index
    · rw [hii]
      show (w3.slotD index).generation < U32LIMIT
      rw [h3sidx]
      show (if (w.slotD index).generation = 0 then 1
        else (w.slotD index).generation) < U32LIMIT
      by_cases hg : (w.slotD index).generation = 0
      · rw [if_pos hg]
        simp only [U32LIMIT]
        omega
      · rw [if_neg hg]
        exact hgen index hidx
    · show (w3.slotD i).generation < U32LIMIT
      rw [h3sne i hii]
      exact hgen i hi
  · show ArchetypesWF _
    exact archetypesWF_congr wB _ rfl rfl hBwf
  · intro i hi hal
    by_cases hii : i = index
    · rw [hii]
      refine ⟨?_, ?_, ?_, ?_⟩
      · show (w3.slotD index).archetype < w3.archetypes.length
        rw [h3sidx]
        show wA.root_archetype < w3.archetypes.length
        have h1 : w3.archetypes.length = w.archetypes.length := by
          have h2 : w3.archetypes.length = wB.archetypes.length := by rw [hw3]; rfl
          rw [h2, hBarchlen]
        rw [h1]
        have h3 := hrootA
        rw [hAarch] at h3
        exact h3
      · show (w3.slotD index).chunk < ((w3.archD (w3.slotD index).archetype)).chunks.length
        rw [h3sidx]
        show ci < (w3.archD wA.root_archetype).chunks.length
        have h1 : w3.archD wA.root_archetype = wB.archD wA.root_archetype := by
          rw [hw3]; rfl
        rw [h1, hBchunks_len]
        exact A7
      · show (w3.slotD index).row < ((w3.chunkD (w3.slotD index).archetype
          (w3.slotD index).chunk)).count
        rw [h3sidx]
        show row < (w3.chunkD wA.root_archetype ci).count
        have h1 : w3.chunkD wA.root_archetype ci = wB.chunkD wA.root_archetype ci := by
          rw [hw3]; rfl
        rw [h1, hBchunk]
        show row < (w'.chunkD wA.root_archetype ci).count
        rw [A9]
        omega
      · show ((w3.chunkD (w3.slotD index).archetype
          (w3.slotD index).chunk)).entities.getD (w3.slotD index).row 0 =
          lt_entity_pack index (w3.slotD index).generation
        rw [h3sidx]
        show (w3.chunkD wA.root_archetype ci).entities.getD row 0 =
          lt_entity_pack index (if (w.slotD index).generation = 0 then 1
            else (w.slotD index).generation)
        have h1 : w3.chunkD wA.root_archetype ci = wB.chunkD wA.root_archetype ci := by
          rw [hw3]; rfl
        rw [h1, hBchunk]
        show ((w'.chunkD wA.root_archetype ci).entities.set row
          (lt_entity_pack index (wA.slotD index).generation)).getD row 0 =
          lt_entity_pack index (if (w.slotD index).generation = 0 then 1
            else (w.slotD index).generation)
        rw [getD_set_eq _ row _ 0 (by rw [C3]; omega), hgenA]
    · have hsl := h3sne i hii
      have hal' : (w3.slotD i).alive = true := hal
      rw [hsl] at hal'
      obtain ⟨g1, g2, g3, g4⟩ := hfor i hi hal'
      have harchle : ∀ a, a < w.archetypes.length →
          (w.archD a).chunks.length ≤ (w3.archD a).chunks.length ∧
          (∀ cj, cj < (w.archD a).chunks.length → ¬(a = wA.root_archetype ∧ cj = ci) →
            w3.chunkD a cj = w.chunkD a cj) := by
        intro a halt
        by_cases haa : a = wA.root_archetype
        · constructor
          · rw [haa]
            have h1 : (w3.archD wA.root_archetype).chunks.length =
                (wB.archD wA.root_archetype).chunks.length := by
              rw [hw3]; rfl
            rw [h1, hBchunks_len]
            rcases A11 with h | h
            · rw [h.1, hAarchD]
            · rw [h.1, hAarchD]
              omega
          · intro cj hcj hne2
            have hcne : cj ≠ ci := fun h => hne2 ⟨haa, h⟩
            rw [haa]
            have h1 : w3.chunkD wA.root_archetype cj =
                wB.chunkD wA.root_archetype cj := by rw [hw3]; rfl
            rw [h1, hBchunkne cj hcne]
        · constructor
          · have h1 : w3.archD a = wB.archD a := by rw [hw3]; rfl
            rw [h1, hBarchne a haa]
          · intro cj hcj hne2
            have h1 : w3.chunkD a cj = wB.chunkD a cj := by rw [hw3]; rfl
            rw [h1]
            simp only [World.chunkD, hBarchne a haa]
      refine ⟨?_, ?_, ?_, ?_⟩
      · show (w3.slotD i).archetype < w3.archetypes.length
        rw [hsl]
        have h1 : w3.archetypes.length = w.archetypes.length := by
          have h2 : w3.archetypes.length = wB.archetypes.length := by rw [hw3]; rfl
          rw [h2, hBarchlen]
        rw [h1]
        exact g1
      · show (w3.slotD i).chunk < ((w3.archD (w3.slotD i).archetype)).chunks.length
        rw [hsl]
        have := (harchle _ g1).1
        omega
      · show (w3.slotD i).row < ((w3.chunkD (w3.slotD i).archetype
          (w3.slotD i).chunk)).count
        rw [hsl]
        by_cases hx : (w.slotD i).archetype = wA.root_archetype ∧ (w.slotD i).chunk = ci
        · obtain ⟨hx1, hx2⟩ := hx
          rw [hx1, hx2]
          have h1 : w3.chunkD wA.root_archetype ci = wB.chunkD wA.root_archetype ci := by
            rw [hw3]; rfl
          rw [h1, hBchunk]
          show (w.slotD i).row < (w'.chunkD wA.root_archetype ci).count
          rw [A9]
          rw [hx1, hx2] at g3
          rcases A11 with h | h
          · have h6 := h.2.2.2.2.2
            rw [hAchunk] at h6
            omega
          · exfalso
            rw [hx1] at g2
            have h2 := h.2.1
            rw [hAarchD] at h2
            omega
        · rw [(harchle _ g1).2 _ g2 hx]
          exact g3
      · show ((w3.chunkD (w3.slotD i).archetype
          (w3.slotD i).chunk)).entities.getD (w3.slotD i).row 0 =
          lt_entity_pack i (w3.slotD i).generation
        rw [hsl]
        by_cases hx : (w.slotD i).archetype = wA.root_archetype ∧ (w.slotD i).chunk = ci
        · obtain ⟨hx1, hx2⟩ := hx
          rw [hx1, hx2]
          have h1 : w3.chunkD wA.root_archetype ci = wB.chunkD wA.root_archetype ci := by
            rw [hw3]; rfl
          rw [h1, hBchunk]
          show ((w'.chunkD wA.root_archetype ci).entities.set row
            (lt_entity_pack index (wA.slotD index).generation)).getD (w.slotD i).row 0 =
            lt_entity_pack i (w.slotD i).generation
          rw [hx1, hx2] at g3 g4
          have hrlt : (w.slotD i).row < row := by
            rcases A11 with h | h
            · have h6 := h.2.2.2.2.2
              rw [hAchunk] at h6
              omega
            · exfalso
              have h2 := h.2.1
              rw [hAarchD] at h2
              have h3 := g2
              rw [hx1] at h3
              omega
          rw [getD_set_ne _ row _ _ 0 (by omega)]
          rcases A11 with h | h
          · have h5 := h.2.2.1
            rw [h5, hAchunk]
            exact g4
          · exfalso
            have h2 := h.2.1
            rw [hAarchD] at h2
            have h3 := g2
            rw [hx1] at h3
            omega
        · rw [(harchle _ g1).2 _ g2 hx]
          exact g4
  · intro a c r ha hc hr
    have ha' : a < w.archetypes.length := by
      rw [← hBarchlen]
      exact ha
    have hidx32 : index < U32LIMIT := by omega
    by_cases hx : a = wA.root_archetype ∧ c = ci
    · obtain ⟨hx1, hx2⟩ := hx
      rw [hx1, hx2] at hr ⊢
      have hcnt : (wB.chunkD wA.root_archetype ci).count = row + 1 := by
        rw [hBchunk]
        exact A9
      have hr2 : r < row + 1 := by
        rw [← hcnt]
        exact hr
      have hlenent : row < (w'.chunkD wA.root_archetype ci).entities.length := by
        rw [C3]
        omega
      by_cases hrr : r = row
      · have hcell3 : (w3.chunkD wA.root_archetype ci).entities.getD r 0 =
            lt_entity_pack index (wA.slotD index).generation := by
          have h1 : w3.chunkD wA.root_archetype ci =
              wB.chunkD wA.root_archetype ci := by rw [hw3]; rfl
          rw [h1, hBchunk, hrr]
          exact getD_set_eq _ row _ 0 hlenent
        have hip : lt_entity_index
            (lt_entity_pack index (wA.slotD index).generation) = index :=
          index_pack index _ hidx32
        have hgp : lt_entity_generation
            (lt_entity_pack index (wA.slotD index).generation) =
            (wA.slotD index).generation :=
          gen_pack index _ hgenAlt
        show BackwardAt w3 wA.root_archetype ci r
        simp only [BackwardAt]
        rw [hcell3, hip, hgp]
        refine ⟨?_, ?_, ?_, ?_, ?_, ?_⟩
        · rw [h3slen]
          exact hidx
        · rw [h3sidx]
        · rw [h3sidx]
          exact hgenA.symm
        · rw [h3sidx]
        · rw [h3sidx]
        · rw [h3sidx]
          exact hrr.symm
      · have hr3 : r < row := by omega
        have hcell3 : (w3.chunkD wA.root_archetype ci).entities.getD r 0 =
            (w'.chunkD wA.root_archetype ci).entities.getD r 0 := by
          have h1 : w3.chunkD wA.root_archetype ci =
              wB.chunkD wA.root_archetype ci := by rw [hw3]; rfl
          rw [h1, hBchunk]
          exact getD_set_ne _ row r _ 0 hrr
        rcases A11 with h | h
        · obtain ⟨hL1, hL2, hL3, hL4, hL5, hL6⟩ := h
          have hciw : ci < (w.archD wA.root_archetype).chunks.length := by
            have h2 := hL2
            rw [hAarchD] at h2
            exact h2
          have hrw2 : r < (w.chunkD wA.root_archetype ci).count := by
            rw [← hAchunk, hL6]
            exact hr3
          have hroot3 : wA.root_archetype < w.archetypes.length := by
            have h3 := hrootA
            rw [hAarch] at h3
            exact h3
          have B := hback wA.root_archetype ci r hroot3 hciw hrw2
          have hcellw : (w'.chunkD wA.root_archetype ci).entities.getD r 0 =
              (w.chunkD wA.root_archetype ci).entities.getD r 0 := by
            rw [hL3, hAchunk]
          obtain ⟨B1, B2, B3, B4, B5, B6⟩ := B
          have hne : lt_entity_index
              ((w.chunkD wA.root_archetype ci).entities.getD r 0) ≠ index := by
            intro hEq
            rw [hEq, hdead] at B2
            exact Bool.noConfusion B2
          show BackwardAt w3 wA.root_archetype ci r
          simp only [BackwardAt]
          rw [hcell3, hcellw]
          refine ⟨?_, ?_, ?_, ?_, ?_, ?_⟩
          · rw [h3slen]
            exact B1
          · rw [h3sne _ hne]
            exact B2
          · rw [h3sne _ hne]
            exact B3
          · rw [h3sne _ hne]
            exact B4
          · rw [h3sne _ hne]
            exact B5
          · rw [h3sne _ hne]
            exact B6
        · have h0 : row = 0 := h.2.2.1
          exact absurd hr3 (by omega)
    · have hchD : w3.chunkD a c = w.chunkD a c := by
        by_cases ha2 : a = wA.root_archetype
        · have hc2 : c ≠ ci := fun h => hx ⟨ha2, h⟩
          rw [ha2]
          have h1 : w3.chunkD wA.root_archetype c =
              wB.chunkD wA.root_archetype c := by rw [hw3]; rfl
          rw [h1, hBchunkne c hc2]
        · have h1 : w3.chunkD a c = wB.chunkD a c := by rw [hw3]; rfl
          rw [h1]
          simp only [World.chunkD, hBarchne a ha2]
      have hcw : c < (w.archD a).chunks.length := by
        by_cases ha2 : a = wA.root_archetype
        · rw [ha2] at hc ⊢
          have hc2 : c < (w'.archD wA.root_archetype).chunks.length := by
            rw [← hBchunks_len]
            exact hc
          rcases A11 with h | h
          · rw [h.1, hAarchD] at hc2
            exact hc2
          · rw [h.1, hAarchD] at hc2
            have hcic : c ≠ ci := fun hh => hx ⟨ha2, hh⟩
            have h2 := h.2.1
            rw [hAarchD] at h2
            omega
        · have h1 : wB.archD a = w.archD a := hBarchne a ha2
          rw [← h1]
          exact hc
      have hrw2 : r < (w.chunkD a c).count := by
        rw [← hchD]
        exact hr
      have B := hback a c r ha' hcw hrw2
      have hcell3 : (w3.chunkD a c).entities.getD r 0 =
          (w.chunkD a c).entities.getD r 0 := by
        rw [hchD]
      obtain ⟨B1, B2, B3, B4, B5, B6⟩ := B
      have hne : lt_entity_index ((w.chunkD a c).entities.getD r 0) ≠ index := by
        intro hEq
        rw [hEq, hdead] at B2
        exact Bool.noConfusion B2
      show BackwardAt w3 a c r
      simp only [BackwardAt]
      rw [hcell3]
      refine ⟨?_, ?_, ?_, ?_, ?_, ?_⟩
      · rw [h3slen]
        exact B1
      · rw [h3sne _ hne]
        exact B2
      · rw [h3sne _ hne]
        exact B3
      · rw [h3sne _ hne]
        exact B4
      · rw [h3sne _ hne]
        exact B5
      · rw [h3sne _ hne]
        exact B6

/-- `freeChainOk` transfers to a world with at least as many slots when the
chain members' slots are unchanged. -/
theorem freeChainOk_mono (w w' : World) (hlen : w.slots.length ≤ w'.slots.length) :
    ∀ (F : List Nat) (h : Nat),
      (∀ i ∈ F, (w'.slotD i).alive = (w.slotD i).alive ∧
        (w'.slotD i).next_free = (w.slotD i).next_free) →
      freeChainOk w F h → freeChainOk w' F h := by
  intro F
  induction F with
  | nil =>
    intro h _ hok
    exact hok
  | cons a rest ih =>
    intro h hmem hok
    obtain ⟨h1, h2, h3, h4⟩ := hok
    have hm := hmem a (by simp)
    refine ⟨h1, by omega, ?_, ?_⟩
    · rw [hm.1]
      exact h3
    · rw [hm.2]
      exact ih _ (fun i hi => hmem i (List.mem_cons_of_mem a hi)) h4

/-- Appending one fresh dead slot and finishing the creation preserves the
world invariant (the shared tail of both `lt_entity_create` branches that
extend the slot array). -/
theorem create_finish_append (w1 : World) (hw1 : WorldInv w1)
    (hcap2 : w1.slots.length + 1 ≤ w1.entity_capacity) :
    WorldInv (entityCreateFinish { w1 with slots := w1.slots ++ [default] }
      w1.slots.length).2.1 ∧
    (entityCreateFinish { w1 with slots := w1.slots ++ [default] }
      w1.slots.length).2.1.defer_depth = w1.defer_depth ∧
    (entityCreateFinish { w1 with slots := w1.slots ++ [default] }
      w1.slots.length).2.1.deferred = w1.deferred := by
  set w2 : World := { w1 with slots := w1.slots ++ [default] } with hw2
  have h2len : w2.slots.length = w1.slots.length + 1 := by
    show (w1.slots ++ [default]).length = w1.slots.length + 1
    simp
  have h2sne : ∀ i, i < w1.slots.length → w2.slotD i = w1.slotD i := by
    intro i hi
    show (w1.slots ++ [default]).getD i default = w1.slots.getD i default
    exact getD_append_left _ _ i default hi
  have h2sidx : w2.slotD w1.slots.length = default := by
    show (w1.slots ++ [default]).getD w1.slots.length default = default
    rw [getD_append_right _ _ _ _ (Nat.le_refl _)]
    simp
  have h2arch : w2.archetypes = w1.archetypes := rfl
  have h2comp : w2.components = w1.components := rfl
  have h2archD : ∀ a, w2.archD a = w1.archD a := fun a => by
    simp only [World.archD, h2arch]
  have h2chunkD : ∀ a c, w2.chunkD a c = w1.chunkD a c := fun a c => by
    simp only [World.chunkD, World.archD, h2arch]
  have hlen32 : w2.slots.length < U32LIMIT := by
    have h1 := hw1.cap_bound
    show w2.slots.length < 4294967296
    omega
  have hidx : w1.slots.length < w2.slots.length := by omega
  have hdead : (w2.slotD w1.slots.length).alive = false := by
    rw [h2sidx]
    rfl
  have hgen : ∀ i, i < w2.slots.length → (w2.slotD i).generation < U32LIMIT := by
    intro i hi
    by_cases hii : i < w1.slots.length
    · rw [h2sne i hii]
      exact hw1.gen_lt i hii
    · have h3 : i = w1.slots.length := by omega
      rw [h3, h2sidx]
      decide
  have hroot : w2.root_archetype < w2.archetypes.length := by
    have h1 := hw1.root_lt
    show w1.root_archetype < w2.archetypes.length
    rw [h2arch]
    exact h1
  have hawf : ArchetypesWF w2 := archetypesWF_congr w1 w2 h2comp h2arch hw1.arch_wf
  have hfor : ∀ i, i < w2.slots.length → (w2.slotD i).alive = true → ForwardAt w2 i := by
    intro i hi hal
    by_cases hii : i < w1.slots.length
    · have hsl := h2sne i hii
      rw [hsl] at hal
      obtain ⟨g1, g2, g3, g4⟩ := hw1.forward i hii hal
      refine ⟨?_, ?_, ?_, ?_⟩
      · rw [hsl, h2arch]
        exact g1
      · rw [hsl, h2archD]
        exact g2
      · rw [hsl, h2chunkD]
        exact g3
      · rw [hsl, h2chunkD]
        exact g4
    · have h3 : i = w1.slots.length := by omega
      rw [h3, h2sidx] at hal
      exact absurd hal (by decide)
  have hback : ∀ a c r, a < w2.archetypes.length → c < (w2.archD a).chunks.length →
      r < (w2.chunkD a c).count → BackwardAt w2 a c r := by
    intro a c r ha hc hr
    rw [h2arch] at ha
    rw [h2archD] at hc
    rw [h2chunkD] at hr
    obtain ⟨b1, b2, b3, b4, b5, b6⟩ := hw1.backward a c r ha hc hr
    have hcell : (w2.chunkD a c).entities.getD r 0 = (w1.chunkD a c).entities.getD r 0 := by
      rw [h2chunkD]
    have hsl := h2sne _ b1
    refine ⟨?_, ?_, ?_, ?_, ?_, ?_⟩
    · rw [hcell]
      omega
    · rw [hcell, hsl]
      exact b2
    · rw [hcell, hsl]
      exact b3
    · rw [hcell, hsl]
      exact b4
    · rw [hcell, hsl]
      exact b5
    · rw [hcell, hsl]
      exact b6
  obtain ⟨E1, E2, E3, E4, E5, E6, E7, E8, E9, E10, E11⟩ :=
    entityCreateFinish_spec w2 w1.slots.length hidx hdead hlen32 hgen hroot hawf hfor hback
  set R := (entityCreateFinish w2 w1.slots.length).2.1 with hR
  have hRcap : R.entity_capacity = w1.entity_capacity := by rw [E6]
  have hRroot : R.root_archetype = w1.root_archetype := by rw [E6]
  have hRhead : R.free_entity_head = w1.free_entity_head := by rw [E6]
  have hRdef : R.deferred = w1.deferred := by rw [E6]
  refine ⟨⟨?_, ?_, ?_, ?_, ?_, ?_, ?_, ?_, ?_⟩, ?_, ?_⟩
  · rw [hRcap]
    exact hw1.cap_bound
  · rw [E2, h2len, hRcap]
    exact hcap2
  · intro i hi
    rw [E2] at hi
    exact E8 i hi
  · rw [hRroot, E7, h2arch]
    exact hw1.root_lt
  · exact E9
  · intro i hi hal
    rw [E2] at hi
    exact E10 i hi hal
  · exact E11
  · obtain ⟨F, hnd, hch, hcov⟩ := hw1.freelist
    refine ⟨F, hnd, ?_, ?_⟩
    · rw [hRhead]
      refine freeChainOk_mono w1 R ?_ F w1.free_entity_head ?_ hch
      · rw [E2, h2len]
        omega
      · intro i hi2
        have hm := freeChainOk_mem w1 F w1.free_entity_head hch i hi2
        have hne : i ≠ w1.slots.length := by omega
        rw [E3 i hne, h2sne i hm.1]
        exact ⟨rfl, rfl⟩
    · intro i hi hdead2
      rw [E2, h2len] at hi
      by_cases hii : i = w1.slots.length
      · exfalso
        rw [hii, E4] at hdead2
        exact Bool.noConfusion hdead2
      · have hilt : i < w1.slots.length := by omega
        rw [E3 i hii, h2sne i hilt] at hdead2
        exact hcov i hilt hdead2
  · intro op hop
    rw [hRdef] at hop
    exact hw1.deferred_entities op hop
  · rw [E6]
  · rw [E6]

/-- `lt_entity_create` preserves the world invariant and touches neither
the defer depth nor the command queue. -/
theorem create_preserves (w : World) (hw : WorldInv w) :
    WorldInv (lt_entity_create w).2.1 ∧
    (lt_entity_create w).2.1.defer_depth = w.defer_depth ∧
    (lt_entity_create w).2.1.deferred = w.deferred := by
  simp only [lt_entity_create]
  by_cases hfh : w.free_entity_head ≠ U32MAX
  · rw [if_pos hfh]
    obtain ⟨F, hnd, hch, hcov⟩ := hw.freelist
    cases F with
    | nil =>
      exact absurd hch hfh
    | cons i0 F' =>
      obtain ⟨hc1, hc2, hc3, hc4⟩ := hch
      set w1 : World := { w with
        free_entity_head := (w.slotD w.free_entity_head).next_free,
        free_entity_count := w.free_entity_count - 1 } with hw1
      have h1slots : w1.slots = w.slots := rfl
      have h1arch : w1.archetypes = w.archetypes := rfl
      have h1comp : w1.components = w.components := rfl
      have hidx : w.free_entity_head < w1.slots.length := by
        rw [h1slots, hc1]
        exact hc2
      have hdead : (w1.slotD w.free_entity_head).alive = false := by
        show (w.slotD w.free_entity_head).alive = false
        rw [hc1]
        exact hc3
      have hlen32 : w1.slots.length < U32LIMIT := by
        rw [h1slots]
        exact inv_slots_lt w hw
      have hgen : ∀ i, i < w1.slots.length → (w1.slotD i).generation < U32LIMIT := by
        intro i hi
        rw [h1slots] at hi
        show (w.slotD i).generation < U32LIMIT
        exact hw.gen_lt i hi
      have hroot : w1.root_archetype < w1.archetypes.length := by
        show w.root_archetype < w.archetypes.length
        exact hw.root_lt
      have hawf : ArchetypesWF w1 := archetypesWF_congr w w1 h1comp h1arch hw.arch_wf
      have hfor : ∀ i, i < w1.slots.length → (w1.slotD i).alive = true → ForwardAt w1 i := by
        intro i hi hal
        rw [h1slots] at hi
        exact forwardAt_congr w w1 i h1slots h1arch (hw.forward i hi hal)
      have hback : ∀ a c r, a < w1.archetypes.length → c < (w1.archD a).chunks.length →
          r < (w1.chunkD a c).count → BackwardAt w1 a c r := by
        intro a c r ha hc hr
        exact backwardAt_congr w w1 a c r h1slots h1arch (hw.backward a c r ha hc hr)
      obtain ⟨E1, E2, E3, E4, E5, E6, E7, E8, E9, E10, E11⟩ :=
        entityCreateFinish_spec w1 w.free_entity_head hidx hdead hlen32 hgen hroot
          hawf hfor hback
      set R := (entityCreateFinish w1 w.free_entity_head).2.1 with hR
      have hRcap : R.entity_capacity = w.entity_capacity := by rw [E6]
      have hRroot : R.root_archetype = w.root_archetype := by rw [E6]
      have hRhead : R.free_entity_head = (w.slotD w.free_entity_head).next_free := by
        rw [E6]
      have hRdef : R.deferred = w.deferred := by rw [E6]
      refine ⟨⟨?_, ?_, ?_, ?_, ?_, ?_, ?_, ?_, ?_⟩, ?_, ?_⟩
      · rw [hRcap]
        exact hw.cap_bound
      · rw [E2, h1slots, hRcap]
        exact hw.slots_cap
      · intro i hi
        rw [E2] at hi
        exact E8 i hi
      · rw [hRroot, E7, h1arch]
        exact hw.root_lt
      · exact E9
      · intro i hi hal
        rw [E2] at hi
        exact E10 i hi hal
      · exact E11
      · refine ⟨F', (List.nodup_cons.mp hnd).2, ?_, ?_⟩
        · rw [hRhead]
          rw [← hc1] at hc4
          refine freeChainOk_mono w R ?_ F' _ ?_ hc4
          · rw [E2, h1slots]
          · intro i hi2
            have hm := freeChainOk_mem w F' _ hc4 i hi2
            have hne : i ≠ w.free_entity_head := by
              intro hEq
              have h5 := (List.nodup_cons.mp hnd).1
              rw [hEq, hc1] at hi2
              exact h5 hi2
            rw [E3 i hne]
            exact ⟨rfl, rfl⟩
        · intro i hi hdead2
          rw [E2, h1slots] at hi
          by_cases hii : i = w.free_entity_head
          · exfalso
            rw [hii, E4] at hdead2
            exact Bool.noConfusion hdead2
          · rw [E3 i hii] at hdead2
            have h6 := hcov i hi hdead2
            rcases List.mem_cons.mp h6 with h7 | h7
            · exact absurd (h7.trans hc1.symm) hii
            · exact h7
      · intro op hop
        rw [hRdef] at hop
        exact hw.deferred_entities op hop
      · rw [E6]
      · rw [E6]
  · rw [if_neg hfh]
    by_cases hful : w.slots.length = w.entity_capacity
    · rw [if_pos hful]
      obtain ⟨G1, G2, G3, G4⟩ := grow_entities_spec w (w.slots.length + 1) hw.cap_bound
      by_cases hgok : (lt_grow_entities w (w.slots.length + 1)).1 ≠ Status.ok
      · rw [if_pos hgok]
        exact ⟨hw, rfl, rfl⟩
      · rw [if_neg hgok]
        push_neg at hgok
        set w1 := (lt_grow_entities w (w.slots.length + 1)).2 with hw1g
        have h1slots : w1.slots = w.slots := by rw [G1]
        have h1arch : w1.archetypes = w.archetypes := by rw [G1]
        have h1slotD : ∀ i, w1.slotD i = w.slotD i := fun i => by
          simp only [World.slotD, h1slots]
        have hinv1 : WorldInv w1 := by
          refine ⟨?_, ?_, ?_, ?_, ?_, ?_, ?_, ?_, ?_⟩
          · exact G3
          · rw [h1slots]
            have h9 := hw.slots_cap
            have h8 := G2
            omega
          · intro i hi
            rw [h1slots] at hi
            rw [h1slotD]
            exact hw.gen_lt i hi
          · have h9 : w1.root_archetype = w.root_archetype := by rw [G1]
            rw [h9, h1arch]
            exact hw.root_lt
          · exact archetypesWF_congr w w1 (by rw [G1]) h1arch hw.arch_wf
          · intro i hi hal
            rw [h1slots] at hi
            rw [h1slotD] at hal
            exact forwardAt_congr w w1 i h1slots h1arch (hw.forward i hi hal)
          · intro a c r ha hc hr
            rw [h1arch] at ha
            have h7 : w1.archD a = w.archD a := by simp only [World.archD, h1arch]
            have h6 : w1.chunkD a c = w.chunkD a c := by
              simp only [World.chunkD, World.archD, h1arch]
            rw [h7] at hc
            rw [h6] at hr
            exact backwardAt_congr w w1 a c r h1slots h1arch (hw.backward a c r ha hc hr)
          · obtain ⟨F, hnd, hch, hcov⟩ := hw.freelist
            refine ⟨F, hnd, ?_, ?_⟩
            · have h9 : w1.free_entity_head = w.free_entity_head := by rw [G1]
              rw [h9]
              refine freeChainOk_congr w w1 ?_ F _ ?_ hch
              · rw [h1slots]
              · intro i hi2
                rw [h1slotD]
                exact ⟨rfl, rfl⟩
            · intro i hi hdead2
              rw [h1slots] at hi
              rw [h1slotD] at hdead2
              exact hcov i hi hdead2
          · intro op hop
            have h9 : w1.deferred = w.deferred := by rw [G1]
            rw [h9] at hop
            exact hw.deferred_entities op hop
        have hcap2' : w1.slots.length + 1 ≤ w1.entity_capacity := by
          rw [h1slots]
          exact G4 hgok
        obtain ⟨hC1, hC2, hC3⟩ := create_finish_append w1 hinv1 hcap2'
        refine ⟨hC1, ?_, ?_⟩
        · rw [hC2, G1]
        · rw [hC3, G1]
    · rw [if_neg hful]
      rw [if_neg (show ¬ ((Status.ok, w) : Status × World).1 ≠ Status.ok from
        fun h => h rfl)]
      have hcap2' : w.slots.length + 1 ≤ w.entity_capacity := by
        have h9 := hw.slots_cap
        omega
      obtain ⟨hC1, hC2, hC3⟩ := create_finish_append w hw hcap2'
      exact ⟨hC1, hC2, hC3⟩

/-- Replaying one queued command preserves the world invariant. -/
theorem apply_op_preserves (w : World) (op : DeferredOp) (hw : WorldInv w)
    (he : op.entity < U32LIMIT * U32LIMIT) :
    WorldInv (applyDeferredOp w op).2 ∧
    (applyDeferredOp w op).2.defer_depth = w.defer_depth ∧
    (w.defer_depth = 0 → (applyDeferredOp w op).2.deferred = w.deferred) := by
  cases hop : op.kind with
  | addComponent =>
    simp only [applyDeferredOp, hop]
    exact add_preserves w op.entity op.component_id op.payload hw he
  | removeComponent =>
    simp only [applyDeferredOp, hop]
    exact remove_preserves w op.entity op.component_id hw he
  | destroyEntity =>
    simp only [applyDeferredOp, hop]
    exact destroy_preserves w op.entity hw he

/-- Replaying a queue of commands at depth 0 preserves the world invariant
and leaves the (untouched) queue and depth alone. -/
theorem run_ops_preserves (ops : List DeferredOp) (w : World) (hw : WorldInv w)
    (hd : w.defer_depth = 0)
    (he : ∀ op ∈ ops, op.entity < U32LIMIT * U32LIMIT) :
    WorldInv (runDeferredOps w ops).2 ∧
    (runDeferredOps w ops).2.defer_depth = 0 ∧
    (runDeferredOps w ops).2.deferred = w.deferred := by
  induction ops generalizing w with
  | nil =>
    exact ⟨hw, hd, rfl⟩
  | cons op rest ih =>
    rw [runDeferredOps]
    obtain ⟨hA1, hA2, hA3⟩ := apply_op_preserves w op hw (he op (by simp))
    rcases hap : applyDeferredOp w op with ⟨s, w'⟩
    simp only [hap] at hA1 hA2 hA3
    cases s
    case ok =>
      have hdep' : w'.defer_depth = 0 := by rw [hA2]; exact hd
      have hdef' : w'.deferred = w.deferred := hA3 hd
      obtain ⟨hB1, hB2, hB3⟩ := ih w' hA1 hdep'
        (fun o ho => he o (List.mem_cons_of_mem op ho))
      refine ⟨?_, ?_, ?_⟩
      · show WorldInv (runDeferredOps w' rest).2
        exact hB1
      · show (runDeferredOps w' rest).2.defer_depth = 0
        exact hB2
      · show (runDeferredOps w' rest).2.deferred = w.deferred
        rw [hB3, hdef']
    all_goals exact ⟨hA1, hA2.trans hd, hA3 hd⟩

/-- `lt_world_flush` preserves the world invariant and the defer depth. -/
theorem flush_preserves (w : World) (hw : WorldInv w) :
    WorldInv (lt_world_flush w).2 ∧
    (lt_world_flush w).2.defer_depth = w.defer_depth := by
  rw [lt_world_flush]
  by_cases hd : w.defer_depth ≠ 0
  · rw [if_pos hd]
    exact ⟨hw, rfl⟩
  · rw [if_neg hd]
    push_neg at hd
    obtain ⟨hR1, hR2, hR3⟩ := run_ops_preserves w.deferred w hw hd hw.deferred_entities
    rcases hrun : runDeferredOps w w.deferred with ⟨s, w'⟩
    simp only [hrun] at hR1 hR2 hR3
    refine ⟨?_, ?_⟩
    · show WorldInv { w' with deferred := [] }
      obtain ⟨F, hnd, hch, hcov⟩ := hR1.freelist
      refine ⟨hR1.cap_bound, hR1.slots_cap, hR1.gen_lt, hR1.root_lt, hR1.arch_wf,
        hR1.forward, hR1.backward, ⟨F, hnd, ?_, hcov⟩, ?_⟩
      · exact freeChainOk_congr w' { w' with deferred := ([] : List DeferredOp) }
          rfl F w'.free_entity_head (fun i _ => ⟨rfl, rfl⟩) hch
      · intro op hop
        exact absurd hop (List.not_mem_nil op)
    · show w'.defer_depth = w.defer_depth
      rw [hR2, hd]

/-- C1: the entity location invariant (packaged in `WorldInv`) is
preserved by every core operation — `entity_create`, `entity_destroy`,
`add_component`, `remove_component` and `flush` — successful or not; on
any such world every alive entity's slot names a chunk on its archetype's
chunk list and the entity column there holds the packed handle; and
swap-remove of a non-last row copies the last row's entity into the
removed row and redirects the moved entity's slot to the new row. -/
theorem c1_entity_location_invariant (w : World) (e cid : Nat)
    (p : Option (List Nat)) (hw : WorldInv w)
    (he : e < U32LIMIT * U32LIMIT) :
    WorldInv (lt_entity_create w).2.1 ∧
    WorldInv (lt_entity_destroy w e).2 ∧
    WorldInv (lt_add_component w e cid p).2 ∧
    WorldInv (lt_remove_component w e cid).2 ∧
    WorldInv (lt_world_flush w).2 ∧
    (∀ i, i < w.slots.length → (w.slotD i).alive = true →
      (w.slotD i).archetype < w.archetypes.length ∧
      (w.slotD i).chunk < (w.archD (w.slotD i).archetype).chunks.length ∧
      (w.chunkD (w.slotD i).archetype (w.slotD i).chunk).entities.getD
        (w.slotD i).row 0 = lt_entity_pack i (w.slotD i).generation) ∧
    (∀ ai ci row, ai < w.archetypes.length → ci < (w.archD ai).chunks.length →
      row < (w.chunkD ai ci).count → row ≠ (w.chunkD ai ci).count - 1 →
      ((lt_archetype_swap_remove_row w ai ci row).chunkD ai ci).entities.getD row 0 =
        (w.chunkD ai ci).entities.getD ((w.chunkD ai ci).count - 1) 0 ∧
      ((lt_archetype_swap_remove_row w ai ci row).slotD
        (lt_entity_index ((w.chunkD ai ci).entities.getD
          ((w.chunkD ai ci).count - 1) 0))).row = row ∧
      ((lt_archetype_swap_remove_row w ai ci row).slotD
        (lt_entity_index ((w.chunkD ai ci).entities.getD
          ((w.chunkD ai ci).count - 1) 0))).archetype = ai ∧
      ((lt_archetype_swap_remove_row w ai ci row).slotD
        (lt_entity_index ((w.chunkD ai ci).entities.getD
          ((w.chunkD ai ci).count - 1) 0))).chunk = ci) := by
  refine ⟨(create_preserves w hw).1, (destroy_preserves w e hw he).1,
    (add_preserves w e cid p hw he).1, (remove_preserves w e cid hw he).1,
    (flush_preserves w hw).1, ?_, ?_⟩
  · intro i hi hal
    obtain ⟨g1, g2, g3, g4⟩ := hw.forward i hi hal
    exact ⟨g1, g2, g4⟩
  · intro ai ci row hai hci hrow hne
    set exIdx := lt_entity_index ((w.chunkD ai ci).entities.getD row 0) with hex0
    have hlen32 := inv_slots_lt w hw
    have hexrow : ∀ i, i < w.slots.length → i ≠ exIdx → (w.slotD i).alive = true →
        ¬((w.slotD i).archetype = ai ∧ (w.slotD i).chunk = ci ∧
          (w.slotD i).row = row) := by
      intro i hi hne2 hal hp
      obtain ⟨p1, p2, p3⟩ := hp
      obtain ⟨g1, g2, g3, g4⟩ := hw.forward i hi hal
      rw [p1, p2, p3] at g4
      apply hne2
      rw [hex0, g4, index_pack i _ (by omega)]
    have hexx : ∀ r, r < (w.chunkD ai ci).count → r ≠ row →
        lt_entity_index ((w.chunkD ai ci).entities.getD r 0) ≠ exIdx := by
      intro r hr hner heq2
      obtain ⟨b1, b2, b3, b4, b5, b6⟩ := hw.backward ai ci r hai hci hr
      obtain ⟨c1, c2, c3, c4, c5, c6⟩ := hw.backward ai ci row hai hci hrow
      rw [hex0] at heq2
      rw [heq2] at b6
      rw [c6] at b6
      exact hner b6.symm
    obtain ⟨P1, P2, P2b, P3, P4, P5, P6, P7, P8, P9, P10, P11, P12, P13⟩ :=
      swap_remove_main w ai ci row exIdx hai hci hrow hlen32 hw.gen_lt
        hw.arch_wf (fun a c r ha hc hr _ => hw.backward a c r ha hc hr)
        (fun i hi _ hal => hw.forward i hi hal) hexrow hexx
    have hole := P13 hne
    have hrow2 : row < ((lt_archetype_swap_remove_row w ai ci row).chunkD ai ci).count := by
      rw [P9]
      omega
    obtain ⟨q1, q2, q3, q4, q5, q6⟩ := P11 ai ci row hai hci hrow2
    rw [hole] at q4 q5 q6
    exact ⟨hole, q6, q4, q5⟩

/-- Witness for C1: destroying the sole entity of the concrete one-entity
world keeps the invariant, and on the concrete two-entity world the
swap-remove of row 0 copies row 1's entity into row 0 and redirects that
entity's slot to row 0. -/
theorem c1_entity_location_invariant_witness :
    WorldInv (lt_entity_destroy c3World 4294967296).2 ∧
    ((lt_archetype_swap_remove_row c3World2 0 0 0).chunkD 0 0).entities.getD 0 0 =
      (c3World2.chunkD 0 0).entities.getD ((c3World2.chunkD 0 0).count - 1) 0 ∧
    ((lt_archetype_swap_remove_row c3World2 0 0 0).slotD
      (lt_entity_index ((c3World2.chunkD 0 0).entities.getD
        ((c3World2.chunkD 0 0).count - 1) 0))).row = 0 := by
  have h1 := (c1_entity_location_invariant c3World 4294967296 1 none
    c3World_inv (by decide)).2.1
  have h2 := (c1_entity_location_invariant c3World2 4294967296 1 none
    c3World2_inv (by decide)).2.2.2.2.2.2 0 0 0 (by decide) (by decide)
    (by decide) (by decide)
  exact ⟨h1, h2.1, h2.2.1⟩

/-- C5: a deferred `add_component` copies the initial-value bytes into the
command it enqueues (an owned snapshot, so later changes to the caller's
buffer cannot reach it), and on the claim's scenario the flushed component
equals the enqueue-time bytes while `pending_commands` goes 0 → 1 → 0. -/
theorem c5_deferred_payload_capture (w : World) (e cid : Nat) (v : List Nat)
    (he0 : e ≠ 0) (hc0 : cid ≠ 0) (hsz : (w.componentGet cid).size > 0) :
    lt_enqueue_add_component w e cid (some v) = (Status.ok, { w with
      deferred := w.deferred ++
        [{ kind := DeferredKind.addComponent, entity := e, component_id := cid,
           payload := some v }] }) ∧
    ((lt_world_get_stats c5World).pending_commands = 0 ∧
     (lt_world_begin_defer c5World).1 = Status.ok ∧
     (lt_add_component (lt_world_begin_defer c5World).2 4294967296 1
       (some [3, 4, 5])).1 = Status.ok ∧
     (lt_add_component (lt_world_begin_defer c5World).2 4294967296 1
       (some [3, 4, 5])).2.deferred =
       [{ kind := DeferredKind.addComponent, entity := 4294967296,
          component_id := 1, payload := some [3, 4, 5] }] ∧
     (lt_world_get_stats (lt_add_component (lt_world_begin_defer c5World).2
       4294967296 1 (some [3, 4, 5])).2).pending_commands = 1 ∧
     (lt_world_end_defer (lt_add_component (lt_world_begin_defer c5World).2
       4294967296 1 (some [3, 4, 5])).2).1 = Status.ok ∧
     (lt_world_flush (lt_world_end_defer (lt_add_component
       (lt_world_begin_defer c5World).2 4294967296 1 (some [3, 4, 5])).2).2).1
       = Status.ok ∧
     (lt_world_get_stats (lt_world_flush (lt_world_end_defer (lt_add_component
       (lt_world_begin_defer c5World).2 4294967296 1
       (some [3, 4, 5])).2).2).2).pending_commands = 0 ∧
     lt_get_component (lt_world_flush (lt_world_end_defer (lt_add_component
       (lt_world_begin_defer c5World).2 4294967296 1 (some [3, 4, 5])).2).2).2
       4294967296 1 = (Status.ok, some (some [3, 4, 5]))) := by
  constructor
  · simp only [lt_enqueue_add_component]
    rw [if_neg (by push_neg; exact ⟨he0, hc0⟩), if_pos hsz]
  · decide

/-- Witness for C5: the capture equation at the registered-component world
with payload `[3, 4, 5]`, and the scenario's readback after the flush. -/
theorem c5_deferred_payload_capture_witness :
    lt_enqueue_add_component (lt_register_component tinyWorld
      { name := "p", size := 3, align := 1, flags := 0 }).2.1 4294967296 1
      (some [3, 4, 5]) = (Status.ok, { (lt_register_component tinyWorld
        { name := "p", size := 3, align := 1, flags := 0 }).2.1 with
        deferred := (lt_register_component tinyWorld
          { name := "p", size := 3, align := 1, flags := 0 }).2.1.deferred ++
          [{ kind := DeferredKind.addComponent, entity := 4294967296,
             component_id := 1, payload := some [3, 4, 5] }] }) ∧
    lt_get_component (lt_world_flush (lt_world_end_defer (lt_add_component
      (lt_world_begin_defer c5World).2 4294967296 1 (some [3, 4, 5])).2).2).2
      4294967296 1 = (Status.ok, some (some [3, 4, 5])) := by
  have h := c5_deferred_payload_capture (lt_register_component tinyWorld
    { name := "p", size := 3, align := 1, flags := 0 }).2.1 4294967296 1 [3, 4, 5]
    (by decide) (by decide) (by decide)
  exact ⟨h.1, h.2.2.2.2.2.2.2.2.2⟩
